import Mathlib

/-!
Verification development for the graph-RAG subsystem of the repository
(`src/src/graph_rag.py`).  The Python module builds two directed graphs
(a database-schema graph and a query graph) on top of `networkx.DiGraph`
and exposes join-path search, query-similarity linking and snapshot
persistence.  Below, every Python function relevant to the stated claims
is shallowly embedded as an executable Lean definition:

* Python strings are Lean `String`s; the Python string primitives used by
  the module (`lower`, `upper`, `strip`, `split`, `replace`, `startswith`,
  `endswith`, `in`, `' '.join`) are re-implemented over `List Char` with
  Python semantics (ASCII case mapping, whitespace runs, left-to-right
  non-overlapping replacement).
* `networkx.DiGraph` is modelled as insertion-ordered association lists of
  nodes and edges.  Every call site in the module writes the full, fixed
  attribute set for the node/edge kind it touches, so networkx's
  attribute-dict merge coincides with replacement, which is how
  `Graph.addNode` / `Graph.addEdge` model it.  `add_edge` inserts missing
  endpoints with an empty attribute dict, as in networkx.
* `hashlib.md5(x).hexdigest()[:8]` is modelled by an arbitrary function
  parameter `md5_8 : String → String`; the code relies only on its
  determinism.  Statements that additionally need freedom from hash
  collisions take `Function.Injective md5_8` as an explicit hypothesis.
* `datetime.now().isoformat()` is passed in as an explicit `timestamp`
  argument, and `str(result)` is modelled by taking the result already as
  a string.
* similarity scores (Python floats obtained as quotients of small entity
  counts) are modelled as exact rationals; for denominators of at most 12
  the float comparison against the literal `0.3` agrees with the exact
  rational comparison against `3/10`.
* `nx.shortest_path` (unweighted bidirectional BFS) is modelled by an
  iterative-deepening search over walks, returning an `Except` to model
  the `nx.NodeNotFound` exception for missing endpoints (which the Python
  code does *not* catch; it catches only `nx.NetworkXNoPath`).
* `json` + `nx.node_link_data` / `nx.node_link_graph` serialisation is
  modelled by an explicit JSON value type and node-link encoders/decoders.
-/

namespace GraphRag

/-! ### Python string primitives over `List Char` -/

/-- Python `str.lower()` (ASCII case mapping, which is all the module uses). -/
def strLower (s : String) : String := ⟨s.data.map Char.toLower⟩

/-- Python `str.upper()`. -/
def strUpper (s : String) : String := ⟨s.data.map Char.toUpper⟩

/-- Python `str.strip()` on character lists. -/
def trimCL (l : List Char) : List Char :=
  ((l.dropWhile Char.isWhitespace).reverse.dropWhile Char.isWhitespace).reverse

/-- Python `str.strip()`. -/
def strTrim (s : String) : String := ⟨trimCL s.data⟩

/-- `swCL pat l` : does `l` start with `pat`? -/
def swCL : List Char → List Char → Bool
  | [], _ => true
  | _ :: _, [] => false
  | p :: ps, c :: cs => p == c && swCL ps cs

/-- Python `s.startswith(pat)`. -/
def strStartsWith (s pat : String) : Bool := swCL pat.data s.data

/-- Python `s.endswith(pat)`. -/
def strEndsWith (s pat : String) : Bool := swCL pat.data.reverse s.data.reverse

/-- `containsCL pat l` : does `pat` occur as a contiguous run inside `l`? -/
def containsCL (pat : List Char) : List Char → Bool
  | [] => swCL pat []
  | c :: cs => swCL pat (c :: cs) || containsCL pat cs

/-- Python `pat in s` (substring containment). -/
def strContainsSub (s pat : String) : Bool := containsCL pat.data s.data

/-- Fueled worker for Python `str.replace`: left-to-right, non-overlapping.
The fuel is instantiated with the length of the subject string, which is
enough whenever the pattern is nonempty (every step consumes at least one
character); all call sites in the module use the nonempty patterns
`"table:"`, `"_id"` and `"Id"`. -/
def replCL (pat repl : List Char) : Nat → List Char → List Char
  | _, [] => []
  | 0, s => s
  | fuel + 1, c :: cs =>
    if swCL pat (c :: cs) && !pat.isEmpty then
      repl ++ replCL pat repl fuel ((c :: cs).drop pat.length)
    else
      c :: replCL pat repl fuel cs

/-- Python `s.replace(pat, repl)` (for nonempty `pat`). -/
def strReplace (s pat repl : String) : String :=
  ⟨replCL pat.data repl.data s.data.length s.data⟩

/-- Worker for Python `str.split()` (split on whitespace runs, dropping
empty fields); `acc` is the current word, reversed. -/
def splitWsGo : List Char → List Char → List (List Char)
  | acc, [] => if acc.isEmpty then [] else [acc.reverse]
  | acc, c :: cs =>
    if c.isWhitespace then
      if acc.isEmpty then splitWsGo [] cs else acc.reverse :: splitWsGo [] cs
    else splitWsGo (c :: acc) cs

/-- Python `s.split()`. -/
def splitWs (s : String) : List String := (splitWsGo [] s.data).map (⟨·⟩)

/-- Worker for Python `s.split('\n')` (keeps empty fields). -/
def splitNlGo : List Char → List Char → List (List Char)
  | acc, [] => [acc.reverse]
  | acc, c :: cs =>
    if c == '\n' then acc.reverse :: splitNlGo [] cs else splitNlGo (c :: acc) cs

/-- Python `s.split('\n')`. -/
def splitNl (s : String) : List String := (splitNlGo [] s.data).map (⟨·⟩)

/-- The character set of Python `strip('`"[]')` in `_parse_schema`. -/
def quoteSet : List Char := "`\x22[]".data

/-- Python `s.strip('`"[]')`. -/
def stripQuotes (s : String) : String :=
  ⟨((s.data.dropWhile (quoteSet.contains ·)).reverse.dropWhile
      (quoteSet.contains ·)).reverse⟩

/-- Python `' '.join(ws)` on character lists. -/
def joinSpaceCL : List (List Char) → List Char
  | [] => []
  | [w] => w
  | w :: ws => w ++ ' ' :: joinSpaceCL ws

/-- Python `' '.join(ws)`. -/
def joinSpace (ws : List String) : String := ⟨joinSpaceCL (ws.map String.data)⟩

/-! ### The directed-graph model (`networkx.DiGraph`) -/

/-- Node attributes.  Each node kind of the module sets a fixed subset of
these keys (`type`/`name` for tables and entities, `type`/`name`/
`data_type`/`table` for columns, `type`/`text`/`sql`/`timestamp` for
queries, `type`/`query` for sql nodes, `type`/`data` for result nodes);
absent keys are `none`. -/
structure NodeAttrs where
  type : Option String := none
  name : Option String := none
  data_type : Option String := none
  table : Option String := none
  text : Option String := none
  sql : Option String := none
  timestamp : Option String := none
  query : Option String := none
  data : Option String := none
deriving DecidableEq

/-- Edge attributes (`relationship` on every edge; `via_column` on
`references` edges; `similarity` on `similar_to` edges). -/
structure EdgeAttrs where
  relationship : Option String := none
  via_column : Option String := none
  similarity : Option ℚ := none
deriving DecidableEq

/-- A `networkx.DiGraph` with string node keys: insertion-ordered node
list (unique keys) and insertion-ordered edge list (unique key pairs). -/
structure Graph where
  nodes : List (String × NodeAttrs)
  edges : List (String × String × EdgeAttrs)
deriving DecidableEq

/-- The empty graph (`nx.DiGraph()`). -/
def emptyGraph : Graph := { nodes := [], edges := [] }

/-- `k in G` for a networkx graph. -/
def Graph.hasNode (g : Graph) (k : String) : Bool :=
  g.nodes.any (fun p => p.1 == k)

/-- `G.add_node(k, **a)`.  networkx merges the attribute dict; every call
site writes the full attribute set of the node's kind, so the merge is a
replacement. -/
def Graph.addNode (g : Graph) (k : String) (a : NodeAttrs) : Graph :=
  if g.hasNode k then
    { g with nodes := g.nodes.map (fun p => if p.1 == k then (k, a) else p) }
  else
    { g with nodes := g.nodes ++ [(k, a)] }

/-- Is there an edge entry with key `(u, v)`? -/
def Graph.hasEdge (g : Graph) (u v : String) : Bool :=
  g.edges.any (fun e => e.1 == u && e.2.1 == v)

/-- `G.add_edge(u, v, **a)`: inserts missing endpoints with empty
attributes, then inserts or (as with `add_node`) replaces the `(u, v)`
entry. -/
def Graph.addEdge (g : Graph) (u v : String) (a : EdgeAttrs) : Graph :=
  let ns1 := if g.nodes.any (fun p => p.1 == u) then g.nodes
    else g.nodes ++ [(u, ({} : NodeAttrs))]
  let ns2 := if ns1.any (fun p => p.1 == v) then ns1
    else ns1 ++ [(v, ({} : NodeAttrs))]
  { nodes := ns2,
    edges :=
      if g.hasEdge u v then
        g.edges.map (fun e => if e.1 == u && e.2.1 == v then (u, v, a) else e)
      else
        g.edges ++ [(u, v, a)] }

/-- The node-key list, in insertion order (`G.nodes()`). -/
def Graph.nodeKeys (g : Graph) : List String := g.nodes.map (·.1)

/-- Attribute lookup `G.nodes[k]`. -/
def Graph.nodeAttr (g : Graph) (k : String) : Option NodeAttrs :=
  (g.nodes.find? (fun p => p.1 == k)).map (·.2)

/-- Attribute lookup `G[u][v]`. -/
def Graph.edgeAttr (g : Graph) (u v : String) : Option EdgeAttrs :=
  (g.edges.find? (fun e => e.1 == u && e.2.1 == v)).map (·.2.2)

/-- `G.neighbors(u)` of a `DiGraph`: successors, in edge insertion order. -/
def Graph.successors (g : Graph) (u : String) : List String :=
  (g.edges.filter (fun e => e.1 == u)).map (·.2.1)

/-! ### `SchemaGraphBuilder` -/

/-- The introspection surface of `langchain`'s `SQLDatabase` that the
builder consumes: `get_usable_table_names()` and
`get_table_info_no_throw([t])`. -/
structure SQLDatabaseModel where
  tables : List String
  tableInfo : String → String

/-- `SchemaGraphBuilder._parse_schema`: line-by-line, best-effort parse of
the schema description into `(column name, upper-cased type)` pairs. -/
def _parse_schema (schema : String) : List (String × String) :=
  (splitNl schema).foldr
    (fun line acc =>
      if strContainsSub (strUpper line) "CREATE TABLE"
          || (strTrim line).data.isEmpty then acc
      else
        match splitWs (strTrim line) with
        | p0 :: p1 :: _ => (stripQuotes p0, strUpper p1) :: acc
        | _ => acc)
    []

/-- The candidate referenced-table name derived from a column name:
`col_name.replace('_id', '').replace('Id', '').lower()`. -/
def fkCandidate (col_name : String) : String :=
  strLower (strReplace (strReplace col_name "_id" "") "Id" "")

/-- The list comprehension
`[n.replace('table:', '') for n in self.graph.nodes() if n.startswith('table:')]`. -/
def tableNamesOf (g : Graph) : List String :=
  (g.nodeKeys.filter (fun n => strStartsWith n "table:")).map
    (fun n => strReplace n "table:" "")

/-- One iteration of the `_detect_foreign_keys` column loop. -/
def detectStep (g : Graph) (table : String) (col : String × String) : Graph :=
  if strEndsWith col.1 "_id" || strContainsSub col.1 "Id" then
    if (tableNamesOf g).contains (fkCandidate col.1) then
      g.addEdge ("table:" ++ table) ("table:" ++ fkCandidate col.1)
        { relationship := some "references", via_column := some col.1 }
    else g
  else g

/-- `SchemaGraphBuilder._detect_foreign_keys`: for each column ending in
`_id` or containing `Id`, strip those markers, lower-case the remainder
and look it up among the table names *currently in the graph*; on a hit,
add a `references` edge recording the column. -/
def _detect_foreign_keys (g : Graph) (table : String)
    (columns : List (String × String)) : Graph :=
  columns.foldl (fun g' col => detectStep g' table col) g

/-- `SchemaGraphBuilder._build_schema_graph`: one pass over the tables,
adding the table node, its column nodes with `has_column` edges, and the
inferred `references` edges.  (The per-table `try/except` of the source
cannot fire in this model, as the modelled introspection calls are total.) -/
def _build_schema_graph (db : SQLDatabaseModel) : Graph :=
  db.tables.foldl
    (fun g table =>
      let g := g.addNode ("table:" ++ table)
        { type := some "table", name := some table }
      let columns := _parse_schema (db.tableInfo table)
      let g := columns.foldl
        (fun g' col =>
          let colNode := "column:" ++ table ++ "." ++ col.1
          let g' := g'.addNode colNode
            { type := some "column", name := some col.1,
              data_type := some col.2, table := some table }
          g'.addEdge ("table:" ++ table) colNode
            { relationship := some "has_column" })
        g
      _detect_foreign_keys g table columns)
    emptyGraph

/-! ### Shortest path (`nx.shortest_path`, unweighted) -/

/-- The exceptions of `nx.shortest_path` relevant here.  `NodeNotFound`
(raised when either endpoint is missing) is *not* a subclass of
`NetworkXNoPath`, so the `except nx.NetworkXNoPath` clause in
`get_join_path` does not catch it. -/
inductive NxError where
  | nodeNotFound
deriving DecidableEq

/-- One breadth step: extend every stored (reversed) walk by every
successor of its endpoint. -/
def expandWalks (g : Graph) (fr : List (List String)) : List (List String) :=
  fr.foldr
    (fun p acc =>
      (match p with
       | [] => []
       | u :: _ => (g.successors u).map (fun v => v :: p)) ++ acc)
    []

/-- Iterative-deepening search: `fr` holds all walks of the current length
from the source, reversed (head = current endpoint).  Finds a walk to `t`
of minimal length, if any exists within the fuel. -/
def bfsAux (g : Graph) (t : String) : Nat → List (List String) → Option (List String)
  | 0, _ => none
  | fuel + 1, fr =>
    match fr.find? (fun p => p.head? == some t) with
    | some p => some p.reverse
    | none => bfsAux g t fuel (expandWalks g fr)

/-- `nx.shortest_path(G, s, t)` (unweighted): `NodeNotFound` when either
endpoint is missing, otherwise the node sequence of a shortest directed
path, or `none` when no path exists (`NetworkXNoPath`).  The fuel
`|edges| + 1` covers every duplicate-free walk. -/
def shortest_path (g : Graph) (s t : String) :
    Except NxError (Option (List String)) :=
  if g.hasNode s && g.hasNode t then
    .ok (bfsAux g t (g.edges.length + 1) [[s]])
  else
    .error .nodeNotFound

/-- `SchemaGraphBuilder.get_join_path`: shortest path between the two
table nodes, keeping only `table:`-prefixed nodes and stripping the
prefix.  `nx.NetworkXNoPath` is caught and becomes `none`; a missing
endpoint raises `nx.NodeNotFound`, which is *not* caught. -/
def get_join_path (g : Graph) (table1 table2 : String) :
    Except NxError (Option (List String)) :=
  match shortest_path g ("table:" ++ table1) ("table:" ++ table2) with
  | .error e => .error e
  | .ok none => .ok none
  | .ok (some path) =>
      .ok (some ((path.filter (fun n => strStartsWith n "table:")).map
        (fun n => strReplace n "table:" "")))

/-! ### `QueryGraphBuilder` -/

/-- `QueryGraphBuilder._hash_query`: md5 of the lower-cased, stripped
text, truncated to 8 hex digits; the truncated digest is the parameter
`md5_8`. -/
def _hash_query (md5_8 : String → String) (query : String) : String :=
  md5_8 (strTrim (strLower query))

/-- `QueryGraphBuilder._hash_sql`: md5 of the upper-cased,
whitespace-collapsed SQL, truncated to 8 hex digits. -/
def _hash_sql (md5_8 : String → String) (sqlq : String) : String :=
  md5_8 (joinSpace (splitWs (strUpper sqlq)))

/-- The fixed entity vocabulary of `_extract_entities`. -/
def entityKeywords : List String :=
  ["user", "order", "product", "revenue", "sales", "customer",
   "category", "brand", "state", "city", "month", "year"]

/-- `QueryGraphBuilder._extract_entities`: case-insensitive substring
scan over the fixed keyword list, in list order. -/
def _extract_entities (text : String) : List String :=
  entityKeywords.filter (fun kw => strContainsSub (strLower text) kw)

/-- `QueryGraphBuilder._connect_similar_queries`: for every *other*
query node already in the graph, compare the entity sets extracted from
the new text and from the stored node text; when they intersect and the
overlap ratio `|common| / max(|new|, |existing|, 1)` exceeds `0.3`, add a
`similar_to` edge from the new node to the old one.  The Python loop
iterates over the node list, which edge insertion does not change, so the
fold runs over a snapshot of the node keys; attributes are read from the
evolving graph exactly as `self.graph.nodes[node]` does. -/
def connectStep (new_query_node : String) (new_entities : List String)
    (g' : Graph) (node : String) : Graph :=
  if strStartsWith node "query:" && node != new_query_node then
    let node_text := (((g'.nodeAttr node).map (·.text)).join).getD ""
    let existing_entities := _extract_entities node_text
    let common := new_entities.filter (fun e => existing_entities.contains e)
    if !common.isEmpty then
      let similarity : ℚ := (common.length : ℚ) /
        (max (max new_entities.length existing_entities.length) 1 : ℚ)
      if similarity > 3 / 10 then
        g'.addEdge new_query_node node
          { relationship := some "similar_to", similarity := some similarity }
      else g'
    else g'
  else g'

def _connect_similar_queries (g : Graph) (new_query_node : String)
    (query_text : String) : Graph :=
  g.nodeKeys.foldl (connectStep new_query_node (_extract_entities query_text)) g

/-- One iteration of `add_query`'s entity loop: add the `entity:` node and
the `mentions` edge from the query node. -/
def entityStep (query_node : String) (g' : Graph) (e : String) : Graph :=
  (g'.addNode ("entity:" ++ e) { type := some "entity", name := some e }).addEdge
    query_node ("entity:" ++ e) { relationship := some "mentions" }

/-- One iteration of `add_query`'s table loop: add the `table:` node and
the `queries` edge from the query node. -/
def tableStep (query_node : String) (g' : Graph) (t : String) : Graph :=
  (g'.addNode ("table:" ++ t) { type := some "table", name := some t }).addEdge
    query_node ("table:" ++ t) { relationship := some "queries" }

/-- One `add_query` call, with the nondeterministic timestamp made
explicit and the optional `entities` / `tables` arguments as options
(`none` models both Python `None` and the skipped falsy branch). -/
structure QueryCall where
  text : String
  sqlq : String
  result : String
  entities : Option (List String) := none
  tables : Option (List String) := none
  timestamp : String := ""
deriving DecidableEq

/-- The part of `add_query` before `_connect_similar_queries`: insert the
query/sql/result nodes and their `generates`/`returns` edges, and the
optional entity and table nodes with `mentions`/`queries` edges. -/
def preConnect (md5_8 : String → String) (g : Graph) (c : QueryCall) : Graph :=
  let query_hash := _hash_query md5_8 c.text
  let query_node := "query:" ++ query_hash
  let g := g.addNode query_node
    { type := some "query", text := some c.text, sql := some c.sqlq,
      timestamp := some c.timestamp }
  let sql_hash := _hash_sql md5_8 c.sqlq
  let sql_node := "sql:" ++ sql_hash
  let g := g.addNode sql_node { type := some "sql", query := some c.sqlq }
  let g := g.addEdge query_node sql_node { relationship := some "generates" }
  let result_node := "result:" ++ query_hash
  let g := g.addNode result_node { type := some "result", data := some c.result }
  let g := g.addEdge sql_node result_node { relationship := some "returns" }
  let g := match c.entities with
    | none => g
    | some es => es.foldl (entityStep query_node) g
  match c.tables with
  | none => g
  | some ts => ts.foldl (tableStep query_node) g

/-- `QueryGraphBuilder.add_query`: insert the query/sql/result nodes and
their `generates`/`returns` edges, the optional entity and table nodes
with `mentions`/`queries` edges, then link similar queries. -/
def add_query (md5_8 : String → String) (g : Graph) (c : QueryCall) : Graph :=
  _connect_similar_queries (preConnect md5_8 g c)
    ("query:" ++ _hash_query md5_8 c.text) c.text

/-- A query graph reached by a sequence of `add_query` calls from the
empty graph (`QueryGraphBuilder.__init__`). -/
def applyCalls (md5_8 : String → String) (calls : List QueryCall) : Graph :=
  calls.foldl (add_query md5_8) emptyGraph

/-- One record of `find_similar_queries` output. -/
structure SimilarRec where
  query : String
  sql : String
  similarity : ℚ
deriving DecidableEq

/-- Stable descending insertion for `list.sort(key=similarity,
reverse=True)`: the inserted element is the earliest of those remaining,
so it goes before the first entry whose key is less than *or equal to*
its own; ties then keep their original order, as Python's stable sort
does. -/
def insertDesc (r : SimilarRec) : List SimilarRec → List SimilarRec
  | [] => [r]
  | x :: xs =>
    if x.similarity ≤ r.similarity then r :: x :: xs else x :: insertDesc r xs

/-- Stable sort by descending similarity. -/
def sortDesc : List SimilarRec → List SimilarRec
  | [] => []
  | x :: xs => insertDesc x (sortDesc xs)

/-- `QueryGraphBuilder.find_similar_queries`: re-hash the text, return
`[]` when the node is absent, otherwise collect the query-node successors
with their stored texts, SQL and edge similarity, sorted descending,
truncated to `top_k`. -/
def find_similar_queries (md5_8 : String → String) (g : Graph)
    (query_text : String) (top_k : Nat := 3) : List SimilarRec :=
  let query_node := "query:" ++ _hash_query md5_8 query_text
  if g.hasNode query_node then
    let similar := (g.successors query_node).foldr
      (fun neighbor acc =>
        if strStartsWith neighbor "query:" then
          { query := (((g.nodeAttr neighbor).map (·.text)).join).getD "",
            sql := (((g.nodeAttr neighbor).map (·.sql)).join).getD "",
            similarity :=
              ((((g.edgeAttr query_node neighbor).map (·.similarity)).join).getD 0)
            : SimilarRec } :: acc
        else acc)
      []
    (sortDesc similar).take top_k
  else []

/-! ### `GraphRAG` façade: join suggestions -/

/-- One record of `get_join_suggestions` output (dict keys `'from'`,
`'to'`, `'path'`, `'via'`). -/
structure JoinSuggestion where
  fromT : String
  toT : String
  path : List String
  via : List String
deriving DecidableEq

/-- `GraphRAG._get_join_columns`: the `via_column` attributes of direct
`table:table1 → table:table2` edges, skipping missing/empty values. -/
def _get_join_columns (g : Graph) (table1 table2 : String) : List String :=
  (g.edges.filter
      (fun e => e.1 == "table:" ++ table1
        && strStartsWith e.2.1 "table:" && e.2.1 == "table:" ++ table2)).foldr
    (fun e acc =>
      let via_col := ((e.2.2.via_column).getD "")
      if via_col != "" then via_col :: acc else acc)
    []

/-- The body of the nested pair loop of `get_join_suggestions` for a
fixed first table, accumulating suggestions in order: Python `if path:`
skips both `None` and the empty list, and a raised `nx.NodeNotFound`
aborts the whole loop. -/
def joinSuggRow (g : Graph) (table1 : String) :
    List String → List JoinSuggestion → Except NxError (List JoinSuggestion)
  | [], acc => pure acc
  | table2 :: rest, acc =>
    match get_join_path g table1 table2 with
    | .error e => .error e
    | .ok path? =>
      match path? with
      | some path =>
          if path.isEmpty then joinSuggRow g table1 rest acc
          else joinSuggRow g table1 rest
            (acc ++ [{ fromT := table1, toT := table2, path := path,
                       via := _get_join_columns g table1 table2 }])
      | none => joinSuggRow g table1 rest acc

/-- The nested loop `for i, t1 in enumerate(tables): for t2 in
tables[i+1:]`. -/
def joinSuggAux (g : Graph) : List String → Except NxError (List JoinSuggestion)
  | [] => pure []
  | table1 :: rest =>
    match joinSuggRow g table1 rest [] with
    | .error e => .error e
    | .ok row =>
      match joinSuggAux g rest with
      | .error e => .error e
      | .ok more => pure (row ++ more)

/-- `GraphRAG.get_join_suggestions` over the schema graph: empty for
fewer than two tables, otherwise one record per ordered pair with a
nonempty join path.  An uncaught `nx.NodeNotFound` from `get_join_path`
propagates. -/
def get_join_suggestions (g : Graph) (tables : List String) :
    Except NxError (List JoinSuggestion) :=
  if tables.length < 2 then pure [] else joinSuggAux g tables

/-! ### Snapshot persistence (`json` + `nx.node_link_data` / `node_link_graph`) -/

/-- JSON values, as far as the snapshot format needs them. -/
inductive JVal where
  | jstr (s : String)
  | jnum (q : ℚ)
  | jbool (b : Bool)
  | jnull
  | jarr (xs : List JVal)
  | jobj (fields : List (String × JVal))

/-- First field with the given key (Python dict lookup on decoded JSON). -/
def jlookup (k : String) : List (String × JVal) → Option JVal
  | [] => none
  | f :: fs => if f.1 == k then some f.2 else jlookup k fs

/-- `d[k]` on a decoded JSON object: `none` models the `KeyError` /
`TypeError` raised on a missing key or a non-object. -/
def jget (j : JVal) (k : String) : Option JVal :=
  match j with
  | .jobj fields => jlookup k fields
  | _ => none

/-- An optional string attribute as a (possibly absent) JSON field. -/
def optStrField (k : String) : Option String → List (String × JVal)
  | none => []
  | some s => [(k, .jstr s)]

/-- An optional numeric attribute as a (possibly absent) JSON field. -/
def optNumField (k : String) : Option ℚ → List (String × JVal)
  | none => []
  | some q => [(k, .jnum q)]

/-- Node attributes as JSON object fields (absent keys are omitted, as in
a Python attribute dict). -/
def nodeAttrsFields (a : NodeAttrs) : List (String × JVal) :=
  optStrField "type" a.type ++ optStrField "name" a.name
    ++ optStrField "data_type" a.data_type ++ optStrField "table" a.table
    ++ optStrField "text" a.text ++ optStrField "sql" a.sql
    ++ optStrField "timestamp" a.timestamp ++ optStrField "query" a.query
    ++ optStrField "data" a.data

/-- Edge attributes as JSON object fields. -/
def edgeAttrsFields (a : EdgeAttrs) : List (String × JVal) :=
  optStrField "relationship" a.relationship
    ++ optStrField "via_column" a.via_column
    ++ optNumField "similarity" a.similarity

/-- A JSON field as an optional string attribute. -/
def fieldStr (fields : List (String × JVal)) (k : String) : Option String :=
  match jlookup k fields with
  | some (.jstr s) => some s
  | _ => none

/-- A JSON field as an optional numeric attribute. -/
def fieldNum (fields : List (String × JVal)) (k : String) : Option ℚ :=
  match jlookup k fields with
  | some (.jnum q) => some q
  | _ => none

/-- Rebuild node attributes from JSON object fields. -/
def nodeAttrsOfFields (fields : List (String × JVal)) : NodeAttrs :=
  { type := fieldStr fields "type", name := fieldStr fields "name",
    data_type := fieldStr fields "data_type", table := fieldStr fields "table",
    text := fieldStr fields "text", sql := fieldStr fields "sql",
    timestamp := fieldStr fields "timestamp", query := fieldStr fields "query",
    data := fieldStr fields "data" }

/-- Rebuild edge attributes from JSON object fields. -/
def edgeAttrsOfFields (fields : List (String × JVal)) : EdgeAttrs :=
  { relationship := fieldStr fields "relationship",
    via_column := fieldStr fields "via_column",
    similarity := fieldNum fields "similarity" }

/-- `nx.node_link_data(G)`: flat node list (attributes plus `"id"`) and
flat link list (attributes plus `"source"`/`"target"`). -/
def node_link_data (g : Graph) : JVal :=
  .jobj
    [("directed", .jbool true), ("multigraph", .jbool false),
     ("graph", .jobj []),
     ("nodes", .jarr (g.nodes.map
        (fun p => .jobj (nodeAttrsFields p.2 ++ [("id", .jstr p.1)])))),
     ("links", .jarr (g.edges.map
        (fun e => .jobj (edgeAttrsFields e.2.2
          ++ [("source", .jstr e.1), ("target", .jstr e.2.1)]))))]

/-- Decode one node entry of a node-link document. -/
def decodeNodeEntry (j : JVal) : Option (String × NodeAttrs) :=
  match j with
  | .jobj fields =>
    match jlookup "id" fields with
    | some (.jstr k) => some (k, nodeAttrsOfFields fields)
    | _ => none
  | _ => none

/-- Decode one link entry of a node-link document. -/
def decodeLinkEntry (j : JVal) : Option (String × String × EdgeAttrs) :=
  match j with
  | .jobj fields =>
    match jlookup "source" fields, jlookup "target" fields with
    | some (.jstr u), some (.jstr v) => some (u, v, edgeAttrsOfFields fields)
    | _, _ => none
  | _ => none

/-- Decode every entry of a list, failing if any entry fails. -/
def decodeEntries {α : Type} (dec : JVal → Option α) : List JVal → Option (List α)
  | [] => some []
  | j :: js =>
    match dec j with
    | none => none
    | some x =>
      match decodeEntries dec js with
      | none => none
      | some xs => some (x :: xs)

/-- `nx.node_link_graph(d)`: rebuild the graph from the node and link
lists; `none` models the exception raised on a malformed document. -/
def node_link_graph (j : JVal) : Option Graph :=
  match jget j "nodes", jget j "links" with
  | some (.jarr nodeEntries), some (.jarr linkEntries) =>
    match decodeEntries decodeNodeEntry nodeEntries with
    | none => none
    | some nodes =>
      match decodeEntries decodeLinkEntry linkEntries with
      | none => none
      | some edges => some { nodes := nodes, edges := edges }
  | _, _ => none

/-- The in-memory state of a `GraphRAG` façade: its two graphs. -/
structure RAGState where
  schemaGraph : Graph
  queryGraph : Graph
deriving DecidableEq

/-- `GraphRAG.save_graph`: the JSON document written to the snapshot
file, with the two top-level graph sections. -/
def save_graph (st : RAGState) : JVal :=
  .jobj [("schema", node_link_data st.schemaGraph),
         ("queries", node_link_data st.queryGraph)]

/-- What reading and JSON-parsing the snapshot file yields: the file may
be absent (`FileNotFoundError`), unparsable (`json.JSONDecodeError`), or
a parsed JSON document. -/
inductive FileRead where
  | absent
  | malformedJson
  | content (j : JVal)

/-- The distinguishable failures of `load_graph`. -/
inductive LoadErr where
  | fileNotFound
  | jsonDecodeError
  | keyError (k : String)
  | badNodeLink
deriving DecidableEq

/-- `GraphRAG.load_graph`, with the mutation order of the source made
explicit: `graph_data['schema']` is read and decoded and the schema graph
is *assigned* before `graph_data['queries']` is ever looked up, so a
document lacking only the `'queries'` key raises after the schema graph
has already been replaced. -/
def load_graph (st : RAGState) (f : FileRead) : Except LoadErr Unit × RAGState :=
  match f with
  | .absent => (.error .fileNotFound, st)
  | .malformedJson => (.error .jsonDecodeError, st)
  | .content j =>
    match jget j "schema" with
    | none => (.error (.keyError "schema"), st)
    | some js =>
      match node_link_graph js with
      | none => (.error .badNodeLink, st)
      | some sg =>
        let st1 : RAGState := { st with schemaGraph := sg }
        match jget j "queries" with
        | none => (.error (.keyError "queries"), st1)
        | some jq =>
          match node_link_graph jq with
          | none => (.error .badNodeLink, st1)
          | some qg => (.ok (), { st1 with queryGraph := qg })

/-! ### Specification predicates and fixtures -/

/-- Boolean adjacency: is there an edge entry from `u` to `v`? -/
def adjB (g : Graph) (u v : String) : Bool :=
  g.edges.any (fun e => e.1 == u && e.2.1 == v)

/-- A directed walk in `g`: consecutive nodes are joined by edges. -/
def IsWalk (g : Graph) (xs : List String) : Prop :=
  List.Chain' (fun u v => adjB g u v = true) xs

/-- A directed walk from `s` to `t` (inclusive of endpoints). -/
def WalkFT (g : Graph) (s t : String) (xs : List String) : Prop :=
  IsWalk g xs ∧ xs.head? = some s ∧ xs.getLast? = some t

instance (g : Graph) (xs : List String) : Decidable (IsWalk g xs) :=
  inferInstanceAs (Decidable (List.Chain' _ xs))

instance (g : Graph) (s t : String) (xs : List String) : Decidable (WalkFT g s t xs) :=
  inferInstanceAs (Decidable (_ ∧ _ ∧ _))

/-- Invariant of the iterative-deepening frontier: it holds exactly the
reversals of the walks from `s` with `n` nodes. -/
def FrontierInv (g : Graph) (s : String) (n : Nat) (fr : List (List String)) : Prop :=
  ∀ p, p ∈ fr ↔ ∃ q, IsWalk g q ∧ q.head? = some s ∧ q.length = n ∧ p = q.reverse

/-- Is `k` a query-node key? -/
def isQueryKey (k : String) : Bool := strStartsWith k "query:"

/-- The query-node keys of a graph, in insertion order. -/
def Graph.queryKeys (g : Graph) : List String := g.nodeKeys.filter isQueryKey

/-- The normalisation applied by `_hash_query`: `query.lower().strip()`. -/
def normQ (text : String) : String := strTrim (strLower text)

/-- The node key `add_query` derives from a query text. -/
def queryNodeKey (md5_8 : String → String) (text : String) : String :=
  "query:" ++ md5_8 (normQ text)

/-- The `similar_to` edge entries of a graph, in insertion order. -/
def simEdges (g : Graph) : List (String × String × EdgeAttrs) :=
  g.edges.filter (fun e => e.2.2.relationship == some "similar_to")

/-- The query nodes of a graph together with their stored texts. -/
def queryNodeTexts (g : Graph) : List (String × Option String) :=
  (g.nodes.filter (fun p => isQueryKey p.1)).map (fun p => (p.1, p.2.text))

/-- Any edge between two query nodes is a `similar_to` edge.  This holds
of every graph `QueryGraphBuilder` can reach (the only query-to-query
edges it creates are similarity links). -/
def QueryEdgesSim (g : Graph) : Prop :=
  ∀ e ∈ g.edges, isQueryKey e.1 = true → isQueryKey e.2.1 = true →
    e.2.2.relationship = some "similar_to"

/-- An edge is a `similar_to` edge exactly when it joins two query nodes.
This holds of every graph `QueryGraphBuilder` can reach: similarity links
are the only query-to-query edges it creates, and `generates`, `returns`,
`mentions` and `queries` edges never join two query nodes. -/
def SimEdgesWellFormed (g : Graph) : Prop :=
  ∀ e ∈ g.edges,
    (e.2.2.relationship = some "similar_to" ↔
      (isQueryKey e.1 = true ∧ isQueryKey e.2.1 = true))

/-- The view of a graph that `_connect_similar_queries` with new node `k`
reads and writes: the query nodes with their texts, the `similar_to`
edges, the out-edges of `k` towards query nodes, well-formedness of the
similarity edges, and the presence of `k`.  Two graphs that agree on this
view stay in lockstep under the connect loop. -/
def ConnSimView (k : String) (g1 g2 : Graph) : Prop :=
  queryNodeTexts g1 = queryNodeTexts g2
  ∧ simEdges g1 = simEdges g2
  ∧ (∀ n, isQueryKey n = true → g1.hasEdge k n = g2.hasEdge k n)
  ∧ SimEdgesWellFormed g1 ∧ SimEdgesWellFormed g2
  ∧ g1.hasNode k = true ∧ g2.hasNode k = true

/-- Structural invariants of reachable query graphs: every query node
stores a text whose hash reproduces its key, every edge endpoint is a
node, and node keys are unique. -/
structure QGraphInv (md5_8 : String → String) (g : Graph) : Prop where
  textKey : ∀ p ∈ g.nodes, isQueryKey p.1 = true →
    ∃ t, p.2.text = some t ∧ p.1 = queryNodeKey md5_8 t
  edgeNodes : ∀ e ∈ g.edges, e.1 ∈ g.nodeKeys ∧ e.2.1 ∈ g.nodeKeys
  keysNodup : g.nodeKeys.Nodup

/-- The ordered pairs `(tables[i], tables[j])`, `i < j`, enumerated by the
nested loops of `get_join_suggestions`. -/
def orderedPairs : List String → List (String × String)
  | [] => []
  | t :: rest => rest.map (fun u => (t, u)) ++ orderedPairs rest

/-- The per-pair step of the spec-side suggestion list: keep the pair when
it has a nonempty join path, attaching the direct join columns. -/
def specStep (g : Graph) (pr : String × String) (acc : List JoinSuggestion) :
    List JoinSuggestion :=
  match get_join_path g pr.1 pr.2 with
  | .ok (some p) =>
      if p.isEmpty then acc
      else { fromT := pr.1, toT := pr.2, path := p,
             via := _get_join_columns g pr.1 pr.2 } :: acc
  | _ => acc

/-- Modelled from the spec's words for comparison with
`get_join_suggestions`: one suggestion record per ordered pair among the
given tables that has a (nonempty) join path, omitting pairs with none. -/
def joinSuggestionsSpecList (g : Graph) (tables : List String) :
    List JoinSuggestion :=
  (orderedPairs tables).foldr (specStep g) []

/-- The schema graph of the spec's scenario: `orders` references `users`
via `user_id`, and `order_items` references `orders` via `order_id`. -/
def scenarioGraph : Graph :=
  (((((emptyGraph.addNode "table:order_items"
      { type := some "table", name := some "order_items" }).addNode
    "table:orders" { type := some "table", name := some "orders" }).addNode
    "table:users" { type := some "table", name := some "users" }).addEdge
    "table:orders" "table:users"
      { relationship := some "references", via_column := some "user_id" }).addEdge
    "table:order_items" "table:orders"
      { relationship := some "references", via_column := some "order_id" })

/-- A database whose table `orders` has a column `users_id` that matches
the table `Users` case-insensitively but not after lower-casing only the
candidate. -/
def dbMixedCase : SQLDatabaseModel :=
  { tables := ["Users", "orders"],
    tableInfo := fun t =>
      if t == "orders" then "CREATE TABLE orders (\n\tid INTEGER,\n\tusers_id INTEGER\n)"
      else "CREATE TABLE Users (\n\tid INTEGER\n)" }

/-- A façade state with a nonempty schema graph, used to exhibit the
partial mutation performed by a failing `load_graph`. -/
def c6State : RAGState := { schemaGraph := scenarioGraph, queryGraph := emptyGraph }

/-- A parsed snapshot with a valid `schema` section but no `queries`
section. -/
def c6File : FileRead := .content (.jobj [("schema", node_link_data emptyGraph)])

/-- The query call for scenario query A, "show revenue by state". -/
def callA : QueryCall :=
  { text := "show revenue by state", sqlq := "SELECT SUM(revenue) FROM orders GROUP BY state",
    result := "rA", timestamp := "2024-01-01T00:00:00" }

/-- The query call for scenario query B, "show revenue by city". -/
def callB : QueryCall :=
  { text := "show revenue by city", sqlq := "SELECT SUM(revenue) FROM orders GROUP BY city",
    result := "rB", timestamp := "2024-01-01T00:00:01" }

/-- A case/whitespace variant of `callA` with different SQL: same
normalized text, so `add_query` must deduplicate it onto A's node. -/
def callAVar : QueryCall :=
  { text := "  Show REVENUE by state ", sqlq := "SELECT 1",
    result := "rA2", timestamp := "2024-01-01T00:00:02" }

/-! ### Helper lemmas about the string primitives -/

theorem swCL_append_self (p r : List Char) : swCL p (p ++ r) = true := by
  induction p with
  | nil => rfl
  | cons c cs ih => simp [swCL, ih]

theorem strStartsWith_append_self (pre s : String) :
    strStartsWith (pre ++ s) pre = true := by
  unfold strStartsWith
  rw [String.data_append]
  exact swCL_append_self _ _

theorem isQueryKey_query (x : String) : isQueryKey ("query:" ++ x) = true :=
  strStartsWith_append_self "query:" x

theorem isQueryKey_sql (x : String) : isQueryKey ("sql:" ++ x) = false := by
  cases x; rfl

theorem isQueryKey_result (x : String) : isQueryKey ("result:" ++ x) = false := by
  cases x; rfl

theorem isQueryKey_entity (x : String) : isQueryKey ("entity:" ++ x) = false := by
  cases x; rfl

theorem isQueryKey_table (x : String) : isQueryKey ("table:" ++ x) = false := by
  cases x; rfl

theorem isTableKey_column (x : String) :
    strStartsWith ("column:" ++ x) "table:" = false := by
  cases x; rfl

theorem query_ne_sql (x y : String) : "query:" ++ x ≠ "sql:" ++ y := by
  intro h
  have := isQueryKey_query x
  rw [h, isQueryKey_sql] at this
  cases this

theorem query_ne_result (x y : String) : "query:" ++ x ≠ "result:" ++ y := by
  intro h
  have := isQueryKey_query x
  rw [h, isQueryKey_result] at this
  cases this

theorem query_ne_entity (x y : String) : "query:" ++ x ≠ "entity:" ++ y := by
  intro h
  have := isQueryKey_query x
  rw [h, isQueryKey_entity] at this
  cases this

theorem query_ne_table (x y : String) : "query:" ++ x ≠ "table:" ++ y := by
  intro h
  have := isQueryKey_query x
  rw [h, isQueryKey_table] at this
  cases this

theorem append_left_cancel_str {a b c : String} (h : a ++ b = a ++ c) : b = c := by
  cases a; cases b; cases c
  simpa [String.ext_iff] using h

theorem queryNodeKey_injective (md5_8 : String → String)
    (hinj : Function.Injective md5_8) {t₁ t₂ : String}
    (h : queryNodeKey md5_8 t₁ = queryNodeKey md5_8 t₂) : normQ t₁ = normQ t₂ :=
  hinj (append_left_cancel_str h)

/-! ### Helper lemmas about `strReplace` -/

theorem replCL_fuel {pat : List Char} (hpat : pat ≠ []) (repl : List Char) :
    ∀ f₁ f₂ l, l.length ≤ f₁ → l.length ≤ f₂ →
      replCL pat repl f₁ l = replCL pat repl f₂ l := by
  intro f₁
  induction f₁ with
  | zero =>
    intro f₂ l h₁ _
    have : l = [] := List.eq_nil_of_length_eq_zero (Nat.le_zero.mp h₁)
    subst this
    cases f₂ <;> rfl
  | succ f ih =>
    intro f₂ l h₁ h₂
    match l, f₂ with
    | [], 0 => rfl
    | [], f₂ + 1 => rfl
    | c :: cs, 0 => exact absurd h₂ (by simp)
    | c :: cs, f₂ + 1 =>
      show replCL pat repl (f + 1) (c :: cs) = replCL pat repl (f₂ + 1) (c :: cs)
      rw [replCL, replCL]
      by_cases hm : (swCL pat (c :: cs) && !pat.isEmpty) = true
      · rw [if_pos hm, if_pos hm]
        have hlen : ((c :: cs).drop pat.length).length ≤ f := by
          rw [List.length_drop]
          have : 1 ≤ pat.length := by
            cases pat with
            | nil => exact absurd rfl hpat
            | cons _ _ => simp
          simp only [List.length_cons] at h₁ ⊢
          omega
        have hlen₂ : ((c :: cs).drop pat.length).length ≤ f₂ := by
          rw [List.length_drop]
          have : 1 ≤ pat.length := by
            cases pat with
            | nil => exact absurd rfl hpat
            | cons _ _ => simp
          simp only [List.length_cons] at h₂ ⊢
          omega
        rw [ih _ _ hlen hlen₂]
      · rw [if_neg hm, if_neg hm]
        have hcs : cs.length ≤ f := by simp only [List.length_cons] at h₁; omega
        have hcs₂ : cs.length ≤ f₂ := by simp only [List.length_cons] at h₂; omega
        rw [ih _ _ hcs hcs₂]

theorem replCL_no_occurrence {pat : List Char} (repl : List Char) :
    ∀ fuel l, containsCL pat l = false → replCL pat repl fuel l = l := by
  intro fuel
  induction fuel with
  | zero => intro l _; cases l <;> rfl
  | succ f ih =>
    intro l hno
    match l with
    | [] => rfl
    | c :: cs =>
      rw [containsCL] at hno
      have h₁ : swCL pat (c :: cs) = false := by
        cases hsw : swCL pat (c :: cs) <;> simp [hsw] at hno ⊢
      have h₂ : containsCL pat cs = false := by
        cases hct : containsCL pat cs <;> simp [hct] at hno ⊢
      rw [replCL, if_neg (by simp [h₁]), ih cs h₂]

theorem replCL_strip_all {pat : List Char} (hpat : pat ≠ []) (rest : List Char)
    (hno : containsCL pat rest = false) (fuel : Nat)
    (hfuel : (pat ++ rest).length ≤ fuel) :
    replCL pat [] fuel (pat ++ rest) = rest := by
  match pat, fuel with
  | [], _ => exact absurd rfl hpat
  | p :: ps, 0 => exact absurd hfuel (by simp)
  | p :: ps, fuel + 1 =>
    show replCL (p :: ps) [] (fuel + 1) (p :: (ps ++ rest)) = rest
    rw [replCL]
    have hm : (swCL (p :: ps) (p :: (ps ++ rest)) && !(p :: ps).isEmpty) = true := by
      have : p :: (ps ++ rest) = (p :: ps) ++ rest := rfl
      rw [this, swCL_append_self]
      rfl
    rw [if_pos hm]
    have hdrop : (p :: (ps ++ rest)).drop (p :: ps).length = rest := by
      have : p :: (ps ++ rest) = (p :: ps) ++ rest := rfl
      rw [this, List.drop_left]
    rw [hdrop]
    simp only [List.nil_append]
    calc replCL (p :: ps) [] fuel rest
        = replCL (p :: ps) [] rest.length rest :=
          replCL_fuel hpat [] fuel rest.length rest
            (by simp only [List.length_append, List.length_cons] at hfuel; omega)
            (Nat.le_refl _)
      _ = rest := replCL_no_occurrence [] rest.length rest hno

theorem strReplace_strip (pre a : String) (hpre : pre.data ≠ [])
    (hno : strContainsSub a pre = false) :
    strReplace (pre ++ a) pre "" = a := by
  unfold strReplace
  rw [String.data_append]
  have h1 : ("" : String).data = [] := rfl
  rw [h1]
  rw [replCL_strip_all hpre a.data hno _ (le_refl _)]

/-! ### Generic list helpers -/

theorem filter_map_comm {α : Type} (f : α → α) (P : α → Bool) (l : List α)
    (h1 : ∀ e ∈ l, P (f e) = P e) : (l.map f).filter P = (l.filter P).map f := by
  induction l with
  | nil => rfl
  | cons e es ih =>
    have he := h1 e (by simp)
    have ih' := ih (fun x hx => h1 x (by simp [hx]))
    simp only [List.map_cons, List.filter_cons, he]
    cases hP : P e <;> simp [hP, ih']

theorem find?_map_comm {α : Type} (f : α → α) (P : α → Bool) (l : List α)
    (h1 : ∀ e ∈ l, P (f e) = P e) : (l.map f).find? P = (l.find? P).map f := by
  induction l with
  | nil => rfl
  | cons e es ih =>
    have he := h1 e (by simp)
    have ih' := ih (fun x hx => h1 x (by simp [hx]))
    simp only [List.map_cons]
    cases hP : P e
    · rw [List.find?_cons_of_neg _ (by simp [he, hP]),
        List.find?_cons_of_neg _ (by simp [hP]), ih']
    · rw [List.find?_cons_of_pos _ (by simp [he, hP]),
        List.find?_cons_of_pos _ (by simp [hP])]
      rfl


/-! ### Helper lemmas about the graph operations -/

theorem hasNode_iff {g : Graph} {k : String} :
    g.hasNode k = true ↔ k ∈ g.nodeKeys := by
  simp [Graph.hasNode, Graph.nodeKeys, List.any_eq_true]

theorem edges_addNode (g : Graph) (k : String) (a : NodeAttrs) :
    (g.addNode k a).edges = g.edges := by
  unfold Graph.addNode
  split <;> rfl

theorem nodeKeys_addNode (g : Graph) (k : String) (a : NodeAttrs) :
    (g.addNode k a).nodeKeys =
      if g.hasNode k then g.nodeKeys else g.nodeKeys ++ [k] := by
  unfold Graph.addNode Graph.nodeKeys
  by_cases h : g.hasNode k = true
  · rw [if_pos h, if_pos h]
    show (g.nodes.map (fun p => if p.1 == k then (k, a) else p)).map (·.1)
        = g.nodes.map (·.1)
    rw [List.map_map]
    apply List.map_congr_left
    intro p _
    by_cases hp : (p.1 == k) = true
    · simp only [Function.comp_apply, hp, if_true]
      exact (beq_iff_eq.mp hp).symm
    · simp only [Function.comp_apply, hp, Bool.false_eq_true, if_false]
  · rw [if_neg h, if_neg h]
    show (g.nodes ++ [(k, a)]).map (·.1) = g.nodes.map (·.1) ++ [k]
    simp

theorem edges_addEdge (g : Graph) (u v : String) (a : EdgeAttrs) :
    (g.addEdge u v a).edges =
      if g.hasEdge u v then
        g.edges.map (fun e => if e.1 == u && e.2.1 == v then (u, v, a) else e)
      else
        g.edges ++ [(u, v, a)] := by
  unfold Graph.addEdge
  rfl

theorem nodes_addEdge_of_present {g : Graph} {u v : String} (a : EdgeAttrs)
    (hu : g.hasNode u = true) (hv : g.hasNode v = true) :
    (g.addEdge u v a).nodes = g.nodes := by
  unfold Graph.hasNode at hu hv
  unfold Graph.addEdge
  simp only [hu, hv, if_true]

theorem nodeAttr_addEdge_of_present {g : Graph} {u v : String} (a : EdgeAttrs)
    (hu : g.hasNode u = true) (hv : g.hasNode v = true) (k : String) :
    (g.addEdge u v a).nodeAttr k = g.nodeAttr k := by
  unfold Graph.nodeAttr
  rw [nodes_addEdge_of_present a hu hv]

theorem nodeKeys_addEdge_of_present {g : Graph} {u v : String} (a : EdgeAttrs)
    (hu : g.hasNode u = true) (hv : g.hasNode v = true) :
    (g.addEdge u v a).nodeKeys = g.nodeKeys := by
  unfold Graph.nodeKeys
  rw [nodes_addEdge_of_present a hu hv]

theorem hasNode_false_all {g : Graph} {k : String} (h : ¬g.hasNode k = true) :
    ∀ p ∈ g.nodes, (p.1 == k) = false := by
  intro p hp
  by_contra hc
  exact h (List.any_eq_true.mpr ⟨p, hp, by revert hc; cases (p.1 == k) <;> simp⟩)

theorem nodeAttr_addNode_self (g : Graph) (k : String) (a : NodeAttrs) :
    (g.addNode k a).nodeAttr k = some a := by
  unfold Graph.addNode Graph.nodeAttr
  by_cases h : g.hasNode k = true
  · rw [if_pos h]
    unfold Graph.hasNode at h
    rw [List.any_eq_true] at h
    have main : ∀ l : List (String × NodeAttrs), (∃ p ∈ l, (p.1 == k) = true) →
        ((l.map (fun p => if p.1 == k then (k, a) else p)).find?
          (fun p => p.1 == k)).map (·.2) = some a := by
      intro l
      induction l with
      | nil => rintro ⟨p, hp, _⟩; cases hp
      | cons p ps ih =>
        intro hex
        by_cases hp : (p.1 == k) = true
        · simp only [List.map_cons, hp, if_true]
          rw [List.find?_cons_of_pos _ (by simp)]
          rfl
        · simp only [List.map_cons, hp, Bool.false_eq_true, if_false]
          rw [List.find?_cons_of_neg _ (by simp [hp])]
          apply ih
          obtain ⟨q, hq, hqk⟩ := hex
          rcases List.mem_cons.mp hq with h1 | h1
          · exact absurd (h1 ▸ hqk) (by simp [hp])
          · exact ⟨q, h1, hqk⟩
    exact main g.nodes (by
      obtain ⟨p, hp, hk⟩ := h
      exact ⟨p, hp, hk⟩)
  · rw [if_neg h]
    have hall := hasNode_false_all h
    rw [List.find?_append]
    have hnone : g.nodes.find? (fun p => p.1 == k) = none :=
      List.find?_eq_none.mpr (fun p hp => by simp [hall p hp])
    rw [hnone]
    simp [List.find?]

theorem nodeAttr_addNode_ne (g : Graph) {k k' : String} (a : NodeAttrs)
    (h : k' ≠ k) : (g.addNode k a).nodeAttr k' = g.nodeAttr k' := by
  unfold Graph.addNode Graph.nodeAttr
  by_cases hh : g.hasNode k = true
  · rw [if_pos hh]
    have hstat : ∀ p ∈ g.nodes,
        (((fun (q : String × NodeAttrs) => if q.1 == k then (k, a) else q) p).1 == k')
          = (p.1 == k') := by
      intro p _
      by_cases hp : (p.1 == k) = true
      · simp only [hp, if_true]
        have hpk : p.1 = k := beq_iff_eq.mp hp
        rw [hpk]
      · simp only [hp, Bool.false_eq_true, if_false]
    rw [find?_map_comm _ _ _ hstat]
    cases hfind : g.nodes.find? (fun p => p.1 == k') with
    | none => rfl
    | some p =>
      have hpk : p.1 = k' := by simpa using List.find?_some hfind
      have hne : p.1 ≠ k := by rw [hpk]; exact h
      simp [hne]
  · rw [if_neg hh]
    rw [List.find?_append]
    have hone : ([((k, a) : String × NodeAttrs)].find? (fun p => p.1 == k')) = none := by
      rw [List.find?_eq_none]
      intro p hp
      rw [List.mem_singleton] at hp
      subst hp
      intro hk
      have hkk : k = k' := by simpa using hk
      exact h hkk.symm
    rw [hone]
    cases g.nodes.find? (fun p => p.1 == k') <;> rfl

theorem hasEdge_false_all {g : Graph} {u v : String} (h : ¬g.hasEdge u v = true) :
    ∀ e ∈ g.edges, (e.1 == u && e.2.1 == v) = false := by
  intro e he
  by_contra hc
  exact h (List.any_eq_true.mpr ⟨e, he, by revert hc; cases (e.1 == u && e.2.1 == v) <;> simp⟩)

theorem edgeAttr_addEdge_self (g : Graph) (u v : String) (a : EdgeAttrs) :
    (g.addEdge u v a).edgeAttr u v = some a := by
  unfold Graph.edgeAttr
  rw [edges_addEdge]
  by_cases h : g.hasEdge u v = true
  · rw [if_pos h]
    unfold Graph.hasEdge at h
    rw [List.any_eq_true] at h
    have main : ∀ l : List (String × String × EdgeAttrs),
        (∃ e ∈ l, (e.1 == u && e.2.1 == v) = true) →
        ((l.map (fun e => if e.1 == u && e.2.1 == v then (u, v, a) else e)).find?
          (fun e => e.1 == u && e.2.1 == v)).map (·.2.2) = some a := by
      intro l
      induction l with
      | nil => rintro ⟨e, he, _⟩; cases he
      | cons e es ih =>
        intro hex
        by_cases hp : (e.1 == u && e.2.1 == v) = true
        · simp only [List.map_cons, hp, if_true]
          rw [List.find?_cons_of_pos _ (by simp)]
          rfl
        · simp only [List.map_cons, hp, Bool.false_eq_true, if_false]
          rw [List.find?_cons_of_neg _ (by simp [hp])]
          apply ih
          obtain ⟨q, hq, hqk⟩ := hex
          rcases List.mem_cons.mp hq with h1 | h1
          · exact absurd (h1 ▸ hqk) (by simp [hp])
          · exact ⟨q, h1, hqk⟩
    exact main g.edges h
  · rw [if_neg h]
    rw [List.find?_append]
    have hnone : g.edges.find? (fun e => e.1 == u && e.2.1 == v) = none :=
      List.find?_eq_none.mpr (fun e he => by simp [hasEdge_false_all h e he])
    rw [hnone]
    rw [List.find?_cons_of_pos _ (by simp)]
    rfl

theorem edgeAttr_addEdge_ne (g : Graph) {u v u' v' : String} (a : EdgeAttrs)
    (h : ¬(u' = u ∧ v' = v)) :
    (g.addEdge u v a).edgeAttr u' v' = g.edgeAttr u' v' := by
  unfold Graph.edgeAttr
  rw [edges_addEdge]
  by_cases hh : g.hasEdge u v = true
  · rw [if_pos hh]
    have hstat : ∀ e ∈ g.edges,
        (((fun e => if e.1 == u && e.2.1 == v then (u, v, a) else e) e).1 == u'
          && ((fun e => if e.1 == u && e.2.1 == v then (u, v, a) else e) e).2.1 == v')
          = (e.1 == u' && e.2.1 == v') := by
      intro e _
      by_cases hp : (e.1 == u && e.2.1 == v) = true
      · simp only [hp, if_true]
        have h1 : e.1 = u := by
          have := (Bool.and_eq_true _ _).mp hp
          exact beq_iff_eq.mp this.1
        have h2 : e.2.1 = v := by
          have := (Bool.and_eq_true _ _).mp hp
          exact beq_iff_eq.mp this.2
        rw [h1, h2]
      · simp only [hp, Bool.false_eq_true, if_false]
    rw [find?_map_comm _ _ _ hstat]
    cases hfind : g.edges.find? (fun e => e.1 == u' && e.2.1 == v') with
    | none => rfl
    | some e =>
      have hP := List.find?_some hfind
      have h1 : e.1 = u' := by
        have : (e.1 == u' && e.2.1 == v') = true := by simpa using hP
        exact beq_iff_eq.mp ((Bool.and_eq_true _ _).mp this).1
      have h2 : e.2.1 = v' := by
        have : (e.1 == u' && e.2.1 == v') = true := by simpa using hP
        exact beq_iff_eq.mp ((Bool.and_eq_true _ _).mp this).2
      have hne : (e.1 == u && e.2.1 == v) = false := by
        by_contra hc
        have hc' : (e.1 == u && e.2.1 == v) = true := by
          revert hc; cases (e.1 == u && e.2.1 == v) <;> simp
        have hu : e.1 = u := beq_iff_eq.mp ((Bool.and_eq_true _ _).mp hc').1
        have hv : e.2.1 = v := beq_iff_eq.mp ((Bool.and_eq_true _ _).mp hc').2
        exact h ⟨h1 ▸ hu, h2 ▸ hv⟩
      have hnp : ¬(e.1 = u ∧ e.2.1 = v) := by simpa using hne
      simp [hnp]
  · rw [if_neg hh]
    rw [List.find?_append]
    have hone : ([((u, v, a) : String × String × EdgeAttrs)].find?
        (fun e => e.1 == u' && e.2.1 == v')) = none := by
      rw [List.find?_eq_none]
      intro e he
      rw [List.mem_singleton] at he
      subst he
      intro hk
      have : u = u' ∧ v = v' := by simpa using hk
      exact h ⟨this.1.symm, this.2.symm⟩
    rw [hone]
    cases g.edges.find? (fun e => e.1 == u' && e.2.1 == v') <;> rfl

theorem successors_addNode (g : Graph) (k : String) (a : NodeAttrs) (x : String) :
    (g.addNode k a).successors x = g.successors x := by
  unfold Graph.successors
  rw [edges_addNode]

theorem edgeAttr_addNode (g : Graph) (k : String) (a : NodeAttrs) (u v : String) :
    (g.addNode k a).edgeAttr u v = g.edgeAttr u v := by
  unfold Graph.edgeAttr
  rw [edges_addNode]

theorem successors_addEdge_ne (g : Graph) {u : String} (v : String) (a : EdgeAttrs)
    {x : String} (hx : x ≠ u) :
    (g.addEdge u v a).successors x = g.successors x := by
  unfold Graph.successors
  rw [edges_addEdge]
  by_cases hh : g.hasEdge u v = true
  · rw [if_pos hh]
    have hstat : ∀ e ∈ g.edges,
        (((fun e => if e.1 == u && e.2.1 == v then (u, v, a) else e) e).1 == x)
          = (e.1 == x) := by
      intro e _
      by_cases hp : (e.1 == u && e.2.1 == v) = true
      · simp only [hp, if_true]
        have h1 : e.1 = u := beq_iff_eq.mp ((Bool.and_eq_true _ _).mp hp).1
        rw [h1]
      · simp only [hp, Bool.false_eq_true, if_false]
    rw [filter_map_comm _ _ _ hstat]
    rw [List.map_map]
    apply List.map_congr_left
    intro e he
    have hPe : (e.1 == x) = true := (List.mem_filter.mp he).2
    have hex : e.1 = x := beq_iff_eq.mp hPe
    have hne : (e.1 == u && e.2.1 == v) = false := by
      have : (e.1 == u) = false := by
        rw [beq_eq_false_iff_ne, hex]
        exact hx
      rw [this, Bool.false_and]
    simp [Function.comp, hne]
  · rw [if_neg hh]
    rw [List.filter_append]
    have : List.filter (fun e => e.1 == x) [((u, v, a) : String × String × EdgeAttrs)]
        = [] := by
      have : (u == x) = false := by
        rw [beq_eq_false_iff_ne]
        exact fun hk => hx hk.symm
      simp [List.filter, this]
    rw [this, List.append_nil]

theorem mem_successors {g : Graph} {x v : String} :
    v ∈ g.successors x ↔ ∃ e ∈ g.edges, e.1 = x ∧ e.2.1 = v := by
  unfold Graph.successors
  simp only [List.mem_map, List.mem_filter]
  constructor
  · rintro ⟨e, ⟨he, hx⟩, hv⟩
    exact ⟨e, he, beq_iff_eq.mp hx, hv⟩
  · rintro ⟨e, he, hx, hv⟩
    exact ⟨e, ⟨he, by simp [hx]⟩, hv⟩

theorem hasNode_addNode_self (g : Graph) (k : String) (a : NodeAttrs) :
    (g.addNode k a).hasNode k = true := by
  rw [hasNode_iff, nodeKeys_addNode]
  by_cases h : g.hasNode k = true
  · rw [if_pos h]
    exact hasNode_iff.mp h
  · rw [if_neg h]
    simp

theorem hasNode_addNode_mono {g : Graph} {k' : String} (k : String) (a : NodeAttrs)
    (h : g.hasNode k' = true) : (g.addNode k a).hasNode k' = true := by
  rw [hasNode_iff, nodeKeys_addNode]
  split
  · exact hasNode_iff.mp h
  · exact List.mem_append_left _ (hasNode_iff.mp h)

theorem nodeKeys_addEdge_sup (g : Graph) (u v : String) (a : EdgeAttrs) :
    ∃ l, (g.addEdge u v a).nodeKeys = g.nodeKeys ++ l := by
  unfold Graph.addEdge Graph.nodeKeys
  simp only
  split
  · split
    · exact ⟨[], by simp⟩
    · exact ⟨[v], by simp⟩
  · split
    · exact ⟨[u], by simp⟩
    · exact ⟨[u, v], by simp⟩

theorem hasNode_addEdge_mono {g : Graph} {k : String} (u v : String) (a : EdgeAttrs)
    (h : g.hasNode k = true) : (g.addEdge u v a).hasNode k = true := by
  rw [hasNode_iff]
  obtain ⟨l, hl⟩ := nodeKeys_addEdge_sup g u v a
  rw [hl]
  exact List.mem_append_left _ (hasNode_iff.mp h)

/-! ### Correctness of the shortest-path search -/

theorem adjB_iff {g : Graph} {u v : String} :
    adjB g u v = true ↔ ∃ e ∈ g.edges, e.1 = u ∧ e.2.1 = v := by
  simp [adjB, List.any_eq_true, Bool.and_eq_true]

theorem mem_successors_adjB {g : Graph} {u v : String} :
    v ∈ g.successors u ↔ adjB g u v = true := by
  rw [mem_successors, adjB_iff]

theorem mem_expandWalks {g : Graph} {fr : List (List String)} {p : List String} :
    p ∈ expandWalks g fr ↔
      ∃ q, q ∈ fr ∧ ∃ u rest, q = u :: rest
        ∧ ∃ v, v ∈ g.successors u ∧ p = v :: q := by
  unfold expandWalks
  induction fr with
  | nil => simp
  | cons q qs ih =>
    simp only [List.foldr_cons, List.mem_append]
    rw [ih]
    constructor
    · rintro (hin | ⟨q', hq', hrest⟩)
      · match q, hin with
        | u :: rest, hin =>
          simp only [List.mem_map] at hin
          obtain ⟨v, hv, hp⟩ := hin
          exact ⟨u :: rest, List.mem_cons_self _ _, u, rest, rfl, v, hv, hp.symm⟩
      · exact ⟨q', List.mem_cons_of_mem _ hq', hrest⟩
    · rintro ⟨q', hq', u, rest, hqu, v, hv, hp⟩
      rcases List.mem_cons.mp hq' with h1 | h1
      · left
        subst h1
        rw [hqu]
        simp only [List.mem_map]
        exact ⟨v, hv, by rw [hp, hqu]⟩
      · right
        exact ⟨q', h1, u, rest, hqu, v, hv, hp⟩

theorem frontierInv_expand {g : Graph} {s : String} {n : Nat}
    {fr : List (List String)} (hn : 1 ≤ n) (hinv : FrontierInv g s n fr) :
    FrontierInv g s (n + 1) (expandWalks g fr) := by
  intro p
  rw [mem_expandWalks]
  constructor
  · rintro ⟨q', hq', u, rest, hqu, v, hv, hp⟩
    obtain ⟨q₀, hw, hh, hl, hrev⟩ := (hinv q').mp hq'
    have hq₀ne : q₀ ≠ [] := by
      intro h0
      rw [h0] at hrev
      rw [hqu] at hrev
      cases hrev
    have hlast : q₀.getLast? = some u := by
      rw [← List.head?_reverse, ← hrev, hqu]
      rfl
    refine ⟨q₀ ++ [v], ?_, ?_, ?_, ?_⟩
    · refine List.chain'_append.mpr ⟨hw, List.chain'_singleton _, ?_⟩
      intro x hx y hy
      rw [hlast] at hx
      simp only [Option.mem_def, Option.some_inj] at hx
      simp only [List.head?_cons, Option.mem_def, Option.some_inj] at hy
      subst hx
      subst hy
      exact mem_successors_adjB.mp hv
    · rw [List.head?_append]
      rw [hh]
      rfl
    · simp [hl]
    · rw [List.reverse_append]
      simp only [List.reverse_singleton, List.singleton_append]
      rw [hp, hrev]
  · rintro ⟨q, hw, hh, hl, hp⟩
    have hne : q ≠ [] := by
      intro h0
      rw [h0] at hl
      cases hl
    obtain ⟨v, hv⟩ : ∃ v, q.getLast? = some v :=
      ⟨q.getLast hne, List.getLast?_eq_getLast q hne⟩
    obtain ⟨q₀, hq0⟩ := List.getLast?_eq_some_iff.mp hv
    subst hq0
    have hlen₀ : q₀.length = n := by
      have := hl
      simp only [List.length_append, List.length_cons, List.length_nil] at this
      omega
    have hq₀ne : q₀ ≠ [] := by
      intro h0
      rw [h0] at hlen₀
      simp only [List.length_nil] at hlen₀
      omega
    obtain ⟨hw₀, _, hlink⟩ := List.chain'_append.mp hw
    have hlastq₀ : q₀.getLast? = some (q₀.getLast hq₀ne) :=
      List.getLast?_eq_getLast q₀ hq₀ne
    have adjuv : adjB g (q₀.getLast hq₀ne) v = true := by
      apply hlink
      · rw [hlastq₀]
        rfl
      · rfl
    have hhead₀ : q₀.head? = some s := by
      rw [List.head?_append] at hh
      cases hq : q₀.head? with
      | none =>
        rw [List.head?_eq_none_iff] at hq
        exact absurd hq hq₀ne
      | some w =>
        rw [hq] at hh
        simp only [Option.or_some] at hh
        exact hh
    obtain ⟨rest, hrest⟩ : ∃ rest, q₀.reverse = q₀.getLast hq₀ne :: rest := by
      cases hqr : q₀.reverse with
      | nil =>
        rw [List.reverse_eq_nil_iff] at hqr
        exact absurd hqr hq₀ne
      | cons a l =>
        have : q₀.reverse.head? = some a := by rw [hqr]; rfl
        rw [List.head?_reverse, hlastq₀] at this
        exact ⟨l, by rw [Option.some_inj.mp this]⟩
    refine ⟨q₀.reverse, (hinv q₀.reverse).mpr ⟨q₀, hw₀, hhead₀, hlen₀, rfl⟩,
      q₀.getLast hq₀ne, rest, hrest, v, mem_successors_adjB.mpr adjuv, ?_⟩
    rw [hp, List.reverse_append]
    rfl

theorem bfsAux_spec (g : Graph) (s t : String) :
    ∀ fuel n fr, 1 ≤ n → FrontierInv g s n fr →
      (∀ q, WalkFT g s t q → n ≤ q.length) →
      ((∀ p, bfsAux g t fuel fr = some p →
          WalkFT g s t p ∧ ∀ q, WalkFT g s t q → p.length ≤ q.length)
        ∧ (∀ q, WalkFT g s t q → q.length < n + fuel →
            (bfsAux g t fuel fr).isSome = true)) := by
  intro fuel
  induction fuel with
  | zero =>
    intro n fr hn hinv hmin
    constructor
    · intro p hp
      cases hp
    · intro q hq hlt
      have := hmin q hq
      omega
  | succ fuel ih =>
    intro n fr hn hinv hmin
    cases hfind : fr.find? (fun p => p.head? == some t) with
    | some p =>
      have heq : bfsAux g t (fuel + 1) fr = some p.reverse := by
        rw [bfsAux, hfind]
      have hmem : p ∈ fr := List.mem_of_find?_eq_some hfind
      have hpt : (p.head? == some t) = true := by
        simpa using List.find?_some hfind
      obtain ⟨q₀, hw, hh, hl, hrev⟩ := (hinv p).mp hmem
      have hlastt : q₀.getLast? = some t := by
        rw [← List.head?_reverse, ← hrev]
        exact beq_iff_eq.mp hpt
      have hpq : p.reverse = q₀ := by
        rw [hrev, List.reverse_reverse]
      have hwft : WalkFT g s t q₀ := ⟨hw, hh, hlastt⟩
      constructor
      · intro p' hp'
        rw [heq] at hp'
        have : p' = q₀ := by
          rw [← Option.some_inj.mp hp', hpq]
        subst this
        refine ⟨hwft, ?_⟩
        intro q hq
        rw [hl]
        exact hmin q hq
      · intro q hq hlt
        rw [heq]
        rfl
    | none =>
      have hstep : bfsAux g t (fuel + 1) fr = bfsAux g t fuel (expandWalks g fr) := by
        rw [bfsAux, hfind]
      have hnone := List.find?_eq_none.mp hfind
      have hmin' : ∀ q, WalkFT g s t q → n + 1 ≤ q.length := by
        intro q hq
        have hge := hmin q hq
        rcases Nat.lt_or_ge n q.length with h | h
        · omega
        · exfalso
          have hlen : q.length = n := by omega
          obtain ⟨hw, hh, hl⟩ := hq
          have hmem : q.reverse ∈ fr := (hinv q.reverse).mpr ⟨q, hw, hh, hlen, rfl⟩
          apply hnone q.reverse hmem
          rw [List.head?_reverse, hl]
          simp
      obtain ⟨ih1, ih2⟩ := ih (n + 1) (expandWalks g fr) (by omega)
        (frontierInv_expand hn hinv) hmin'
      constructor
      · intro p hp
        rw [hstep] at hp
        exact ih1 p hp
      · intro q hq hlt
        rw [hstep]
        exact ih2 q hq (by omega)

theorem frontierInv_init (g : Graph) (s : String) : FrontierInv g s 1 [[s]] := by
  intro p
  simp only [List.mem_singleton]
  constructor
  · rintro rfl
    exact ⟨[s], List.chain'_singleton _, rfl, rfl, rfl⟩
  · rintro ⟨q, hw, hh, hl, hrev⟩
    cases q with
    | nil => cases hl
    | cons x xs =>
      cases xs with
      | nil =>
        have hx : x = s := by simpa using hh
        rw [hrev, hx]
        rfl
      | cons y ys =>
        simp only [List.length_cons] at hl
        omega

theorem exists_dup_split {α : Type} {l : List α} (h : ¬l.Nodup) :
    ∃ a l₁ l₂ l₃, l = l₁ ++ a :: l₂ ++ a :: l₃ := by
  induction l with
  | nil => exact absurd List.nodup_nil h
  | cons c rest ih =>
    by_cases hc : c ∈ rest
    · obtain ⟨u, v, huv⟩ := List.append_of_mem hc
      refine ⟨c, [], u, v, ?_⟩
      rw [huv]
      rfl
    · have hrest : ¬rest.Nodup := by
        intro hn
        exact h (List.nodup_cons.mpr ⟨hc, hn⟩)
      obtain ⟨a, l₁, l₂, l₃, hsplit⟩ := ih hrest
      refine ⟨a, c :: l₁, l₂, l₃, ?_⟩
      rw [hsplit]
      rfl

theorem walk_splice {g : Graph} {s t : String} {a : String} {l₁ l₂ l₃ : List String}
    (hw : WalkFT g s t (l₁ ++ a :: l₂ ++ a :: l₃)) :
    WalkFT g s t (l₁ ++ a :: l₃) := by
  obtain ⟨hchain, hh, hl⟩ := hw
  have hassoc : l₁ ++ a :: l₂ ++ a :: l₃ = l₁ ++ ((a :: l₂) ++ (a :: l₃)) := by
    simp
  rw [hassoc] at hchain hh hl
  obtain ⟨hc₁, hc₂, hlink₁⟩ := List.chain'_append.mp hchain
  obtain ⟨hc₃, hc₄, hlink₂⟩ := List.chain'_append.mp hc₂
  refine ⟨?_, ?_, ?_⟩
  · refine List.chain'_append.mpr ⟨hc₁, hc₄, ?_⟩
    intro x hx y hy
    exact hlink₁ x hx y (by simpa using hy)
  · rw [List.head?_append] at hh ⊢
    rw [show ((a :: l₂) ++ (a :: l₃)).head? = some a from rfl] at hh
    rw [show (a :: l₃).head? = some a from rfl]
    exact hh
  · rw [List.getLast?_append] at hl ⊢
    rw [List.getLast?_append] at hl
    have hne : (a :: l₃).getLast? = some ((a :: l₃).getLast (by simp)) :=
      List.getLast?_eq_getLast _ (by simp)
    rw [hne] at hl ⊢
    simpa using hl

theorem walk_dedup (g : Graph) (s t : String) :
    ∀ n q, q.length ≤ n → WalkFT g s t q →
      ∃ q', WalkFT g s t q' ∧ q'.Nodup := by
  intro n
  induction n with
  | zero =>
    intro q hq hw
    obtain ⟨_, _, hl⟩ := hw
    rw [List.eq_nil_of_length_eq_zero (Nat.le_zero.mp hq)] at hl
    cases hl
  | succ n ih =>
    intro q hq hw
    by_cases hnd : q.Nodup
    · exact ⟨q, hw, hnd⟩
    · obtain ⟨a, l₁, l₂, l₃, hsplit⟩ := exists_dup_split hnd
      have hw' : WalkFT g s t (l₁ ++ a :: l₃) := walk_splice (hsplit ▸ hw)
      have hlen : (l₁ ++ a :: l₃).length ≤ n := by
        have : q.length = l₁.length + 1 + l₂.length + 1 + l₃.length := by
          rw [hsplit]
          simp
          omega
        simp only [List.length_append, List.length_cons]
        omega
      exact ih (l₁ ++ a :: l₃) hlen hw'

theorem nodup_walk_bound {g : Graph} {s t : String} {q : List String}
    (hw : WalkFT g s t q) (hnd : q.Nodup) :
    q.length ≤ g.edges.length + 1 := by
  obtain ⟨hchain, hh, hl⟩ := hw
  have hne : q ≠ [] := by
    intro h0
    rw [h0] at hl
    cases hl
  have hpos : 1 ≤ q.length := by
    cases q with
    | nil => exact absurd rfl hne
    | cons _ _ => simp
  set P : Finset (String × String) := (g.edges.map (fun e => (e.1, e.2.1))).toFinset
    with hP
  have hget := List.chain'_iff_get.mp hchain
  have hmaps : ∀ i : Fin (q.length - 1),
      (q.get ⟨i.1, by omega⟩, q.get ⟨i.1 + 1, by omega⟩) ∈ P := by
    intro i
    have hadj := hget i.1 i.2
    obtain ⟨e, he, he1, he2⟩ := adjB_iff.mp hadj
    rw [hP]
    rw [List.mem_toFinset, List.mem_map]
    exact ⟨e, he, by rw [he1, he2]⟩
  have hinj : ∀ i j : Fin (q.length - 1),
      q.get ⟨i.1, by omega⟩ = q.get ⟨j.1, by omega⟩ → i = j := by
    intro i j hij
    have := (List.nodup_iff_injective_get.mp hnd) hij
    have hval : i.1 = j.1 := by
      have := congrArg Fin.val this
      simpa using this
    exact Fin.ext hval
  have hcard : q.length - 1 ≤ P.card := by
    have hle : (Finset.univ : Finset (Fin (q.length - 1))).card ≤ P.card :=
      Finset.card_le_card_of_injOn
        (fun i : Fin (q.length - 1) =>
          (q.get ⟨i.1, by omega⟩, q.get ⟨i.1 + 1, by omega⟩))
        (fun i _ => hmaps i)
        (fun i _ j _ hij => hinj i j (congrArg Prod.fst hij))
    simpa using hle
  have hPcard : P.card ≤ g.edges.length := by
    rw [hP]
    calc (g.edges.map (fun e => (e.1, e.2.1))).toFinset.card
        ≤ (g.edges.map (fun e => (e.1, e.2.1))).length :=
          List.toFinset_card_le _
      _ = g.edges.length := List.length_map _ _
  omega

theorem shortest_path_found {g : Graph} {s t : String}
    (hs : g.hasNode s = true) (ht : g.hasNode t = true)
    (hpath : ∃ q, WalkFT g s t q) :
    ∃ p, WalkFT g s t p ∧ (∀ q, WalkFT g s t q → p.length ≤ q.length)
      ∧ shortest_path g s t = .ok (some p) := by
  have hmin1 : ∀ q, WalkFT g s t q → 1 ≤ q.length := by
    intro q hq
    obtain ⟨_, hh, _⟩ := hq
    cases q with
    | nil => cases hh
    | cons _ _ => simp
  obtain ⟨hc1, hc2⟩ := bfsAux_spec g s t (g.edges.length + 1) 1 [[s]]
    (le_refl 1) (frontierInv_init g s) hmin1
  obtain ⟨q, hq⟩ := hpath
  obtain ⟨q', hq', hnd⟩ := walk_dedup g s t q.length q (le_refl _) hq
  have hlen : q'.length < 1 + (g.edges.length + 1) := by
    have := nodup_walk_bound hq' hnd
    omega
  have hsome := hc2 q' hq' hlen
  cases hres : bfsAux g t (g.edges.length + 1) [[s]] with
  | none =>
    rw [hres] at hsome
    cases hsome
  | some p =>
    obtain ⟨hwp, hminp⟩ := hc1 p hres
    refine ⟨p, hwp, hminp, ?_⟩
    unfold shortest_path
    rw [if_pos (by rw [hs, ht]; rfl)]
    rw [hres]

theorem walk_nodes_prefix {g : Graph}
    (hOnly : ∀ e ∈ g.edges, strStartsWith e.1 "table:" = true)
    {tb : String} (htb : strStartsWith tb "table:" = true) :
    ∀ p, IsWalk g p → p.getLast? = some tb →
      ∀ x ∈ p, strStartsWith x "table:" = true := by
  intro p
  induction p with
  | nil =>
    intro _ _ x hx
    cases hx
  | cons a l ih =>
    intro hw hl x hx
    cases l with
    | nil =>
      have ha : a = tb := by simpa using hl
      have : x = a := by simpa using hx
      rw [this, ha]
      exact htb
    | cons b l' =>
      have hadj : adjB g a b = true := (List.chain'_cons.mp hw).1
      have hwb : IsWalk g (b :: l') := (List.chain'_cons.mp hw).2
      have hlast : (b :: l').getLast? = some tb := by
        rw [← hl]
        exact (List.getLast?_cons_cons ..).symm
      rcases List.mem_cons.mp hx with rfl | hx'
      · obtain ⟨e, he, he1, _⟩ := adjB_iff.mp hadj
        have := hOnly e he
        rw [he1] at this
        exact this
      · exact ih hwb hlast x hx'

theorem get_join_path_found {g : Graph} {a b : String}
    (ha : g.hasNode ("table:" ++ a) = true) (hb : g.hasNode ("table:" ++ b) = true)
    (hOnly : ∀ e ∈ g.edges, strStartsWith e.1 "table:" = true)
    (hpath : ∃ q, WalkFT g ("table:" ++ a) ("table:" ++ b) q) :
    ∃ p, WalkFT g ("table:" ++ a) ("table:" ++ b) p
      ∧ (∀ q, WalkFT g ("table:" ++ a) ("table:" ++ b) q → p.length ≤ q.length)
      ∧ get_join_path g a b =
          .ok (some (p.map (fun n => strReplace n "table:" ""))) := by
  obtain ⟨p, hwp, hmin, hsp⟩ := shortest_path_found ha hb hpath
  refine ⟨p, hwp, hmin, ?_⟩
  unfold get_join_path
  rw [hsp]
  have hfilter : p.filter (fun n => strStartsWith n "table:") = p := by
    rw [List.filter_eq_self]
    intro x hx
    exact walk_nodes_prefix hOnly (strStartsWith_append_self "table:" b)
      p hwp.1 hwp.2.2 x hx
  show Except.ok (some ((p.filter (fun n => strStartsWith n "table:")).map
      (fun n => strReplace n "table:" ""))) =
    Except.ok (some (p.map (fun n => strReplace n "table:" "")))
  rw [hfilter]

/-! ### Claim C1 -/

/-- C1: for every pair of known tables `a`, `b` with at least one directed
path between their table nodes in the schema graph (where only table nodes
carry outgoing edges, and the table names do not themselves contain the
node-key prefix `"table:"`), `get_join_path a b` succeeds and returns the
prefix-stripped node sequence of a directed path of minimal edge count from
`table:a` to `table:b`, which starts with `a` and ends with `b`; in
particular, in the scenario where `orders` references `users` via `user_id`
and `order_items` references `orders` via `order_id`,
`get_join_path "order_items" "users"` returns
`["order_items", "orders", "users"]`. -/
theorem claim_C1 :
    (∀ (g : Graph) (a b : String),
      g.hasNode ("table:" ++ a) = true →
      g.hasNode ("table:" ++ b) = true →
      (∀ e ∈ g.edges, strStartsWith e.1 "table:" = true) →
      strContainsSub a "table:" = false →
      strContainsSub b "table:" = false →
      (∃ q, WalkFT g ("table:" ++ a) ("table:" ++ b) q) →
      ∃ p, WalkFT g ("table:" ++ a) ("table:" ++ b) p
        ∧ (∀ q, WalkFT g ("table:" ++ a) ("table:" ++ b) q → p.length ≤ q.length)
        ∧ get_join_path g a b =
            .ok (some (p.map (fun n => strReplace n "table:" "")))
        ∧ (p.map (fun n => strReplace n "table:" "")).head? = some a
        ∧ (p.map (fun n => strReplace n "table:" "")).getLast? = some b)
    ∧ get_join_path scenarioGraph "order_items" "users" =
        .ok (some ["order_items", "orders", "users"]) := by
  constructor
  · intro g a b ha hb hOnly hca hcb hpath
    obtain ⟨p, hwp, hmin, heq⟩ := get_join_path_found ha hb hOnly hpath
    refine ⟨p, hwp, hmin, heq, ?_, ?_⟩
    · rw [List.head?_map, hwp.2.1]
      show some (strReplace ("table:" ++ a) "table:" "") = some a
      rw [strReplace_strip _ _ (by decide) hca]
    · rw [List.getLast?_map, hwp.2.2]
      show some (strReplace ("table:" ++ b) "table:" "") = some b
      rw [strReplace_strip _ _ (by decide) hcb]
  · rfl

/-- Witness for C1: the universally quantified part applied to the concrete
scenario graph, with every hypothesis discharged by evaluation. -/
theorem claim_C1_witness :
    ∃ p, WalkFT scenarioGraph ("table:" ++ "order_items") ("table:" ++ "users") p
      ∧ (∀ q, WalkFT scenarioGraph ("table:" ++ "order_items") ("table:" ++ "users") q
          → p.length ≤ q.length)
      ∧ get_join_path scenarioGraph "order_items" "users" =
          .ok (some (p.map (fun n => strReplace n "table:" "")))
      ∧ (p.map (fun n => strReplace n "table:" "")).head? = some "order_items"
      ∧ (p.map (fun n => strReplace n "table:" "")).getLast? = some "users" :=
  claim_C1.1 scenarioGraph "order_items" "users" (by decide) (by decide)
    (by decide) (by decide) (by decide)
    ⟨["table:order_items", "table:orders", "table:users"],
      List.chain'_cons.mpr ⟨by decide, List.chain'_cons.mpr ⟨by decide,
        List.chain'_singleton _⟩⟩, by decide, by decide⟩

/-! ### Claim C2 -/

/-- C2 fails on the code: with an unknown table name, `get_join_path`
does not return the "no path" sentinel; `nx.shortest_path` raises
`nx.NodeNotFound`, which the `except nx.NetworkXNoPath` clause does not
catch, so the exception propagates to the caller. -/
theorem claim_C2_bug :
    get_join_path scenarioGraph "nonexistent" "users" = .error .nodeNotFound
      ∧ get_join_path scenarioGraph "nonexistent" "users" ≠ .ok none := by
  refine ⟨rfl, ?_⟩
  intro h
  rw [show get_join_path scenarioGraph "nonexistent" "users"
      = .error .nodeNotFound from rfl] at h
  exact Except.noConfusion h

/-! ### Claim C8 -/

theorem walkFT_length_pos {g : Graph} {s t : String} {q : List String}
    (hq : WalkFT g s t q) : 1 ≤ q.length := by
  obtain ⟨_, hh, _⟩ := hq
  cases q with
  | nil => cases hh
  | cons _ _ => simp

theorem shortest_path_sound {g : Graph} {s t : String} {p : List String}
    (h : shortest_path g s t = .ok (some p)) :
    WalkFT g s t p ∧ ∀ q, WalkFT g s t q → p.length ≤ q.length := by
  unfold shortest_path at h
  by_cases hc : (g.hasNode s && g.hasNode t) = true
  · rw [if_pos hc] at h
    have hb : bfsAux g t (g.edges.length + 1) [[s]] = some p := by
      injection h
    exact (bfsAux_spec g s t (g.edges.length + 1) 1 [[s]] (le_refl 1)
      (frontierInv_init g s) (fun q hq => walkFT_length_pos hq)).1 p hb
  · rw [if_neg hc] at h
    cases h

theorem get_join_path_inv {g : Graph} {t1 t2 : String} {l : List String}
    (h : get_join_path g t1 t2 = .ok (some l)) :
    ∃ p, WalkFT g ("table:" ++ t1) ("table:" ++ t2) p
      ∧ (∀ q, WalkFT g ("table:" ++ t1) ("table:" ++ t2) q → p.length ≤ q.length)
      ∧ l = (p.filter (fun n => strStartsWith n "table:")).map
          (fun n => strReplace n "table:" "") := by
  unfold get_join_path at h
  cases hsp : shortest_path g ("table:" ++ t1) ("table:" ++ t2) with
  | error e =>
    rw [hsp] at h
    cases h
  | ok r =>
    rw [hsp] at h
    cases r with
    | none => cases h
    | some p =>
      obtain ⟨hw, hmin⟩ := shortest_path_sound hsp
      have hl : some ((p.filter (fun n => strStartsWith n "table:")).map
          (fun n => strReplace n "table:" "")) = some l := by
        injection h
      exact ⟨p, hw, hmin, (Option.some_inj.mp hl).symm⟩

theorem get_join_path_ok {g : Graph} {t1 t2 : String}
    (h1 : g.hasNode ("table:" ++ t1) = true)
    (h2 : g.hasNode ("table:" ++ t2) = true) :
    ∃ r, get_join_path g t1 t2 = .ok r := by
  unfold get_join_path shortest_path
  rw [if_pos (by rw [h1, h2]; rfl)]
  cases bfsAux g ("table:" ++ t2)
      (g.edges.length + 1) [["table:" ++ t1]] with
  | none => exact ⟨none, rfl⟩
  | some p =>
    exact ⟨some ((p.filter (fun n => strStartsWith n "table:")).map
      (fun n => strReplace n "table:" "")), rfl⟩

theorem specStep_some {g : Graph} (pr : String × String) {p : List String}
    (h : get_join_path g pr.1 pr.2 = .ok (some p)) (acc : List JoinSuggestion) :
    specStep g pr acc =
      if p.isEmpty then acc
      else { fromT := pr.1, toT := pr.2, path := p,
             via := _get_join_columns g pr.1 pr.2 } :: acc := by
  unfold specStep
  rw [h]

theorem specStep_none {g : Graph} (pr : String × String)
    (h : get_join_path g pr.1 pr.2 = .ok none) (acc : List JoinSuggestion) :
    specStep g pr acc = acc := by
  unfold specStep
  rw [h]

theorem specStep_error {g : Graph} (pr : String × String) {e : NxError}
    (h : get_join_path g pr.1 pr.2 = .error e) (acc : List JoinSuggestion) :
    specStep g pr acc = acc := by
  unfold specStep
  rw [h]

theorem joinSuggRow_cons_some {g : Graph} {t1 t2 : String} {p : List String}
    (rest : List String) (acc : List JoinSuggestion)
    (h : get_join_path g t1 t2 = .ok (some p)) :
    joinSuggRow g t1 (t2 :: rest) acc =
      if p.isEmpty then joinSuggRow g t1 rest acc
      else joinSuggRow g t1 rest
        (acc ++ [{ fromT := t1, toT := t2, path := p,
                   via := _get_join_columns g t1 t2 }]) := by
  rw [joinSuggRow, h]

theorem joinSuggRow_cons_none {g : Graph} {t1 t2 : String}
    (rest : List String) (acc : List JoinSuggestion)
    (h : get_join_path g t1 t2 = .ok none) :
    joinSuggRow g t1 (t2 :: rest) acc = joinSuggRow g t1 rest acc := by
  rw [joinSuggRow, h]

theorem joinSuggRow_spec {g : Graph} (t1 : String)
    (h1 : g.hasNode ("table:" ++ t1) = true) :
    ∀ (rest : List String), (∀ t ∈ rest, g.hasNode ("table:" ++ t) = true) →
    ∀ acc, joinSuggRow g t1 rest acc =
      .ok (acc ++ (rest.map (fun u => (t1, u))).foldr (specStep g) []) := by
  intro rest
  induction rest with
  | nil =>
    intro _ acc
    show Except.ok acc = .ok (acc ++ [])
    rw [List.append_nil]
  | cons t2 rest' ih =>
    intro hk acc
    obtain ⟨r, hr⟩ := get_join_path_ok h1 (hk t2 (by simp))
    have ih' := ih (fun t ht => hk t (by simp [ht]))
    rw [List.map_cons, List.foldr_cons]
    cases r with
    | none =>
      rw [joinSuggRow_cons_none rest' acc hr, specStep_none (t1, t2) hr, ih']
    | some p =>
      rw [joinSuggRow_cons_some rest' acc hr, specStep_some (t1, t2) hr]
      by_cases hp : p.isEmpty
      · rw [if_pos hp, if_pos hp, ih']
      · rw [if_neg hp, if_neg hp, ih']
        rw [List.append_assoc]
        rfl

theorem specStep_foldr_append (g : Graph) (prs : List (String × String))
    (init : List JoinSuggestion) :
    prs.foldr (specStep g) init = prs.foldr (specStep g) [] ++ init := by
  induction prs with
  | nil => rfl
  | cons pr prs' ih =>
    rw [List.foldr_cons, List.foldr_cons, ih]
    cases hr : get_join_path g pr.1 pr.2 with
    | error e =>
      rw [specStep_error pr hr, specStep_error pr hr]
    | ok r =>
      cases r with
      | none =>
        rw [specStep_none pr hr, specStep_none pr hr]
      | some p =>
        rw [specStep_some pr hr, specStep_some pr hr]
        by_cases hp : p.isEmpty
        · rw [if_pos hp, if_pos hp]
        · rw [if_neg hp, if_neg hp]
          rfl

theorem joinSuggAux_spec {g : Graph} :
    ∀ tables : List String, (∀ t ∈ tables, g.hasNode ("table:" ++ t) = true) →
      joinSuggAux g tables = .ok (joinSuggestionsSpecList g tables) := by
  intro tables
  induction tables with
  | nil => intro _; rfl
  | cons t1 rest ih =>
    intro hk
    rw [joinSuggAux]
    rw [joinSuggRow_spec t1 (hk t1 (by simp)) rest
      (fun t ht => hk t (by simp [ht])) []]
    rw [ih (fun t ht => hk t (by simp [ht]))]
    unfold joinSuggestionsSpecList
    rw [show orderedPairs (t1 :: rest)
        = rest.map (fun u => (t1, u)) ++ orderedPairs rest from rfl]
    rw [List.foldr_append]
    rw [specStep_foldr_append g (rest.map (fun u => (t1, u)))
      ((orderedPairs rest).foldr (specStep g) [])]
    rfl

theorem mem_specFoldr {g : Graph} {t1 t2 : String} {p : List String}
    (hp : get_join_path g t1 t2 = .ok (some p)) (hne : ¬p.isEmpty = true) :
    ∀ (prs : List (String × String)) (init : List JoinSuggestion), (t1, t2) ∈ prs →
      { fromT := t1, toT := t2, path := p, via := _get_join_columns g t1 t2 }
        ∈ prs.foldr (specStep g) init := by
  intro prs
  induction prs with
  | nil =>
    intro init h
    cases h
  | cons pr prs' ih =>
    intro init hmem
    rw [List.foldr_cons]
    rcases List.mem_cons.mp hmem with heq | hmem'
    · rw [← heq]
      rw [specStep_some (t1, t2) hp]
      rw [if_neg hne]
      exact List.mem_cons_self _ _
    · have htail := ih init hmem'
      cases hr : get_join_path g pr.1 pr.2 with
      | error e =>
        rw [specStep_error pr hr]
        exact htail
      | ok r =>
        cases r with
        | none =>
          rw [specStep_none pr hr]
          exact htail
        | some q =>
          rw [specStep_some pr hr]
          by_cases hq : q.isEmpty
          · rw [if_pos hq]
            exact htail
          · rw [if_neg hq]
            exact List.mem_cons_of_mem _ htail

theorem join_columns_empty {g : Graph} {t1 t2 : String}
    (hno : ∀ e ∈ g.edges, ¬(e.1 = "table:" ++ t1 ∧ e.2.1 = "table:" ++ t2)) :
    _get_join_columns g t1 t2 = [] := by
  unfold _get_join_columns
  have hf : g.edges.filter (fun e => e.1 == "table:" ++ t1
      && strStartsWith e.2.1 "table:" && e.2.1 == "table:" ++ t2) = [] := by
    rw [List.filter_eq_nil_iff]
    intro e he
    intro hc
    have hc' := hc
    rw [Bool.and_eq_true, Bool.and_eq_true] at hc'
    exact hno e he ⟨beq_iff_eq.mp hc'.1.1, beq_iff_eq.mp hc'.2⟩
  rw [hf]
  rfl

theorem orderedPairs_short {tables : List String} (h : tables.length < 2) :
    orderedPairs tables = [] := by
  cases tables with
  | nil => rfl
  | cons t rest =>
    cases rest with
    | nil => rfl
    | cons t' rest' =>
      simp only [List.length_cons] at h
      omega

/-! The claim C8 theorem. -/

/-- C8: `get_join_suggestions` returns an empty list for fewer than two
tables; for known tables it returns exactly one suggestion per ordered
pair that has a (nonempty) join path, in pair-enumeration order, omitting
pairs with none; and a pair whose shortest join path has at least two
hops (an intermediate table) still appears, with an empty join-column
list. -/
theorem claim_C8 :
    (∀ (g : Graph) (tables : List String), tables.length < 2 →
        get_join_suggestions g tables = .ok [])
    ∧ (∀ (g : Graph) (tables : List String),
        (∀ t ∈ tables, g.hasNode ("table:" ++ t) = true) →
        get_join_suggestions g tables = .ok (joinSuggestionsSpecList g tables))
    ∧ (∀ (g : Graph) (tables : List String) (t1 t2 : String) (l : List String),
        (∀ t ∈ tables, g.hasNode ("table:" ++ t) = true) →
        (t1, t2) ∈ orderedPairs tables →
        get_join_path g t1 t2 = .ok (some l) → 3 ≤ l.length →
        ∃ out, get_join_suggestions g tables = .ok out ∧
          { fromT := t1, toT := t2, path := l, via := ([] : List String) } ∈ out) := by
  have hshort : ∀ (g : Graph) (tables : List String), tables.length < 2 →
      get_join_suggestions g tables = .ok [] := by
    intro g tables h
    unfold get_join_suggestions
    rw [if_pos h]
    rfl
  have hb : ∀ (g : Graph) (tables : List String),
      (∀ t ∈ tables, g.hasNode ("table:" ++ t) = true) →
      get_join_suggestions g tables = .ok (joinSuggestionsSpecList g tables) := by
    intro g tables hk
    by_cases h2 : tables.length < 2
    · rw [hshort g tables h2]
      unfold joinSuggestionsSpecList
      rw [orderedPairs_short h2]
      rfl
    · unfold get_join_suggestions
      rw [if_neg h2]
      exact joinSuggAux_spec tables hk
  refine ⟨hshort, hb, ?_⟩
  intro g tables t1 t2 l hk hmem hjp hlen
  refine ⟨joinSuggestionsSpecList g tables, hb g tables hk, ?_⟩
  have hne : ¬l.isEmpty = true := by
    intro h0
    rw [List.isEmpty_iff] at h0
    rw [h0] at hlen
    simp at hlen
  have hvia : _get_join_columns g t1 t2 = [] := by
    apply join_columns_empty
    intro e he hc
    obtain ⟨p, hw, hmin, hl⟩ := get_join_path_inv hjp
    have hwalk2 : WalkFT g ("table:" ++ t1) ("table:" ++ t2)
        ["table:" ++ t1, "table:" ++ t2] := by
      refine ⟨List.chain'_cons.mpr ⟨?_, List.chain'_singleton _⟩, rfl, rfl⟩
      exact adjB_iff.mpr ⟨e, he, hc.1, hc.2⟩
    have hp2 : p.length ≤ 2 := hmin _ hwalk2
    have hl2 : l.length ≤ p.length := by
      rw [hl, List.length_map]
      exact List.length_filter_le _ _
    omega
  have := mem_specFoldr hjp hne (orderedPairs tables) [] hmem
  rw [hvia] at this
  exact this

/-- Witness for C8: all three parts applied to the scenario graph; the
pair `("order_items", "users")` is joined only through the intermediate
table `orders`, so its suggestion carries an empty join-column list. -/
theorem claim_C8_witness :
    get_join_suggestions scenarioGraph ["orders"] = .ok []
    ∧ get_join_suggestions scenarioGraph ["order_items", "users"]
        = .ok (joinSuggestionsSpecList scenarioGraph ["order_items", "users"])
    ∧ ∃ out, get_join_suggestions scenarioGraph ["order_items", "users"] = .ok out
        ∧ { fromT := "order_items", toT := "users",
            path := ["order_items", "orders", "users"],
            via := ([] : List String) } ∈ out :=
  ⟨claim_C8.1 scenarioGraph ["orders"] (by decide),
   claim_C8.2.1 scenarioGraph ["order_items", "users"] (by decide),
   claim_C8.2.2 scenarioGraph ["order_items", "users"] "order_items" "users"
     ["order_items", "orders", "users"] (by decide) (by decide) rfl (by decide)⟩

/-! ### Round-trip of the node-link serialisation (claims C6 and C7) -/

theorem jlookup_cons_self (k : String) (v : JVal) (rest : List (String × JVal)) :
    jlookup k ((k, v) :: rest) = some v := by
  simp [jlookup]

theorem jlookup_cons_ne (k k' : String) (v : JVal) (rest : List (String × JVal))
    (h : (k' == k) = false) : jlookup k ((k', v) :: rest) = jlookup k rest := by
  simp [jlookup, h]

theorem jlookup_optStrField_ne (k k' : String) (h : (k' == k) = false)
    (v : Option String) (rest : List (String × JVal)) :
    jlookup k (optStrField k' v ++ rest) = jlookup k rest := by
  cases v with
  | none => rfl
  | some s =>
    rw [show optStrField k' (some s) = [(k', JVal.jstr s)] from rfl,
      List.singleton_append, jlookup_cons_ne _ _ _ _ h]

theorem jlookup_optNumField_ne (k k' : String) (h : (k' == k) = false)
    (v : Option ℚ) (rest : List (String × JVal)) :
    jlookup k (optNumField k' v ++ rest) = jlookup k rest := by
  cases v with
  | none => rfl
  | some q =>
    rw [show optNumField k' (some q) = [(k', JVal.jnum q)] from rfl,
      List.singleton_append, jlookup_cons_ne _ _ _ _ h]

theorem jlookup_optStrField_self (k : String) (v : Option String)
    (rest : List (String × JVal)) (hrest : jlookup k rest = none) :
    jlookup k (optStrField k v ++ rest) = v.map JVal.jstr := by
  cases v with
  | none => exact hrest
  | some s =>
    rw [show optStrField k (some s) = [(k, JVal.jstr s)] from rfl,
      List.singleton_append, jlookup_cons_self]
    rfl

theorem jlookup_optNumField_self (k : String) (v : Option ℚ)
    (rest : List (String × JVal)) (hrest : jlookup k rest = none) :
    jlookup k (optNumField k v ++ rest) = v.map JVal.jnum := by
  cases v with
  | none => exact hrest
  | some q =>
    rw [show optNumField k (some q) = [(k, JVal.jnum q)] from rfl,
      List.singleton_append, jlookup_cons_self]
    rfl

theorem decodeNodeEntry_encode (k : String) (a : NodeAttrs) :
    decodeNodeEntry (.jobj (nodeAttrsFields a ++ [("id", .jstr k)])) = some (k, a) := by
  have hassoc : nodeAttrsFields a ++ [("id", JVal.jstr k)]
      = optStrField "type" a.type ++ (optStrField "name" a.name
        ++ (optStrField "data_type" a.data_type ++ (optStrField "table" a.table
        ++ (optStrField "text" a.text ++ (optStrField "sql" a.sql
        ++ (optStrField "timestamp" a.timestamp ++ (optStrField "query" a.query
        ++ (optStrField "data" a.data ++ [("id", JVal.jstr k)])))))))) := by
    unfold nodeAttrsFields
    simp [List.append_assoc]
  have hid : jlookup "id" (nodeAttrsFields a ++ [("id", JVal.jstr k)])
      = some (JVal.jstr k) := by
    rw [hassoc,
      jlookup_optStrField_ne _ _ (by decide), jlookup_optStrField_ne _ _ (by decide),
      jlookup_optStrField_ne _ _ (by decide), jlookup_optStrField_ne _ _ (by decide),
      jlookup_optStrField_ne _ _ (by decide), jlookup_optStrField_ne _ _ (by decide),
      jlookup_optStrField_ne _ _ (by decide), jlookup_optStrField_ne _ _ (by decide),
      jlookup_optStrField_ne _ _ (by decide), jlookup_cons_self]
  have htype : fieldStr (nodeAttrsFields a ++ [("id", JVal.jstr k)]) "type" = a.type := by
    unfold fieldStr
    rw [hassoc, jlookup_optStrField_self _ _ _ (by
      rw [jlookup_optStrField_ne _ _ (by decide), jlookup_optStrField_ne _ _ (by decide),
        jlookup_optStrField_ne _ _ (by decide), jlookup_optStrField_ne _ _ (by decide),
        jlookup_optStrField_ne _ _ (by decide), jlookup_optStrField_ne _ _ (by decide),
        jlookup_optStrField_ne _ _ (by decide), jlookup_optStrField_ne _ _ (by decide),
        jlookup_cons_ne _ _ _ _ (by decide)]
      rfl)]
    cases a.type <;> rfl
  have hname : fieldStr (nodeAttrsFields a ++ [("id", JVal.jstr k)]) "name" = a.name := by
    unfold fieldStr
    rw [hassoc, jlookup_optStrField_ne _ _ (by decide),
      jlookup_optStrField_self _ _ _ (by
        rw [jlookup_optStrField_ne _ _ (by decide), jlookup_optStrField_ne _ _ (by decide),
          jlookup_optStrField_ne _ _ (by decide), jlookup_optStrField_ne _ _ (by decide),
          jlookup_optStrField_ne _ _ (by decide), jlookup_optStrField_ne _ _ (by decide),
          jlookup_optStrField_ne _ _ (by decide), jlookup_cons_ne _ _ _ _ (by decide)]
        rfl)]
    cases a.name <;> rfl
  have hdata_type : fieldStr (nodeAttrsFields a ++ [("id", JVal.jstr k)]) "data_type"
      = a.data_type := by
    unfold fieldStr
    rw [hassoc, jlookup_optStrField_ne _ _ (by decide),
      jlookup_optStrField_ne _ _ (by decide),
      jlookup_optStrField_self _ _ _ (by
        rw [jlookup_optStrField_ne _ _ (by decide), jlookup_optStrField_ne _ _ (by decide),
          jlookup_optStrField_ne _ _ (by decide), jlookup_optStrField_ne _ _ (by decide),
          jlookup_optStrField_ne _ _ (by decide), jlookup_optStrField_ne _ _ (by decide),
          jlookup_cons_ne _ _ _ _ (by decide)]
        rfl)]
    cases a.data_type <;> rfl
  have htable : fieldStr (nodeAttrsFields a ++ [("id", JVal.jstr k)]) "table"
      = a.table := by
    unfold fieldStr
    rw [hassoc, jlookup_optStrField_ne _ _ (by decide),
      jlookup_optStrField_ne _ _ (by decide), jlookup_optStrField_ne _ _ (by decide),
      jlookup_optStrField_self _ _ _ (by
        rw [jlookup_optStrField_ne _ _ (by decide), jlookup_optStrField_ne _ _ (by decide),
          jlookup_optStrField_ne _ _ (by decide), jlookup_optStrField_ne _ _ (by decide),
          jlookup_optStrField_ne _ _ (by decide), jlookup_cons_ne _ _ _ _ (by decide)]
        rfl)]
    cases a.table <;> rfl
  have htext : fieldStr (nodeAttrsFields a ++ [("id", JVal.jstr k)]) "text" = a.text := by
    unfold fieldStr
    rw [hassoc, jlookup_optStrField_ne _ _ (by decide),
      jlookup_optStrField_ne _ _ (by decide), jlookup_optStrField_ne _ _ (by decide),
      jlookup_optStrField_ne _ _ (by decide),
      jlookup_optStrField_self _ _ _ (by
        rw [jlookup_optStrField_ne _ _ (by decide), jlookup_optStrField_ne _ _ (by decide),
          jlookup_optStrField_ne _ _ (by decide), jlookup_optStrField_ne _ _ (by decide),
          jlookup_cons_ne _ _ _ _ (by decide)]
        rfl)]
    cases a.text <;> rfl
  have hsql : fieldStr (nodeAttrsFields a ++ [("id", JVal.jstr k)]) "sql" = a.sql := by
    unfold fieldStr
    rw [hassoc, jlookup_optStrField_ne _ _ (by decide),
      jlookup_optStrField_ne _ _ (by decide), jlookup_optStrField_ne _ _ (by decide),
      jlookup_optStrField_ne _ _ (by decide), jlookup_optStrField_ne _ _ (by decide),
      jlookup_optStrField_self _ _ _ (by
        rw [jlookup_optStrField_ne _ _ (by decide), jlookup_optStrField_ne _ _ (by decide),
          jlookup_optStrField_ne _ _ (by decide), jlookup_cons_ne _ _ _ _ (by decide)]
        rfl)]
    cases a.sql <;> rfl
  have htimestamp : fieldStr (nodeAttrsFields a ++ [("id", JVal.jstr k)]) "timestamp"
      = a.timestamp := by
    unfold fieldStr
    rw [hassoc, jlookup_optStrField_ne _ _ (by decide),
      jlookup_optStrField_ne _ _ (by decide), jlookup_optStrField_ne _ _ (by decide),
      jlookup_optStrField_ne _ _ (by decide), jlookup_optStrField_ne _ _ (by decide),
      jlookup_optStrField_ne _ _ (by decide),
      jlookup_optStrField_self _ _ _ (by
        rw [jlookup_optStrField_ne _ _ (by decide), jlookup_optStrField_ne _ _ (by decide),
          jlookup_cons_ne _ _ _ _ (by decide)]
        rfl)]
    cases a.timestamp <;> rfl
  have hquery : fieldStr (nodeAttrsFields a ++ [("id", JVal.jstr k)]) "query"
      = a.query := by
    unfold fieldStr
    rw [hassoc, jlookup_optStrField_ne _ _ (by decide),
      jlookup_optStrField_ne _ _ (by decide), jlookup_optStrField_ne _ _ (by decide),
      jlookup_optStrField_ne _ _ (by decide), jlookup_optStrField_ne _ _ (by decide),
      jlookup_optStrField_ne _ _ (by decide), jlookup_optStrField_ne _ _ (by decide),
      jlookup_optStrField_self _ _ _ (by
        rw [jlookup_optStrField_ne _ _ (by decide), jlookup_cons_ne _ _ _ _ (by decide)]
        rfl)]
    cases a.query <;> rfl
  have hdata : fieldStr (nodeAttrsFields a ++ [("id", JVal.jstr k)]) "data" = a.data := by
    unfold fieldStr
    rw [hassoc, jlookup_optStrField_ne _ _ (by decide),
      jlookup_optStrField_ne _ _ (by decide), jlookup_optStrField_ne _ _ (by decide),
      jlookup_optStrField_ne _ _ (by decide), jlookup_optStrField_ne _ _ (by decide),
      jlookup_optStrField_ne _ _ (by decide), jlookup_optStrField_ne _ _ (by decide),
      jlookup_optStrField_ne _ _ (by decide),
      jlookup_optStrField_self _ _ _ (by
        rw [jlookup_cons_ne _ _ _ _ (by decide)]
        rfl)]
    cases a.data <;> rfl
  have hof : nodeAttrsOfFields (nodeAttrsFields a ++ [("id", JVal.jstr k)]) = a := by
    unfold nodeAttrsOfFields
    rw [htype, hname, hdata_type, htable, htext, hsql, htimestamp, hquery, hdata]
  show (match jlookup "id" (nodeAttrsFields a ++ [("id", JVal.jstr k)]) with
      | some (JVal.jstr k') =>
          some (k', nodeAttrsOfFields (nodeAttrsFields a ++ [("id", JVal.jstr k)]))
      | _ => none) = some (k, a)
  rw [hid, hof]

theorem decodeLinkEntry_encode (u v : String) (a : EdgeAttrs) :
    decodeLinkEntry (.jobj (edgeAttrsFields a
      ++ [("source", .jstr u), ("target", .jstr v)])) = some (u, v, a) := by
  have hassoc : edgeAttrsFields a ++ [("source", JVal.jstr u), ("target", JVal.jstr v)]
      = optStrField "relationship" a.relationship
        ++ (optStrField "via_column" a.via_column
        ++ (optNumField "similarity" a.similarity
        ++ [("source", JVal.jstr u), ("target", JVal.jstr v)])) := by
    unfold edgeAttrsFields
    simp [List.append_assoc]
  have hsrc : jlookup "source"
      (edgeAttrsFields a ++ [("source", JVal.jstr u), ("target", JVal.jstr v)])
      = some (JVal.jstr u) := by
    rw [hassoc, jlookup_optStrField_ne _ _ (by decide),
      jlookup_optStrField_ne _ _ (by decide), jlookup_optNumField_ne _ _ (by decide),
      jlookup_cons_self]
  have htgt : jlookup "target"
      (edgeAttrsFields a ++ [("source", JVal.jstr u), ("target", JVal.jstr v)])
      = some (JVal.jstr v) := by
    rw [hassoc, jlookup_optStrField_ne _ _ (by decide),
      jlookup_optStrField_ne _ _ (by decide), jlookup_optNumField_ne _ _ (by decide),
      jlookup_cons_ne _ _ _ _ (by decide), jlookup_cons_self]
  have hrel : fieldStr
      (edgeAttrsFields a ++ [("source", JVal.jstr u), ("target", JVal.jstr v)])
      "relationship" = a.relationship := by
    unfold fieldStr
    rw [hassoc, jlookup_optStrField_self _ _ _ (by
      rw [jlookup_optStrField_ne _ _ (by decide), jlookup_optNumField_ne _ _ (by decide),
        jlookup_cons_ne _ _ _ _ (by decide), jlookup_cons_ne _ _ _ _ (by decide)]
      rfl)]
    cases a.relationship <;> rfl
  have hvia : fieldStr
      (edgeAttrsFields a ++ [("source", JVal.jstr u), ("target", JVal.jstr v)])
      "via_column" = a.via_column := by
    unfold fieldStr
    rw [hassoc, jlookup_optStrField_ne _ _ (by decide),
      jlookup_optStrField_self _ _ _ (by
        rw [jlookup_optNumField_ne _ _ (by decide), jlookup_cons_ne _ _ _ _ (by decide),
          jlookup_cons_ne _ _ _ _ (by decide)]
        rfl)]
    cases a.via_column <;> rfl
  have hsim : fieldNum
      (edgeAttrsFields a ++ [("source", JVal.jstr u), ("target", JVal.jstr v)])
      "similarity" = a.similarity := by
    unfold fieldNum
    rw [hassoc, jlookup_optStrField_ne _ _ (by decide),
      jlookup_optStrField_ne _ _ (by decide),
      jlookup_optNumField_self _ _ _ (by
        rw [jlookup_cons_ne _ _ _ _ (by decide), jlookup_cons_ne _ _ _ _ (by decide)]
        rfl)]
    cases a.similarity <;> rfl
  have hof : edgeAttrsOfFields
      (edgeAttrsFields a ++ [("source", JVal.jstr u), ("target", JVal.jstr v)]) = a := by
    unfold edgeAttrsOfFields
    rw [hrel, hvia, hsim]
  show (match
      jlookup "source" (edgeAttrsFields a ++ [("source", JVal.jstr u), ("target", JVal.jstr v)]),
      jlookup "target" (edgeAttrsFields a ++ [("source", JVal.jstr u), ("target", JVal.jstr v)]) with
    | some (JVal.jstr u'), some (JVal.jstr v') =>
        some (u', v', edgeAttrsOfFields
          (edgeAttrsFields a ++ [("source", JVal.jstr u), ("target", JVal.jstr v)]))
    | _, _ => none) = some (u, v, a)
  rw [hsrc, htgt, hof]

theorem decodeEntries_nodes (nodes : List (String × NodeAttrs)) :
    decodeEntries decodeNodeEntry
      (nodes.map (fun p => JVal.jobj (nodeAttrsFields p.2 ++ [("id", .jstr p.1)])))
      = some nodes := by
  induction nodes with
  | nil => rfl
  | cons p ps ih =>
    rw [List.map_cons, decodeEntries, decodeNodeEntry_encode p.1 p.2]
    rw [ih]

theorem decodeEntries_links (edges : List (String × String × EdgeAttrs)) :
    decodeEntries decodeLinkEntry
      (edges.map (fun e => JVal.jobj (edgeAttrsFields e.2.2
        ++ [("source", .jstr e.1), ("target", .jstr e.2.1)])))
      = some edges := by
  induction edges with
  | nil => rfl
  | cons e es ih =>
    rw [List.map_cons, decodeEntries, decodeLinkEntry_encode e.1 e.2.1 e.2.2]
    rw [ih]

theorem node_link_roundtrip (g : Graph) :
    node_link_graph (node_link_data g) = some g := by
  show (match decodeEntries decodeNodeEntry
        (g.nodes.map (fun p => JVal.jobj (nodeAttrsFields p.2 ++ [("id", .jstr p.1)]))) with
    | none => none
    | some nodes =>
      match decodeEntries decodeLinkEntry
          (g.edges.map (fun e => JVal.jobj (edgeAttrsFields e.2.2
            ++ [("source", .jstr e.1), ("target", .jstr e.2.1)]))) with
      | none => none
      | some edges => some { nodes := nodes, edges := edges }) = some g
  rw [decodeEntries_nodes g.nodes]
  show (match decodeEntries decodeLinkEntry
      (g.edges.map (fun e => JVal.jobj (edgeAttrsFields e.2.2
        ++ [("source", .jstr e.1), ("target", .jstr e.2.1)]))) with
    | none => none
    | some edges => some { nodes := g.nodes, edges := edges }) = some g
  rw [decodeEntries_links g.edges]

/-! ### Claim C7 -/

/-- C7: `save_graph` followed by `load_graph` of the saved document into
any façade state reproduces both graphs exactly: the load succeeds and
the resulting state carries the identical schema-graph and query-graph
node and edge lists with all their attributes. -/
theorem claim_C7 (st fresh : RAGState) :
    load_graph fresh (.content (save_graph st)) = (.ok (), st) := by
  show (match node_link_graph (node_link_data st.schemaGraph) with
    | none => ((Except.error LoadErr.badNodeLink : Except LoadErr Unit), fresh)
    | some sg =>
      match node_link_graph (node_link_data st.queryGraph) with
      | none => (Except.error LoadErr.badNodeLink,
          { fresh with schemaGraph := sg })
      | some qg => (Except.ok (),
          ({ schemaGraph := sg, queryGraph := qg } : RAGState))) = (.ok (), st)
  rw [node_link_roundtrip st.schemaGraph]
  show (match node_link_graph (node_link_data st.queryGraph) with
    | none => ((Except.error LoadErr.badNodeLink : Except LoadErr Unit),
        { fresh with schemaGraph := st.schemaGraph })
    | some qg => (Except.ok (),
        ({ schemaGraph := st.schemaGraph, queryGraph := qg } : RAGState)))
      = (.ok (), st)
  rw [node_link_roundtrip st.queryGraph]

/-! ### Claim C6 -/

theorem load_graph_content (st : RAGState) (j : JVal) :
    load_graph st (.content j) =
      match jget j "schema" with
      | none => (.error (.keyError "schema"), st)
      | some js =>
        match node_link_graph js with
        | none => (.error .badNodeLink, st)
        | some sg =>
          match jget j "queries" with
          | none => (.error (.keyError "queries"), { st with schemaGraph := sg })
          | some jq =>
            match node_link_graph jq with
            | none => (.error .badNodeLink, { st with schemaGraph := sg })
            | some qg => (.ok (), { st with schemaGraph := sg, queryGraph := qg }) :=
  rfl

/-- C6 as stated is false: a snapshot with a valid `schema` section but a
missing `queries` section makes `load_graph` raise *after* it has already
replaced the schema graph, so the prior in-memory state is not preserved. -/
theorem claim_C6_counterexample :
    (load_graph c6State c6File).2.schemaGraph ≠ c6State.schemaGraph
      ∧ (load_graph c6State c6File).1 = .error (.keyError "queries") := by
  constructor
  · have h : (load_graph c6State c6File).2.schemaGraph = emptyGraph := rfl
    intro hgeq0
    have hlen : emptyGraph.nodes.length = c6State.schemaGraph.nodes.length :=
      congrArg (fun gr => gr.nodes.length) (h.symm.trans hgeq0)
    exact absurd hlen (by decide)
  · rfl

/-- C6, amended: every failing `load_graph` surfaces a distinguishable
error; the in-memory graphs are left untouched in every failure case
*except* those reached after a decodable `schema` section: when the
`queries` key is then missing, or present but undecodable, the schema
graph has already been replaced (and the query graph alone is untouched)
when the error surfaces. -/
theorem claim_C6_amended :
    (∀ st, load_graph st .absent = (.error .fileNotFound, st))
    ∧ (∀ st, load_graph st .malformedJson = (.error .jsonDecodeError, st))
    ∧ (∀ st j, jget j "schema" = none →
        load_graph st (.content j) = (.error (.keyError "schema"), st))
    ∧ (∀ st j js, jget j "schema" = some js → node_link_graph js = none →
        load_graph st (.content j) = (.error .badNodeLink, st))
    ∧ (∀ st j js sg, jget j "schema" = some js → node_link_graph js = some sg →
        jget j "queries" = none →
        load_graph st (.content j) =
          (.error (.keyError "queries"), { st with schemaGraph := sg }))
    ∧ (∀ st j js sg jq, jget j "schema" = some js → node_link_graph js = some sg →
        jget j "queries" = some jq → node_link_graph jq = none →
        load_graph st (.content j) =
          (.error .badNodeLink, { st with schemaGraph := sg })) := by
  refine ⟨fun st => rfl, fun st => rfl, ?_, ?_, ?_, ?_⟩
  · intro st j h
    rw [load_graph_content, h]
  · intro st j js h1 h2
    rw [load_graph_content, h1]
    show (match node_link_graph js with
      | none => ((Except.error LoadErr.badNodeLink : Except LoadErr Unit), st)
      | some sg =>
        match jget j "queries" with
        | none => (Except.error (LoadErr.keyError "queries"),
            { st with schemaGraph := sg })
        | some jq =>
          match node_link_graph jq with
          | none => (Except.error LoadErr.badNodeLink, { st with schemaGraph := sg })
          | some qg => (Except.ok (),
              { st with schemaGraph := sg, queryGraph := qg }))
        = (Except.error LoadErr.badNodeLink, st)
    rw [h2]
  · intro st j js sg h1 h2 h3
    rw [load_graph_content, h1]
    show (match node_link_graph js with
      | none => ((Except.error LoadErr.badNodeLink : Except LoadErr Unit), st)
      | some sg' =>
        match jget j "queries" with
        | none => (Except.error (LoadErr.keyError "queries"),
            { st with schemaGraph := sg' })
        | some jq =>
          match node_link_graph jq with
          | none => (Except.error LoadErr.badNodeLink, { st with schemaGraph := sg' })
          | some qg => (Except.ok (),
              { st with schemaGraph := sg', queryGraph := qg }))
        = (Except.error (LoadErr.keyError "queries"), { st with schemaGraph := sg })
    rw [h2]
    show (match jget j "queries" with
      | none => ((Except.error (LoadErr.keyError "queries") : Except LoadErr Unit),
          { st with schemaGraph := sg })
      | some jq =>
        match node_link_graph jq with
        | none => (Except.error LoadErr.badNodeLink, { st with schemaGraph := sg })
        | some qg => (Except.ok (), { st with schemaGraph := sg, queryGraph := qg }))
        = (Except.error (LoadErr.keyError "queries"), { st with schemaGraph := sg })
    rw [h3]
  · intro st j js sg jq h1 h2 h3 h4
    rw [load_graph_content, h1]
    show (match node_link_graph js with
      | none => ((Except.error LoadErr.badNodeLink : Except LoadErr Unit), st)
      | some sg' =>
        match jget j "queries" with
        | none => (Except.error (LoadErr.keyError "queries"),
            { st with schemaGraph := sg' })
        | some jq' =>
          match node_link_graph jq' with
          | none => (Except.error LoadErr.badNodeLink, { st with schemaGraph := sg' })
          | some qg => (Except.ok (),
              { st with schemaGraph := sg', queryGraph := qg }))
        = (Except.error LoadErr.badNodeLink, { st with schemaGraph := sg })
    rw [h2]
    show (match jget j "queries" with
      | none => ((Except.error (LoadErr.keyError "queries") : Except LoadErr Unit),
          { st with schemaGraph := sg })
      | some jq' =>
        match node_link_graph jq' with
        | none => (Except.error LoadErr.badNodeLink, { st with schemaGraph := sg })
        | some qg => (Except.ok (), { st with schemaGraph := sg, queryGraph := qg }))
        = (Except.error LoadErr.badNodeLink, { st with schemaGraph := sg })
    rw [h3]
    show (match node_link_graph jq with
      | none => ((Except.error LoadErr.badNodeLink : Except LoadErr Unit),
          { st with schemaGraph := sg })
      | some qg => (Except.ok (), { st with schemaGraph := sg, queryGraph := qg }))
        = (Except.error LoadErr.badNodeLink, { st with schemaGraph := sg })
    rw [h4]

/-- Witness for the amended C6: the missing-`queries` clause and the
undecodable-`queries` clause, each applied to a concrete fixture with
every hypothesis discharged by evaluation. -/
theorem claim_C6_amended_witness :
    load_graph c6State c6File =
      (.error (.keyError "queries"), { c6State with schemaGraph := emptyGraph })
    ∧ load_graph c6State (.content (.jobj [("schema", node_link_data emptyGraph),
        ("queries", JVal.jstr "x")])) =
      (.error .badNodeLink, { c6State with schemaGraph := emptyGraph }) :=
  ⟨claim_C6_amended.2.2.2.2.1 c6State (.jobj [("schema", node_link_data emptyGraph)])
     (node_link_data emptyGraph) emptyGraph rfl (node_link_roundtrip emptyGraph) rfl,
   claim_C6_amended.2.2.2.2.2 c6State
     (.jobj [("schema", node_link_data emptyGraph), ("queries", JVal.jstr "x")])
     (node_link_data emptyGraph) emptyGraph (JVal.jstr "x") rfl
     (node_link_roundtrip emptyGraph) rfl rfl⟩

/-! ### Claim C9 -/

theorem contains_iff_mem {α : Type} [BEq α] [LawfulBEq α] {l : List α} {a : α} :
    l.contains a = true ↔ a ∈ l := List.elem_iff

/-- A graph has clean table keys when each `table:`-prefixed node key is
the prefix followed by a name that does not itself contain `table:` (true
of every graph the builder constructs from reasonable table names). -/
def CleanTableKeys (g : Graph) : Prop :=
  ∀ k ∈ g.nodeKeys, strStartsWith k "table:" = true →
    ∃ name, k = "table:" ++ name ∧ strContainsSub name "table:" = false

theorem tableNames_contains_hasNode {g : Graph} {c : String}
    (hclean : CleanTableKeys g)
    (h : (tableNamesOf g).contains c = true) :
    g.hasNode ("table:" ++ c) = true := by
  rw [contains_iff_mem] at h
  unfold tableNamesOf at h
  rw [List.mem_map] at h
  obtain ⟨k, hk, hkc⟩ := h
  rw [List.mem_filter] at hk
  obtain ⟨hkmem, hkpre⟩ := hk
  obtain ⟨name, hkeq, hnc⟩ := hclean k hkmem hkpre
  rw [hkeq] at hkc
  rw [strReplace_strip "table:" name (by decide) hnc] at hkc
  rw [hasNode_iff, ← hkc, ← hkeq]
  exact hkmem

theorem detectStep_nodes {g : Graph} {table : String} (col : String × String)
    (hT : g.hasNode ("table:" ++ table) = true) (hclean : CleanTableKeys g) :
    (detectStep g table col).nodes = g.nodes := by
  unfold detectStep
  by_cases hpat : (strEndsWith col.1 "_id" || strContainsSub col.1 "Id") = true
  · rw [if_pos hpat]
    by_cases hcont : (tableNamesOf g).contains (fkCandidate col.1) = true
    · rw [if_pos hcont]
      exact nodes_addEdge_of_present _ hT (tableNames_contains_hasNode hclean hcont)
    · rw [if_neg hcont]
  · rw [if_neg hpat]

theorem detectStep_edges_sub {g : Graph} {table : String} {col : String × String} :
    ∀ e ∈ (detectStep g table col).edges, e ∈ g.edges ∨
      ((strEndsWith col.1 "_id" || strContainsSub col.1 "Id") = true
        ∧ (tableNamesOf g).contains (fkCandidate col.1) = true
        ∧ e = ("table:" ++ table, "table:" ++ fkCandidate col.1,
            { relationship := some "references", via_column := some col.1 })) := by
  intro e he
  unfold detectStep at he
  by_cases hpat : (strEndsWith col.1 "_id" || strContainsSub col.1 "Id") = true
  · rw [if_pos hpat] at he
    by_cases hcont : (tableNamesOf g).contains (fkCandidate col.1) = true
    · rw [if_pos hcont] at he
      rw [edges_addEdge] at he
      by_cases hhe : g.hasEdge ("table:" ++ table) ("table:" ++ fkCandidate col.1) = true
      · rw [if_pos hhe] at he
        rw [List.mem_map] at he
        obtain ⟨e₀, he₀, hfe⟩ := he
        by_cases hm : (e₀.1 == "table:" ++ table
            && e₀.2.1 == "table:" ++ fkCandidate col.1) = true
        · rw [if_pos hm] at hfe
          exact Or.inr ⟨hpat, hcont, hfe.symm⟩
        · rw [if_neg hm] at hfe
          exact Or.inl (hfe ▸ he₀)
      · rw [if_neg hhe] at he
        rcases List.mem_append.mp he with h1 | h1
        · exact Or.inl h1
        · exact Or.inr ⟨hpat, hcont, List.mem_singleton.mp h1⟩
    · rw [if_neg hcont] at he
      exact Or.inl he
  · rw [if_neg hpat] at he
    exact Or.inl he

theorem detectStep_edgeAttr_hit {g : Graph} {table : String} {col : String × String}
    (hpat : (strEndsWith col.1 "_id" || strContainsSub col.1 "Id") = true)
    (hcont : (tableNamesOf g).contains (fkCandidate col.1) = true) :
    (detectStep g table col).edgeAttr ("table:" ++ table)
        ("table:" ++ fkCandidate col.1)
      = some { relationship := some "references", via_column := some col.1 } := by
  unfold detectStep
  rw [if_pos hpat, if_pos hcont]
  exact edgeAttr_addEdge_self _ _ _ _

theorem detectStep_preserve {g : Graph} {table : String} (col : String × String)
    {u v : String} {F : List String} (hcol : col.1 ∈ F)
    (h : ∃ via, g.edgeAttr u v
        = some { relationship := some "references", via_column := some via }
        ∧ via ∈ F) :
    ∃ via, (detectStep g table col).edgeAttr u v
        = some { relationship := some "references", via_column := some via }
        ∧ via ∈ F := by
  unfold detectStep
  by_cases hpat : (strEndsWith col.1 "_id" || strContainsSub col.1 "Id") = true
  · rw [if_pos hpat]
    by_cases hcont : (tableNamesOf g).contains (fkCandidate col.1) = true
    · rw [if_pos hcont]
      by_cases hkey : u = "table:" ++ table ∧ v = "table:" ++ fkCandidate col.1
      · obtain ⟨hu, hv⟩ := hkey
        subst hu
        subst hv
        exact ⟨col.1, edgeAttr_addEdge_self _ _ _ _, hcol⟩
      · rw [edgeAttr_addEdge_ne _ _ hkey]
        exact h
    · rw [if_neg hcont]
      exact h
  · rw [if_neg hpat]
    exact h

theorem detect_hasNode_table {g : Graph} {table : String} (col : String × String)
    (hT : g.hasNode ("table:" ++ table) = true) (hclean : CleanTableKeys g) :
    (detectStep g table col).hasNode ("table:" ++ table) = true := by
  unfold Graph.hasNode
  rw [detectStep_nodes col hT hclean]
  exact hT

theorem detect_clean_step {g : Graph} {table : String} (col : String × String)
    (hT : g.hasNode ("table:" ++ table) = true) (hclean : CleanTableKeys g) :
    CleanTableKeys (detectStep g table col) := by
  unfold CleanTableKeys Graph.nodeKeys
  rw [detectStep_nodes col hT hclean]
  exact hclean

theorem detect_tableNames_step {g : Graph} {table : String} (col : String × String)
    (hT : g.hasNode ("table:" ++ table) = true) (hclean : CleanTableKeys g) :
    tableNamesOf (detectStep g table col) = tableNamesOf g := by
  unfold tableNamesOf Graph.nodeKeys
  rw [detectStep_nodes col hT hclean]

theorem detect_sound : ∀ (columns : List (String × String)) (g : Graph) (table : String),
    g.hasNode ("table:" ++ table) = true → CleanTableKeys g →
    ∀ e ∈ (_detect_foreign_keys g table columns).edges,
      e ∈ g.edges ∨ ∃ col ∈ columns,
        (strEndsWith col.1 "_id" || strContainsSub col.1 "Id") = true
        ∧ (tableNamesOf g).contains (fkCandidate col.1) = true
        ∧ e = ("table:" ++ table, "table:" ++ fkCandidate col.1,
            { relationship := some "references", via_column := some col.1 }) := by
  intro columns
  induction columns with
  | nil =>
    intro g table _ _ e he
    exact Or.inl he
  | cons col cols ih =>
    intro g table hT hclean e he
    have hstep : (_detect_foreign_keys g table (col :: cols))
        = _detect_foreign_keys (detectStep g table col) table cols := rfl
    rw [hstep] at he
    have hrec := ih (detectStep g table col) table
      (detect_hasNode_table col hT hclean) (detect_clean_step col hT hclean) e he
    rcases hrec with h1 | ⟨col', hc', hpat', hcont', heq'⟩
    · rcases detectStep_edges_sub e h1 with h2 | ⟨hpat, hcont, heq⟩
      · exact Or.inl h2
      · exact Or.inr ⟨col, by simp, hpat, hcont, heq⟩
    · rw [detect_tableNames_step col hT hclean] at hcont'
      exact Or.inr ⟨col', by simp [hc'], hpat', hcont', heq'⟩

theorem detect_preserve : ∀ (columns : List (String × String)) (g : Graph)
    (table : String) {u v : String} {F : List String},
    (∀ c ∈ columns, c.1 ∈ F) →
    (∃ via, g.edgeAttr u v
        = some { relationship := some "references", via_column := some via }
        ∧ via ∈ F) →
    ∃ via, (_detect_foreign_keys g table columns).edgeAttr u v
        = some { relationship := some "references", via_column := some via }
        ∧ via ∈ F := by
  intro columns
  induction columns with
  | nil =>
    intro g table u v F _ h
    exact h
  | cons col cols ih =>
    intro g table u v F hsub h
    exact ih (detectStep g table col) table (fun c hc => hsub c (by simp [hc]))
      (detectStep_preserve col (hsub col (by simp)) h)

theorem detect_complete : ∀ (columns : List (String × String)) (g : Graph)
    (table : String),
    g.hasNode ("table:" ++ table) = true → CleanTableKeys g →
    ∀ col ∈ columns,
      (strEndsWith col.1 "_id" || strContainsSub col.1 "Id") = true →
      (tableNamesOf g).contains (fkCandidate col.1) = true →
      ∃ via, (_detect_foreign_keys g table columns).edgeAttr
          ("table:" ++ table) ("table:" ++ fkCandidate col.1)
        = some { relationship := some "references", via_column := some via }
        ∧ via ∈ columns.map (·.1) := by
  intro columns
  induction columns with
  | nil =>
    intro g table _ _ col hc
    cases hc
  | cons col₀ cols ih =>
    intro g table hT hclean col hc hpat hcont
    have hstep : (_detect_foreign_keys g table (col₀ :: cols))
        = _detect_foreign_keys (detectStep g table col₀) table cols := rfl
    rw [hstep]
    rcases List.mem_cons.mp hc with heq | hc'
    · subst heq
      have hhit : (detectStep g table col).edgeAttr ("table:" ++ table)
          ("table:" ++ fkCandidate col.1)
          = some { relationship := some "references", via_column := some col.1 } :=
        detectStep_edgeAttr_hit hpat hcont
      have hpres : ∃ via, (_detect_foreign_keys (detectStep g table col) table
            cols).edgeAttr ("table:" ++ table) ("table:" ++ fkCandidate col.1)
          = some { relationship := some "references", via_column := some via }
          ∧ via ∈ (col :: cols).map (·.1) :=
        detect_preserve cols (detectStep g table col) table
          (fun c hcm => by
            rw [List.map_cons]
            exact List.mem_cons_of_mem _ (List.mem_map.mpr ⟨c, hcm, rfl⟩))
          ⟨col.1, hhit, by rw [List.map_cons]; exact List.mem_cons_self _ _⟩
      exact hpres
    · have hrec := ih (detectStep g table col₀) table
        (detect_hasNode_table col₀ hT hclean) (detect_clean_step col₀ hT hclean)
        col hc' hpat (by rw [detect_tableNames_step col₀ hT hclean]; exact hcont)
      obtain ⟨via, hattr, hmem⟩ := hrec
      exact ⟨via, hattr, by simp [List.mem_map] at hmem ⊢; tauto⟩

/-- C9 as stated is false on the code: the candidate name is lower-cased
but compared for *exact* equality against the stored table names, so a
table whose name contains an upper-case letter is never matched even when
the comparison would succeed case-insensitively.  In `dbMixedCase`, the
column `users_id` of `orders` matches the `_id` pattern and its stripped,
lower-cased candidate equals `lower("Users")`, yet the built schema graph
contains no `references` edge at all. -/
theorem claim_C9_counterexample :
    strEndsWith "users_id" "_id" = true
    ∧ ("users_id", "INTEGER") ∈ _parse_schema (dbMixedCase.tableInfo "orders")
    ∧ strLower (strReplace (strReplace "users_id" "_id" "") "Id" "")
        = strLower "Users"
    ∧ "Users" ∈ dbMixedCase.tables
    ∧ (_build_schema_graph dbMixedCase).edges.filter
        (fun e => e.2.2.relationship == some "references") = [] := by
  refine ⟨rfl, by decide, rfl, by decide, rfl⟩

/-- C9, amended: during `_detect_foreign_keys`, for every column whose
name ends in `_id` or contains `Id`, stripping those markers and
lower-casing yields a candidate that is compared for *exact string
equality* against the names derived from the `table:` nodes present in
the graph at that point (during construction: the tables processed so
far); exactly on such hits a `references` edge from the owning table to
the matched name is added, carrying as `via_column` the name of a
matching column (the last such column wins when several columns target
the same table); and no other edges are created. -/
theorem claim_C9_amended (columns : List (String × String)) (g : Graph)
    (table : String) (hT : g.hasNode ("table:" ++ table) = true)
    (hclean : CleanTableKeys g) :
    (∀ e ∈ (_detect_foreign_keys g table columns).edges,
      e ∈ g.edges ∨ ∃ col ∈ columns,
        (strEndsWith col.1 "_id" || strContainsSub col.1 "Id") = true
        ∧ (tableNamesOf g).contains (fkCandidate col.1) = true
        ∧ e = ("table:" ++ table, "table:" ++ fkCandidate col.1,
            { relationship := some "references", via_column := some col.1 }))
    ∧ (∀ col ∈ columns,
        (strEndsWith col.1 "_id" || strContainsSub col.1 "Id") = true →
        (tableNamesOf g).contains (fkCandidate col.1) = true →
        ∃ via, (_detect_foreign_keys g table columns).edgeAttr
            ("table:" ++ table) ("table:" ++ fkCandidate col.1)
          = some { relationship := some "references", via_column := some via }
          ∧ via ∈ columns.map (·.1)) :=
  ⟨detect_sound columns g table hT hclean, detect_complete columns g table hT hclean⟩

/-- Witness for the amended C9: a two-table graph where the column
`users_id` of `orders` hits the (lower-case) table `users`. -/
theorem claim_C9_amended_witness :
    (∀ e ∈ (_detect_foreign_keys
        ((emptyGraph.addNode "table:orders" { type := some "table", name := some "orders" }).addNode
          "table:users" { type := some "table", name := some "users" })
        "orders" [("users_id", "INTEGER")]).edges,
      e ∈ ((emptyGraph.addNode "table:orders" { type := some "table", name := some "orders" }).addNode
          "table:users" { type := some "table", name := some "users" }).edges
      ∨ ∃ col ∈ [("users_id", "INTEGER")],
        (strEndsWith col.1 "_id" || strContainsSub col.1 "Id") = true
        ∧ (tableNamesOf ((emptyGraph.addNode "table:orders"
            { type := some "table", name := some "orders" }).addNode
            "table:users" { type := some "table", name := some "users" })).contains
            (fkCandidate col.1) = true
        ∧ e = ("table:" ++ "orders", "table:" ++ fkCandidate col.1,
            { relationship := some "references", via_column := some col.1 }))
    ∧ (∀ col ∈ [("users_id", "INTEGER")],
        (strEndsWith col.1 "_id" || strContainsSub col.1 "Id") = true →
        (tableNamesOf ((emptyGraph.addNode "table:orders"
            { type := some "table", name := some "orders" }).addNode
            "table:users" { type := some "table", name := some "users" })).contains
            (fkCandidate col.1) = true →
        ∃ via, (_detect_foreign_keys
            ((emptyGraph.addNode "table:orders" { type := some "table", name := some "orders" }).addNode
              "table:users" { type := some "table", name := some "users" })
            "orders" [("users_id", "INTEGER")]).edgeAttr
            ("table:" ++ "orders") ("table:" ++ fkCandidate col.1)
          = some { relationship := some "references", via_column := some via }
          ∧ via ∈ [("users_id", "INTEGER")].map (·.1)) :=
  claim_C9_amended [("users_id", "INTEGER")]
    ((emptyGraph.addNode "table:orders" { type := some "table", name := some "orders" }).addNode
      "table:users" { type := some "table", name := some "users" })
    "orders" (by decide)
    (by
      intro k hk hpre
      rw [show ((emptyGraph.addNode "table:orders"
          { type := some "table", name := some "orders" }).addNode
          "table:users" { type := some "table", name := some "users" }).nodeKeys
        = ["table:orders", "table:users"] from rfl] at hk
      rcases List.mem_cons.mp hk with heq | hk'
      · exact ⟨"orders", heq, by decide⟩
      · rcases List.mem_cons.mp hk' with heq' | hk''
        · exact ⟨"users", heq', by decide⟩
        · cases hk'')

/-! ### More helper lemmas about the graph operations, towards the
query-graph claims -/

theorem any_congr_mem {α : Type} {p q : α → Bool} {l : List α}
    (h : ∀ e ∈ l, p e = q e) : l.any p = l.any q := by
  induction l with
  | nil => rfl
  | cons e es ih =>
    simp only [List.any_cons, h e (by simp)]
    rw [ih (fun x hx => h x (by simp [hx]))]

theorem hasNode_of_nodeAttr_some {g : Graph} {k : String} {a : NodeAttrs}
    (h : g.nodeAttr k = some a) : g.hasNode k = true := by
  unfold Graph.nodeAttr at h
  cases hf : g.nodes.find? (fun p => p.1 == k) with
  | none => rw [hf] at h; cases h
  | some p =>
    have hmem := List.mem_of_find?_eq_some hf
    have hp : (p.1 == k) = true := by simpa using List.find?_some hf
    exact List.any_eq_true.mpr ⟨p, hmem, hp⟩

theorem nodeAttr_entry {g : Graph} {k : String} {a : NodeAttrs}
    (h : g.nodeAttr k = some a) : ∃ p ∈ g.nodes, p.1 = k ∧ p.2 = a := by
  unfold Graph.nodeAttr at h
  cases hf : g.nodes.find? (fun p => p.1 == k) with
  | none => rw [hf] at h; cases h
  | some p =>
    have hmem := List.mem_of_find?_eq_some hf
    have hp : (p.1 == k) = true := by simpa using List.find?_some hf
    rw [hf] at h
    exact ⟨p, hmem, beq_iff_eq.mp hp, by simpa using h⟩

theorem nodeAttr_isSome_of_hasNode {g : Graph} {k : String}
    (h : g.hasNode k = true) : ∃ a, g.nodeAttr k = some a := by
  unfold Graph.nodeAttr
  cases hf : g.nodes.find? (fun p => p.1 == k) with
  | none =>
    obtain ⟨p, hp, hk⟩ := List.any_eq_true.mp h
    have := List.find?_eq_none.mp hf p hp
    exact absurd hk this
  | some p => exact ⟨p.2, rfl⟩

theorem edge_of_edgeAttr_some {g : Graph} {u v : String} {a : EdgeAttrs}
    (h : g.edgeAttr u v = some a) : ∃ e ∈ g.edges, e.1 = u ∧ e.2.1 = v ∧ e.2.2 = a := by
  unfold Graph.edgeAttr at h
  cases hf : g.edges.find? (fun e => e.1 == u && e.2.1 == v) with
  | none => rw [hf] at h; cases h
  | some e =>
    have hmem := List.mem_of_find?_eq_some hf
    have hp : (e.1 == u && e.2.1 == v) = true := by simpa using List.find?_some hf
    have h1 : e.1 = u := beq_iff_eq.mp ((Bool.and_eq_true _ _).mp hp).1
    have h2 : e.2.1 = v := beq_iff_eq.mp ((Bool.and_eq_true _ _).mp hp).2
    rw [hf] at h
    exact ⟨e, hmem, h1, h2, by simpa using h⟩

theorem mem_nodeKeys_addNode {g : Graph} {k : String} (a : NodeAttrs) (x : String) :
    x ∈ (g.addNode k a).nodeKeys ↔ x ∈ g.nodeKeys ∨ x = k := by
  rw [nodeKeys_addNode]
  by_cases h : g.hasNode k = true
  · rw [if_pos h]
    constructor
    · exact Or.inl
    · rintro (hx | hx)
      · exact hx
      · exact hx ▸ hasNode_iff.mp h
  · rw [if_neg h]
    simp

theorem mem_nodes_addNode {g : Graph} {k : String} {a : NodeAttrs} {p : String × NodeAttrs}
    (h : p ∈ (g.addNode k a).nodes) : p ∈ g.nodes ∨ p = (k, a) := by
  unfold Graph.addNode at h
  by_cases hh : g.hasNode k = true
  · rw [if_pos hh] at h
    obtain ⟨q, hq, hfq⟩ := List.mem_map.mp h
    by_cases hqk : (q.1 == k) = true
    · right; rw [← hfq]; simp [hqk]
    · left; rw [← hfq]; simpa [hqk] using hq
  · rw [if_neg hh] at h
    rcases List.mem_append.mp h with h1 | h1
    · exact Or.inl h1
    · exact Or.inr (List.mem_singleton.mp h1)

theorem nodup_addNode {g : Graph} (k : String) (a : NodeAttrs)
    (h : g.nodeKeys.Nodup) : (g.addNode k a).nodeKeys.Nodup := by
  rw [nodeKeys_addNode]
  by_cases hh : g.hasNode k = true
  · rw [if_pos hh]; exact h
  · rw [if_neg hh]
    have hk : k ∉ g.nodeKeys := fun hmem => hh (hasNode_iff.mpr hmem)
    rw [List.nodup_append]
    exact ⟨h, List.nodup_singleton _,
      fun x hx hmem => hk ((List.mem_singleton.mp hmem) ▸ hx)⟩

theorem ne_of_queryKey_mismatch {x y : String}
    (hx : isQueryKey x = true) (hy : isQueryKey y = false) : x ≠ y := by
  intro h
  rw [h, hy] at hx
  cases hx

theorem mem_successors_addEdge {g : Graph} {u w : String} {a : EdgeAttrs}
    {x v : String} (h : v ∈ (g.addEdge u w a).successors x) :
    v ∈ g.successors x ∨ (x = u ∧ v = w) := by
  rw [mem_successors] at h
  obtain ⟨e, he, hx, hv⟩ := h
  rw [edges_addEdge] at he
  by_cases hh : g.hasEdge u w = true
  · rw [if_pos hh] at he
    obtain ⟨e0, he0, hfe⟩ := List.mem_map.mp he
    by_cases hm : (e0.1 == u && e0.2.1 == w) = true
    · rw [if_pos hm] at hfe
      right
      rw [← hfe] at hx hv
      exact ⟨hx.symm, hv.symm⟩
    · rw [if_neg hm] at hfe
      left
      exact mem_successors.mpr ⟨e0, he0, hfe ▸ hx, hfe ▸ hv⟩
  · rw [if_neg hh] at he
    rcases List.mem_append.mp he with h1 | h1
    · exact Or.inl (mem_successors.mpr ⟨e, h1, hx, hv⟩)
    · right
      have he' : e = (u, w, a) := List.mem_singleton.mp h1
      rw [he'] at hx hv
      exact ⟨hx.symm, hv.symm⟩

theorem hasEdge_addNode (g : Graph) (k : String) (a : NodeAttrs) (u v : String) :
    (g.addNode k a).hasEdge u v = g.hasEdge u v := by
  unfold Graph.hasEdge
  rw [edges_addNode]

theorem hasEdge_addEdge (g : Graph) (u v : String) (a : EdgeAttrs) (u' v' : String) :
    (g.addEdge u v a).hasEdge u' v' = (g.hasEdge u' v' || (u == u' && v == v')) := by
  unfold Graph.hasEdge
  rw [edges_addEdge]
  by_cases hh : g.hasEdge u v = true
  · rw [if_pos hh]
    rw [List.any_map]
    have hcong : g.edges.any
        ((fun e => e.1 == u' && e.2.1 == v') ∘
          (fun e => if e.1 == u && e.2.1 == v then (u, v, a) else e))
        = g.edges.any (fun e => e.1 == u' && e.2.1 == v') := by
      apply any_congr_mem
      intro e _
      by_cases hm : (e.1 == u && e.2.1 == v) = true
      · have h1 : e.1 = u := beq_iff_eq.mp ((Bool.and_eq_true _ _).mp hm).1
        have h2 : e.2.1 = v := beq_iff_eq.mp ((Bool.and_eq_true _ _).mp hm).2
        simp only [Function.comp_apply, hm, if_true]
        rw [h1, h2]
      · simp only [Function.comp_apply, hm, Bool.false_eq_true, if_false]
    rw [hcong]
    cases hX : (u == u' && v == v')
    · simp
    · have h1 : u = u' := beq_iff_eq.mp ((Bool.and_eq_true _ _).mp hX).1
      have h2 : v = v' := beq_iff_eq.mp ((Bool.and_eq_true _ _).mp hX).2
      unfold Graph.hasEdge at hh
      rw [← h1, ← h2, hh]
      simp
  · rw [if_neg hh]
    rw [List.any_append]
    simp [List.any_cons]

theorem queryKeys_addNode_nonquery {g : Graph} {k : String} (a : NodeAttrs)
    (hk : isQueryKey k = false) : (g.addNode k a).queryKeys = g.queryKeys := by
  unfold Graph.queryKeys
  rw [nodeKeys_addNode]
  by_cases h : g.hasNode k = true
  · rw [if_pos h]
  · rw [if_neg h, List.filter_append]
    simp [List.filter, hk]

theorem queryKeys_addNode_query {g : Graph} {k : String} (a : NodeAttrs)
    (hk : isQueryKey k = true) :
    (g.addNode k a).queryKeys =
      if g.hasNode k then g.queryKeys else g.queryKeys ++ [k] := by
  unfold Graph.queryKeys
  rw [nodeKeys_addNode]
  by_cases h : g.hasNode k = true
  · rw [if_pos h, if_pos h]
  · rw [if_neg h, if_neg h, List.filter_append]
    simp [List.filter, hk]

theorem queryKeys_addEdge_present {g : Graph} {u v : String} (a : EdgeAttrs)
    (hu : g.hasNode u = true) (hv : g.hasNode v = true) :
    (g.addEdge u v a).queryKeys = g.queryKeys := by
  unfold Graph.queryKeys
  rw [nodeKeys_addEdge_of_present a hu hv]

theorem mem_nodeKeys_addEdge_self (g : Graph) (u v : String) (a : EdgeAttrs) :
    u ∈ (g.addEdge u v a).nodeKeys ∧ v ∈ (g.addEdge u v a).nodeKeys := by
  unfold Graph.addEdge Graph.nodeKeys
  simp only
  have hmem₁ : ∀ (l : List (String × NodeAttrs)) (k : String),
      l.any (fun p => p.1 == k) = true → k ∈ l.map (·.1) := by
    intro l k h
    obtain ⟨p, hp, hpk⟩ := List.any_eq_true.mp h
    exact List.mem_map.mpr ⟨p, hp, beq_iff_eq.mp hpk⟩
  by_cases h1 : g.nodes.any (fun p => p.1 == u) = true
  · rw [if_pos h1]
    by_cases h2 : g.nodes.any (fun p => p.1 == v) = true
    · rw [if_pos h2]
      exact ⟨hmem₁ _ _ h1, hmem₁ _ _ h2⟩
    · rw [if_neg h2]
      constructor
      · rw [List.map_append]
        exact List.mem_append_left _ (hmem₁ _ _ h1)
      · simp
  · rw [if_neg h1]
    by_cases h2 : (g.nodes ++ [(u, ({} : NodeAttrs))]).any (fun p => p.1 == v) = true
    · rw [if_pos h2]
      constructor
      · simp
      · exact hmem₁ _ _ h2
    · rw [if_neg h2]
      constructor
      · rw [List.map_append, List.map_append]
        exact List.mem_append_left _ (List.mem_append_right _ (by simp))
      · simp

theorem edgesClosed_addNode {g : Graph} (k : String) (a : NodeAttrs)
    (h : ∀ e ∈ g.edges, e.1 ∈ g.nodeKeys ∧ e.2.1 ∈ g.nodeKeys) :
    ∀ e ∈ (g.addNode k a).edges,
      e.1 ∈ (g.addNode k a).nodeKeys ∧ e.2.1 ∈ (g.addNode k a).nodeKeys := by
  intro e he
  rw [edges_addNode] at he
  obtain ⟨h1, h2⟩ := h e he
  exact ⟨(mem_nodeKeys_addNode a _).mpr (Or.inl h1),
    (mem_nodeKeys_addNode a _).mpr (Or.inl h2)⟩

theorem nodeKeys_addEdge_mono {g : Graph} {x : String} (u v : String) (a : EdgeAttrs)
    (h : x ∈ g.nodeKeys) : x ∈ (g.addEdge u v a).nodeKeys := by
  obtain ⟨l, hl⟩ := nodeKeys_addEdge_sup g u v a
  rw [hl]
  exact List.mem_append_left _ h

theorem edgesClosed_addEdge {g : Graph} (u v : String) (a : EdgeAttrs)
    (h : ∀ e ∈ g.edges, e.1 ∈ g.nodeKeys ∧ e.2.1 ∈ g.nodeKeys) :
    ∀ e ∈ (g.addEdge u v a).edges,
      e.1 ∈ (g.addEdge u v a).nodeKeys ∧ e.2.1 ∈ (g.addEdge u v a).nodeKeys := by
  intro e he
  have hself := mem_nodeKeys_addEdge_self g u v a
  rw [edges_addEdge] at he
  by_cases hh : g.hasEdge u v = true
  · rw [if_pos hh] at he
    obtain ⟨e0, he0, hfe⟩ := List.mem_map.mp he
    by_cases hm : (e0.1 == u && e0.2.1 == v) = true
    · rw [if_pos hm] at hfe
      rw [← hfe]
      exact hself
    · rw [if_neg hm] at hfe
      obtain ⟨h1, h2⟩ := h e0 he0
      rw [← hfe]
      exact ⟨nodeKeys_addEdge_mono u v a h1, nodeKeys_addEdge_mono u v a h2⟩
  · rw [if_neg hh] at he
    rcases List.mem_append.mp he with h1 | h1
    · obtain ⟨ha, hb⟩ := h e h1
      exact ⟨nodeKeys_addEdge_mono u v a ha, nodeKeys_addEdge_mono u v a hb⟩
    · rw [List.mem_singleton.mp h1]
      exact hself

/-! ### The connect loop of `add_query` -/

theorem hasNode_congr_nodes {g1 g2 : Graph} (h : g1.nodes = g2.nodes) (k : String) :
    g1.hasNode k = g2.hasNode k := by
  unfold Graph.hasNode
  rw [h]

theorem nodeAttr_congr_nodes {g1 g2 : Graph} (h : g1.nodes = g2.nodes) (k : String) :
    g1.nodeAttr k = g2.nodeAttr k := by
  unfold Graph.nodeAttr
  rw [h]

theorem nodeKeys_congr_nodes {g1 g2 : Graph} (h : g1.nodes = g2.nodes) :
    g1.nodeKeys = g2.nodeKeys := by
  unfold Graph.nodeKeys
  rw [h]

theorem queryKeys_congr_nodes {g1 g2 : Graph} (h : g1.nodes = g2.nodes) :
    g1.queryKeys = g2.queryKeys := by
  unfold Graph.queryKeys
  rw [nodeKeys_congr_nodes h]

theorem connectStep_eq (k : String) (es : List String) (g' : Graph) (node : String) :
    connectStep k es g' node =
      if strStartsWith node "query:" && node != k then
        if !((es.filter (fun e =>
            (_extract_entities ((((g'.nodeAttr node).map (·.text)).join).getD "")).contains
              e)).isEmpty) then
          if ((es.filter (fun e =>
              (_extract_entities ((((g'.nodeAttr node).map (·.text)).join).getD "")).contains
                e)).length : ℚ) /
              (max (max es.length
                (_extract_entities ((((g'.nodeAttr node).map (·.text)).join).getD "")).length)
                1 : ℚ) > 3 / 10 then
            g'.addEdge k node
              { relationship := some "similar_to",
                similarity := some (((es.filter (fun e =>
                    (_extract_entities
                      ((((g'.nodeAttr node).map (·.text)).join).getD "")).contains
                      e)).length : ℚ) /
                  (max (max es.length
                    (_extract_entities
                      ((((g'.nodeAttr node).map (·.text)).join).getD "")).length) 1 : ℚ)) }
          else g'
        else g'
      else g' := rfl

theorem extract_entities_nil : _extract_entities "" = [] := by decide

theorem connectStep_node_present {g' : Graph} {es : List String} {node : String}
    (hcom : ((es.filter (fun e =>
        (_extract_entities ((((g'.nodeAttr node).map (·.text)).join).getD "")).contains
          e)).isEmpty) = false) :
    g'.hasNode node = true := by
  cases hna : g'.nodeAttr node with
  | some a => exact hasNode_of_nodeAttr_some hna
  | none =>
    rw [hna] at hcom
    have hstr : ((((none : Option NodeAttrs).map (·.text)).join).getD "") = "" := rfl
    rw [hstr, extract_entities_nil] at hcom
    have hfil : es.filter (fun e => ([] : List String).contains e) = [] := by
      apply List.filter_eq_nil_iff.mpr
      intro e _
      simp [List.contains]
    rw [hfil] at hcom
    cases hcom

theorem connectStep_nodes {g' : Graph} {k : String} {es : List String} (node : String)
    (hk : g'.hasNode k = true) : (connectStep k es g' node).nodes = g'.nodes := by
  rw [connectStep_eq]
  by_cases h1 : (strStartsWith node "query:" && node != k) = true
  · rw [if_pos h1]
    cases hE : (es.filter (fun e =>
        (_extract_entities ((((g'.nodeAttr node).map (·.text)).join).getD "")).contains
          e)).isEmpty
    · rw [if_pos (by rfl)]
      by_cases hS : ((es.filter (fun e =>
          (_extract_entities ((((g'.nodeAttr node).map (·.text)).join).getD "")).contains
            e)).length : ℚ) /
          (max (max es.length
            (_extract_entities ((((g'.nodeAttr node).map (·.text)).join).getD "")).length)
            1 : ℚ) > 3 / 10
      · rw [if_pos hS]
        exact nodes_addEdge_of_present _ hk (connectStep_node_present hE)
      · rw [if_neg hS]
    · rw [if_neg (fun h => nomatch h)]
  · rw [if_neg h1]

theorem connectStep_successors_ne {g' : Graph} {k : String} {es : List String}
    (node : String) {x : String} (hx : x ≠ k) :
    (connectStep k es g' node).successors x = g'.successors x := by
  rw [connectStep_eq]
  by_cases h1 : (strStartsWith node "query:" && node != k) = true
  · rw [if_pos h1]
    cases hE : (es.filter (fun e =>
        (_extract_entities ((((g'.nodeAttr node).map (·.text)).join).getD "")).contains
          e)).isEmpty
    · rw [if_pos (by rfl)]
      by_cases hS : ((es.filter (fun e =>
          (_extract_entities ((((g'.nodeAttr node).map (·.text)).join).getD "")).contains
            e)).length : ℚ) /
          (max (max es.length
            (_extract_entities ((((g'.nodeAttr node).map (·.text)).join).getD "")).length)
            1 : ℚ) > 3 / 10
      · rw [if_pos hS]
        exact successors_addEdge_ne _ _ _ hx
      · rw [if_neg hS]
    · rw [if_neg (fun h => nomatch h)]
  · rw [if_neg h1]

theorem connectStep_edgeAttr_ne {g' : Graph} {k : String} {es : List String}
    (node : String) {u' v' : String} (h : ¬(u' = k ∧ v' = node)) :
    (connectStep k es g' node).edgeAttr u' v' = g'.edgeAttr u' v' := by
  rw [connectStep_eq]
  by_cases h1 : (strStartsWith node "query:" && node != k) = true
  · rw [if_pos h1]
    cases hE : (es.filter (fun e =>
        (_extract_entities ((((g'.nodeAttr node).map (·.text)).join).getD "")).contains
          e)).isEmpty
    · rw [if_pos (by rfl)]
      by_cases hS : ((es.filter (fun e =>
          (_extract_entities ((((g'.nodeAttr node).map (·.text)).join).getD "")).contains
            e)).length : ℚ) /
          (max (max es.length
            (_extract_entities ((((g'.nodeAttr node).map (·.text)).join).getD "")).length)
            1 : ℚ) > 3 / 10
      · rw [if_pos hS]
        exact edgeAttr_addEdge_ne _ _ h
      · rw [if_neg hS]
    · rw [if_neg (fun h => nomatch h)]
  · rw [if_neg h1]

theorem connectStep_mem_successors {g' : Graph} {k : String} {es : List String}
    {node x v : String} (h : v ∈ (connectStep k es g' node).successors x) :
    v ∈ g'.successors x ∨ (x = k ∧ v = node ∧ v ≠ k) := by
  rw [connectStep_eq] at h
  by_cases h1 : (strStartsWith node "query:" && node != k) = true
  · have hnk : node ≠ k := bne_iff_ne.mp ((Bool.and_eq_true _ _).mp h1).2
    rw [if_pos h1] at h
    cases hE : (es.filter (fun e =>
        (_extract_entities ((((g'.nodeAttr node).map (·.text)).join).getD "")).contains
          e)).isEmpty
    · rw [if_pos (by rw [hE]; rfl)] at h
      by_cases hS : ((es.filter (fun e =>
          (_extract_entities ((((g'.nodeAttr node).map (·.text)).join).getD "")).contains
            e)).length : ℚ) /
          (max (max es.length
            (_extract_entities ((((g'.nodeAttr node).map (·.text)).join).getD "")).length)
            1 : ℚ) > 3 / 10
      · rw [if_pos hS] at h
        rcases mem_successors_addEdge h with h2 | h2
        · exact Or.inl h2
        · exact Or.inr ⟨h2.1, h2.2, h2.2 ▸ hnk⟩
      · rw [if_neg hS] at h
        exact Or.inl h
    · rw [if_neg (by rw [hE]; exact fun hx => nomatch hx)] at h
      exact Or.inl h
  · rw [if_neg h1] at h
    exact Or.inl h

theorem connectStep_hit {g' : Graph} {k : String} {es : List String} {node : String}
    {a : NodeAttrs} {t : String}
    (hq : strStartsWith node "query:" = true) (hne : node ≠ k)
    (hattr : g'.nodeAttr node = some a) (htext : a.text = some t)
    (hcom : ((es.filter (fun e => (_extract_entities t).contains e)).isEmpty) = false)
    (hsim : ((es.filter (fun e => (_extract_entities t).contains e)).length : ℚ) /
        (max (max es.length (_extract_entities t).length) 1 : ℚ) > 3 / 10) :
    connectStep k es g' node = g'.addEdge k node
      { relationship := some "similar_to",
        similarity := some (((es.filter (fun e =>
            (_extract_entities t).contains e)).length : ℚ) /
          (max (max es.length (_extract_entities t).length) 1 : ℚ)) } := by
  have hnt : (((g'.nodeAttr node).map (·.text)).join).getD "" = t := by
    rw [hattr]
    show ((some a.text).join).getD "" = t
    rw [htext]
    rfl
  rw [connectStep_eq, hnt]
  rw [if_pos (by rw [hq, Bool.true_and]; exact bne_iff_ne.mpr hne)]
  rw [if_pos (by rw [hcom]; rfl)]
  rw [if_pos hsim]

theorem connect_fold_nodes {k : String} (es : List String) :
    ∀ (l : List String) (g' : Graph), g'.hasNode k = true →
      (l.foldl (connectStep k es) g').nodes = g'.nodes := by
  intro l
  induction l with
  | nil => intro g' _; rfl
  | cons n ns ih =>
    intro g' hk
    have h1 : (connectStep k es g' n).nodes = g'.nodes := connectStep_nodes n hk
    have hk' : (connectStep k es g' n).hasNode k = true := by
      rw [hasNode_congr_nodes h1]; exact hk
    rw [List.foldl_cons, ih _ hk', h1]

theorem connect_fold_successors_ne {k x : String} (es : List String) (hx : x ≠ k) :
    ∀ (l : List String) (g' : Graph),
      (l.foldl (connectStep k es) g').successors x = g'.successors x := by
  intro l
  induction l with
  | nil => intro g'; rfl
  | cons n ns ih =>
    intro g'
    rw [List.foldl_cons, ih _, connectStep_successors_ne n hx]

theorem connect_fold_edgeAttr_ne {k u' v' : String} (es : List String) :
    ∀ (l : List String) (g' : Graph), (∀ n ∈ l, ¬(u' = k ∧ v' = n)) →
      (l.foldl (connectStep k es) g').edgeAttr u' v' = g'.edgeAttr u' v' := by
  intro l
  induction l with
  | nil => intro g' _; rfl
  | cons n ns ih =>
    intro g' hcond
    rw [List.foldl_cons, ih _ (fun m hm => hcond m (by simp [hm])),
      connectStep_edgeAttr_ne n (hcond n (by simp))]

theorem connect_fold_mem_successors {k : String} (es : List String) {x v : String} :
    ∀ (l : List String) (g' : Graph),
      v ∈ (l.foldl (connectStep k es) g').successors x →
      v ∈ g'.successors x ∨ (x = k ∧ v ∈ l ∧ v ≠ k) := by
  intro l
  induction l with
  | nil => intro g' h; exact Or.inl h
  | cons n ns ih =>
    intro g' h
    rw [List.foldl_cons] at h
    rcases ih _ h with h1 | h1
    · rcases connectStep_mem_successors h1 with h2 | h2
      · exact Or.inl h2
      · exact Or.inr ⟨h2.1, by simp [h2.2.1], h2.2.2⟩
    · exact Or.inr ⟨h1.1, by simp [h1.2.1], h1.2.2⟩

theorem connect_hit {g : Graph} {k : String} {es : List String} {node : String}
    {a : NodeAttrs} {t : String}
    (hk : g.hasNode k = true)
    (hq : strStartsWith node "query:" = true) (hne : node ≠ k)
    (hattr : g.nodeAttr node = some a) (htext : a.text = some t)
    (hmem : node ∈ g.nodeKeys) (hnodup : g.nodeKeys.Nodup)
    (hcom : ((es.filter (fun e => (_extract_entities t).contains e)).isEmpty) = false)
    (hsim : ((es.filter (fun e => (_extract_entities t).contains e)).length : ℚ) /
        (max (max es.length (_extract_entities t).length) 1 : ℚ) > 3 / 10) :
    (g.nodeKeys.foldl (connectStep k es) g).edgeAttr k node
      = some { relationship := some "similar_to",
               similarity := some (((es.filter (fun e =>
                   (_extract_entities t).contains e)).length : ℚ) /
                 (max (max es.length (_extract_entities t).length) 1 : ℚ)) } := by
  obtain ⟨l1, l2, hsplit⟩ := List.append_of_mem hmem
  have hnodup' := hsplit ▸ hnodup
  have hnotl2 : node ∉ l2 :=
    (List.nodup_cons.mp (hnodup'.sublist (List.sublist_append_right l1 _))).1
  rw [hsplit, List.foldl_append, List.foldl_cons]
  have hA : (l1.foldl (connectStep k es) g).nodes = g.nodes :=
    connect_fold_nodes es l1 g hk
  have hkA : (l1.foldl (connectStep k es) g).hasNode k = true := by
    rw [hasNode_congr_nodes hA]; exact hk
  have hattrA : (l1.foldl (connectStep k es) g).nodeAttr node = some a := by
    rw [nodeAttr_congr_nodes hA]; exact hattr
  rw [connectStep_hit hq hne hattrA htext hcom hsim]
  rw [connect_fold_edgeAttr_ne es l2 _
    (fun n hn hc => hnotl2 (by rw [hc.2]; exact hn))]
  exact edgeAttr_addEdge_self _ _ _ _

/-! ### The entity and table loops of `add_query` -/

theorem auxStep_facts {q K : String} {A : NodeAttrs} {ea : EdgeAttrs}
    (hK : isQueryKey K = false) {g' : Graph} (hq : g'.hasNode q = true) :
    (∀ x, isQueryKey x = true →
        ((g'.addNode K A).addEdge q K ea).nodeAttr x = g'.nodeAttr x)
    ∧ ((g'.addNode K A).addEdge q K ea).hasNode q = true
    ∧ (∀ x, x ≠ q → ((g'.addNode K A).addEdge q K ea).successors x = g'.successors x)
    ∧ ((g'.addNode K A).addEdge q K ea).queryKeys = g'.queryKeys
    ∧ (g'.nodeKeys.Nodup → ((g'.addNode K A).addEdge q K ea).nodeKeys.Nodup)
    ∧ ((∀ e ∈ g'.edges, e.1 ∈ g'.nodeKeys ∧ e.2.1 ∈ g'.nodeKeys) →
        ∀ e ∈ ((g'.addNode K A).addEdge q K ea).edges,
          e.1 ∈ ((g'.addNode K A).addEdge q K ea).nodeKeys
          ∧ e.2.1 ∈ ((g'.addNode K A).addEdge q K ea).nodeKeys)
    ∧ (∀ v, v ∈ ((g'.addNode K A).addEdge q K ea).successors q →
        v ∈ g'.successors q ∨ isQueryKey v = false)
    ∧ (∀ x, g'.hasNode x = true → ((g'.addNode K A).addEdge q K ea).hasNode x = true)
    ∧ (∀ p ∈ ((g'.addNode K A).addEdge q K ea).nodes,
        p ∈ g'.nodes ∨ isQueryKey p.1 = false) := by
  have hq1 : (g'.addNode K A).hasNode q = true := hasNode_addNode_mono K A hq
  have hK1 : (g'.addNode K A).hasNode K = true := hasNode_addNode_self g' K A
  refine ⟨?_, ?_, ?_, ?_, ?_, ?_, ?_, ?_, ?_⟩
  · intro x hx
    rw [nodeAttr_addEdge_of_present ea hq1 hK1,
      nodeAttr_addNode_ne g' A (ne_of_queryKey_mismatch hx hK)]
  · exact hasNode_addEdge_mono _ _ _ hq1
  · intro x hx
    rw [successors_addEdge_ne _ _ _ hx, successors_addNode]
  · rw [queryKeys_addEdge_present ea hq1 hK1, queryKeys_addNode_nonquery A hK]
  · intro hnd
    rw [nodeKeys_addEdge_of_present ea hq1 hK1]
    exact nodup_addNode K A hnd
  · intro hcl
    exact edgesClosed_addEdge q K ea (edgesClosed_addNode K A hcl)
  · intro v hv
    rcases mem_successors_addEdge hv with h1 | h1
    · rw [successors_addNode] at h1
      exact Or.inl h1
    · right
      rw [h1.2]
      exact hK
  · intro x hx
    exact hasNode_addEdge_mono _ _ _ (hasNode_addNode_mono K A hx)
  · intro p hp
    rw [nodes_addEdge_of_present ea hq1 hK1] at hp
    rcases mem_nodes_addNode hp with h1 | h1
    · exact Or.inl h1
    · right
      rw [h1]
      exact hK

theorem auxFold_facts (q : String) (kf : String → String) (mkA : String → NodeAttrs)
    (ea : EdgeAttrs) (step : Graph → String → Graph)
    (hkey : ∀ s, isQueryKey (kf s) = false)
    (hstep : ∀ g'' x, step g'' x = (g''.addNode (kf x) (mkA x)).addEdge q (kf x) ea) :
    ∀ (es : List String) (g' : Graph), g'.hasNode q = true →
      (∀ x, isQueryKey x = true → (es.foldl step g').nodeAttr x = g'.nodeAttr x)
      ∧ (es.foldl step g').hasNode q = true
      ∧ (∀ x, x ≠ q → (es.foldl step g').successors x = g'.successors x)
      ∧ (es.foldl step g').queryKeys = g'.queryKeys
      ∧ (g'.nodeKeys.Nodup → (es.foldl step g').nodeKeys.Nodup)
      ∧ ((∀ e ∈ g'.edges, e.1 ∈ g'.nodeKeys ∧ e.2.1 ∈ g'.nodeKeys) →
          ∀ e ∈ (es.foldl step g').edges,
            e.1 ∈ (es.foldl step g').nodeKeys ∧ e.2.1 ∈ (es.foldl step g').nodeKeys)
      ∧ (∀ v, v ∈ (es.foldl step g').successors q →
          v ∈ g'.successors q ∨ isQueryKey v = false)
      ∧ (∀ x, g'.hasNode x = true → (es.foldl step g').hasNode x = true)
      ∧ (∀ p ∈ (es.foldl step g').nodes, p ∈ g'.nodes ∨ isQueryKey p.1 = false) := by
  intro es
  induction es with
  | nil =>
    intro g' hq
    exact ⟨fun _ _ => rfl, hq, fun _ _ => rfl, rfl, fun h => h, fun h => h,
      fun _ hv => Or.inl hv, fun _ hx => hx, fun p hp => Or.inl hp⟩
  | cons e es' ih =>
    intro g' hq
    obtain ⟨s1, s2, s3, s4, s5, s6, s7, s8, s9⟩ :=
      @auxStep_facts q (kf e) (mkA e) ea (hkey e) g' hq
    have hstepe := hstep g' e
    have hq1 : (step g' e).hasNode q = true := by rw [hstepe]; exact s2
    obtain ⟨i1, i2, i3, i4, i5, i6, i7, i8, i9⟩ := ih (step g' e) hq1
    rw [List.foldl_cons]
    refine ⟨?_, i2, ?_, ?_, ?_, ?_, ?_, ?_, ?_⟩
    · intro x hx
      rw [i1 x hx, hstepe]
      exact s1 x hx
    · intro x hx
      rw [i3 x hx, hstepe]
      exact s3 x hx
    · rw [i4, hstepe]
      exact s4
    · intro hnd
      exact i5 (by rw [hstepe]; exact s5 hnd)
    · intro hcl
      exact i6 (hstepe.symm ▸ s6 hcl)
    · intro v hv
      rcases i7 v hv with h1 | h1
      · rw [hstepe] at h1
        exact s7 v h1
      · exact Or.inr h1
    · intro x hx
      exact i8 x (by rw [hstepe]; exact s8 x hx)
    · intro p hp
      rcases i9 p hp with h1 | h1
      · rw [hstepe] at h1
        exact s9 p h1
      · exact Or.inr h1

theorem preConnect_eq (m : String → String) (g : Graph) (c : QueryCall) :
    preConnect m g c =
      ((c.tables.getD []).foldl (tableStep (queryNodeKey m c.text))
        ((c.entities.getD []).foldl (entityStep (queryNodeKey m c.text))
          (((((g.addNode (queryNodeKey m c.text)
                { type := some "query", text := some c.text, sql := some c.sqlq,
                  timestamp := some c.timestamp }).addNode
              ("sql:" ++ _hash_sql m c.sqlq)
                { type := some "sql", query := some c.sqlq }).addEdge
              (queryNodeKey m c.text) ("sql:" ++ _hash_sql m c.sqlq)
                { relationship := some "generates" }).addNode
              ("result:" ++ _hash_query m c.text)
                { type := some "result", data := some c.result }).addEdge
              ("sql:" ++ _hash_sql m c.sqlq) ("result:" ++ _hash_query m c.text)
                { relationship := some "returns" }))) := by
  unfold preConnect
  cases c.entities <;> cases c.tables <;> rfl

theorem isQueryKey_queryNodeKey (m : String → String) (t : String) :
    isQueryKey (queryNodeKey m t) = true :=
  isQueryKey_query (m (normQ t))

theorem coreFacts {g : Graph} {qn sn rn : String} {QA SA RA : NodeAttrs}
    {GA RetA : EdgeAttrs}
    (hqq : isQueryKey qn = true) (hqs : isQueryKey sn = false)
    (hqr : isQueryKey rn = false) :
    (((((g.addNode qn QA).addNode sn SA).addEdge qn sn GA).addNode rn
        RA).addEdge sn rn RetA).nodeAttr qn = some QA
    ∧ (∀ x, isQueryKey x = true → x ≠ qn →
        (((((g.addNode qn QA).addNode sn SA).addEdge qn sn GA).addNode rn
            RA).addEdge sn rn RetA).nodeAttr x = g.nodeAttr x)
    ∧ (((((g.addNode qn QA).addNode sn SA).addEdge qn sn GA).addNode rn
        RA).addEdge sn rn RetA).hasNode qn = true
    ∧ (g.nodeKeys.Nodup →
        (((((g.addNode qn QA).addNode sn SA).addEdge qn sn GA).addNode rn
            RA).addEdge sn rn RetA).nodeKeys.Nodup)
    ∧ (((((g.addNode qn QA).addNode sn SA).addEdge qn sn GA).addNode rn
        RA).addEdge sn rn RetA).queryKeys
        = (if g.hasNode qn then g.queryKeys else g.queryKeys ++ [qn])
    ∧ (∀ x, isQueryKey x = true → x ≠ qn →
        (((((g.addNode qn QA).addNode sn SA).addEdge qn sn GA).addNode rn
            RA).addEdge sn rn RetA).successors x = g.successors x)
    ∧ (∀ v, v ∈ (((((g.addNode qn QA).addNode sn SA).addEdge qn sn GA).addNode rn
        RA).addEdge sn rn RetA).successors qn →
        v ∈ g.successors qn ∨ isQueryKey v = false)
    ∧ (∀ x, g.hasNode x = true →
        (((((g.addNode qn QA).addNode sn SA).addEdge qn sn GA).addNode rn
            RA).addEdge sn rn RetA).hasNode x = true)
    ∧ ((∀ e ∈ g.edges, e.1 ∈ g.nodeKeys ∧ e.2.1 ∈ g.nodeKeys) →
        ∀ e ∈ (((((g.addNode qn QA).addNode sn SA).addEdge qn sn GA).addNode rn
            RA).addEdge sn rn RetA).edges,
          e.1 ∈ (((((g.addNode qn QA).addNode sn SA).addEdge qn sn GA).addNode rn
            RA).addEdge sn rn RetA).nodeKeys
          ∧ e.2.1 ∈ (((((g.addNode qn QA).addNode sn SA).addEdge qn sn GA).addNode rn
            RA).addEdge sn rn RetA).nodeKeys)
    ∧ (∀ p ∈ (((((g.addNode qn QA).addNode sn SA).addEdge qn sn GA).addNode rn
        RA).addEdge sn rn RetA).nodes, isQueryKey p.1 = true →
        p ∈ g.nodes ∨ p = (qn, QA)) := by
  have hnqs : qn ≠ sn := ne_of_queryKey_mismatch hqq hqs
  have hnqr : qn ≠ rn := ne_of_queryKey_mismatch hqq hqr
  set G1 := g.addNode qn QA with hG1
  set G2 := G1.addNode sn SA with hG2
  set G3 := G2.addEdge qn sn GA with hG3
  set G4 := G3.addNode rn RA with hG4
  set G5 := G4.addEdge sn rn RetA with hG5
  have h1q : G1.hasNode qn = true := hasNode_addNode_self _ _ _
  have h2q : G2.hasNode qn = true := hasNode_addNode_mono _ _ h1q
  have h2s : G2.hasNode sn = true := hasNode_addNode_self _ _ _
  have hn3 : G3.nodes = G2.nodes := nodes_addEdge_of_present GA h2q h2s
  have h3q : G3.hasNode qn = true := by rw [hasNode_congr_nodes hn3]; exact h2q
  have h3s : G3.hasNode sn = true := by rw [hasNode_congr_nodes hn3]; exact h2s
  have h4q : G4.hasNode qn = true := hasNode_addNode_mono _ _ h3q
  have h4s : G4.hasNode sn = true := hasNode_addNode_mono _ _ h3s
  have h4r : G4.hasNode rn = true := hasNode_addNode_self _ _ _
  have hn5 : G5.nodes = G4.nodes := nodes_addEdge_of_present RetA h4s h4r
  have h5q : G5.hasNode qn = true := by rw [hasNode_congr_nodes hn5]; exact h4q
  refine ⟨?_, ?_, h5q, ?_, ?_, ?_, ?_, ?_, ?_, ?_⟩
  · rw [nodeAttr_congr_nodes hn5, hG4, nodeAttr_addNode_ne _ RA hnqr,
      nodeAttr_congr_nodes hn3, hG2, nodeAttr_addNode_ne _ SA hnqs, hG1,
      nodeAttr_addNode_self]
  · intro x hx hxn
    rw [nodeAttr_congr_nodes hn5, hG4,
      nodeAttr_addNode_ne _ RA (ne_of_queryKey_mismatch hx hqr),
      nodeAttr_congr_nodes hn3, hG2,
      nodeAttr_addNode_ne _ SA (ne_of_queryKey_mismatch hx hqs), hG1,
      nodeAttr_addNode_ne _ QA hxn]
  · intro hnd
    rw [nodeKeys_congr_nodes hn5, hG4]
    apply nodup_addNode
    rw [nodeKeys_congr_nodes hn3, hG2]
    apply nodup_addNode
    rw [hG1]
    exact nodup_addNode _ _ hnd
  · rw [queryKeys_congr_nodes hn5, hG4, queryKeys_addNode_nonquery RA hqr,
      queryKeys_congr_nodes hn3, hG2, queryKeys_addNode_nonquery SA hqs, hG1,
      queryKeys_addNode_query QA hqq]
  · intro x hx hxn
    rw [hG5, successors_addEdge_ne _ _ _ (ne_of_queryKey_mismatch hx hqs), hG4,
      successors_addNode, hG3,
      successors_addEdge_ne _ _ _ hxn, hG2, successors_addNode, hG1,
      successors_addNode]
  · intro v hv
    rw [hG5, successors_addEdge_ne _ _ _ hnqs, hG4, successors_addNode] at hv
    rw [hG3] at hv
    rcases mem_successors_addEdge hv with h1 | h1
    · rw [hG2, successors_addNode, hG1, successors_addNode] at h1
      exact Or.inl h1
    · right
      rw [h1.2]
      exact hqs
  · intro x hx
    rw [hasNode_congr_nodes hn5, hG4]
    apply hasNode_addNode_mono
    rw [hasNode_congr_nodes hn3, hG2]
    apply hasNode_addNode_mono
    rw [hG1]
    exact hasNode_addNode_mono _ _ hx
  · intro hcl
    rw [hG5]
    apply edgesClosed_addEdge
    rw [hG4]
    apply edgesClosed_addNode
    rw [hG3]
    apply edgesClosed_addEdge
    rw [hG2]
    apply edgesClosed_addNode
    rw [hG1]
    exact edgesClosed_addNode _ _ hcl
  · intro p hp hpq
    rw [hn5, hG4] at hp
    rcases mem_nodes_addNode hp with h1 | h1
    · rw [hn3, hG2] at h1
      rcases mem_nodes_addNode h1 with h2 | h2
      · rw [hG1] at h2
        rcases mem_nodes_addNode h2 with h3 | h3
        · exact Or.inl h3
        · exact Or.inr h3
      · rw [h2] at hpq
        rw [hqs] at hpq
        cases hpq
    · rw [h1] at hpq
      rw [hqr] at hpq
      cases hpq

theorem preConnect_facts (m : String → String) (g : Graph) (c : QueryCall) :
    (preConnect m g c).nodeAttr (queryNodeKey m c.text)
      = some { type := some "query", text := some c.text, sql := some c.sqlq,
               timestamp := some c.timestamp }
    ∧ (∀ x, isQueryKey x = true → x ≠ queryNodeKey m c.text →
        (preConnect m g c).nodeAttr x = g.nodeAttr x)
    ∧ (preConnect m g c).hasNode (queryNodeKey m c.text) = true
    ∧ (g.nodeKeys.Nodup → (preConnect m g c).nodeKeys.Nodup)
    ∧ (preConnect m g c).queryKeys
        = (if g.hasNode (queryNodeKey m c.text) then g.queryKeys
           else g.queryKeys ++ [queryNodeKey m c.text])
    ∧ (∀ x, isQueryKey x = true → x ≠ queryNodeKey m c.text →
        (preConnect m g c).successors x = g.successors x)
    ∧ (∀ v, isQueryKey v = true →
        v ∈ (preConnect m g c).successors (queryNodeKey m c.text) →
        v ∈ g.successors (queryNodeKey m c.text))
    ∧ (∀ x, g.hasNode x = true → (preConnect m g c).hasNode x = true)
    ∧ ((∀ e ∈ g.edges, e.1 ∈ g.nodeKeys ∧ e.2.1 ∈ g.nodeKeys) →
        ∀ e ∈ (preConnect m g c).edges,
          e.1 ∈ (preConnect m g c).nodeKeys ∧ e.2.1 ∈ (preConnect m g c).nodeKeys)
    ∧ (∀ p ∈ (preConnect m g c).nodes, isQueryKey p.1 = true →
        p ∈ g.nodes ∨ p = (queryNodeKey m c.text,
          { type := some "query", text := some c.text, sql := some c.sqlq,
            timestamp := some c.timestamp })) := by
  have hqq : isQueryKey (queryNodeKey m c.text) = true := isQueryKey_queryNodeKey m c.text
  rw [preConnect_eq]
  obtain ⟨k1, k2, k3, k4, k5, k6, k7, k8, k9, k10⟩ :=
    @coreFacts g (queryNodeKey m c.text) ("sql:" ++ _hash_sql m c.sqlq)
      ("result:" ++ _hash_query m c.text)
      { type := some "query", text := some c.text, sql := some c.sqlq,
        timestamp := some c.timestamp }
      { type := some "sql", query := some c.sqlq }
      { type := some "result", data := some c.result }
      { relationship := some "generates" } { relationship := some "returns" }
      hqq (isQueryKey_sql _) (isQueryKey_result _)
  obtain ⟨e1, e2, e3, e4, e5, e6, e7, e8, e9⟩ :=
    auxFold_facts (queryNodeKey m c.text) (fun x => "entity:" ++ x)
      (fun x => { type := some "entity", name := some x })
      { relationship := some "mentions" } (entityStep (queryNodeKey m c.text))
      (fun s => isQueryKey_entity s) (fun _ _ => rfl) (c.entities.getD []) _ k3
  obtain ⟨t1, t2, t3, t4, t5, t6, t7, t8, t9⟩ :=
    auxFold_facts (queryNodeKey m c.text) (fun x => "table:" ++ x)
      (fun x => { type := some "table", name := some x })
      { relationship := some "queries" } (tableStep (queryNodeKey m c.text))
      (fun s => isQueryKey_table s) (fun _ _ => rfl) (c.tables.getD []) _ e2
  refine ⟨?_, ?_, t2, ?_, ?_, ?_, ?_, ?_, ?_, ?_⟩
  · rw [t1 _ hqq, e1 _ hqq]
    exact k1
  · intro x hx hxn
    rw [t1 x hx, e1 x hx]
    exact k2 x hx hxn
  · intro hnd
    exact t5 (e5 (k4 hnd))
  · rw [t4, e4]
    exact k5
  · intro x hx hxn
    rw [t3 x hxn, e3 x hxn]
    exact k6 x hx hxn
  · intro v hvq hv
    rcases t7 v hv with h1 | h1
    · rcases e7 v h1 with h2 | h2
      · rcases k7 v h2 with h3 | h3
        · exact h3
        · rw [hvq] at h3; cases h3
      · rw [hvq] at h2; cases h2
    · rw [hvq] at h1; cases h1
  · intro x hx
    exact t8 x (e8 x (k8 x hx))
  · intro hcl
    exact t6 (e6 (k9 hcl))
  · intro p hp hpq
    rcases t9 p hp with h1 | h1
    · rcases e9 p h1 with h2 | h2
      · exact k10 p h2 hpq
      · rw [hpq] at h2; cases h2
    · rw [hpq] at h1; cases h1

/-! ### Facts about `add_query` as a whole -/

theorem add_query_eq (m : String → String) (g : Graph) (c : QueryCall) :
    add_query m g c
      = (preConnect m g c).nodeKeys.foldl
          (connectStep (queryNodeKey m c.text) (_extract_entities c.text))
          (preConnect m g c) := rfl

theorem mem_queryKeys_iff {g : Graph} {x : String} (hx : isQueryKey x = true) :
    x ∈ g.queryKeys ↔ x ∈ g.nodeKeys := by
  unfold Graph.queryKeys
  rw [List.mem_filter]
  exact ⟨fun h => h.1, fun h => ⟨h, hx⟩⟩

theorem preConnect_mem_query {m : String → String} {g : Graph} {c : QueryCall}
    {x : String} (hx : isQueryKey x = true)
    (h : x ∈ (preConnect m g c).nodeKeys) :
    x ∈ g.nodeKeys ∨ x = queryNodeKey m c.text := by
  have h1 : x ∈ (preConnect m g c).queryKeys := (mem_queryKeys_iff hx).mpr h
  rw [(preConnect_facts m g c).2.2.2.2.1] at h1
  by_cases hh : g.hasNode (queryNodeKey m c.text) = true
  · rw [if_pos hh] at h1
    exact Or.inl ((mem_queryKeys_iff hx).mp h1)
  · rw [if_neg hh] at h1
    rcases List.mem_append.mp h1 with h2 | h2
    · exact Or.inl ((mem_queryKeys_iff hx).mp h2)
    · exact Or.inr (List.mem_singleton.mp h2)

theorem add_query_nodes_preConnect (m : String → String) (g : Graph) (c : QueryCall) :
    (add_query m g c).nodes = (preConnect m g c).nodes := by
  rw [add_query_eq]
  exact connect_fold_nodes _ _ _ (preConnect_facts m g c).2.2.1

theorem add_query_nodeAttr_self (m : String → String) (g : Graph) (c : QueryCall) :
    (add_query m g c).nodeAttr (queryNodeKey m c.text)
      = some { type := some "query", text := some c.text, sql := some c.sqlq,
               timestamp := some c.timestamp } := by
  rw [nodeAttr_congr_nodes (add_query_nodes_preConnect m g c)]
  exact (preConnect_facts m g c).1

theorem add_query_nodeAttr_query_ne (m : String → String) {g : Graph} {c : QueryCall}
    {x : String} (hx : isQueryKey x = true) (hxn : x ≠ queryNodeKey m c.text) :
    (add_query m g c).nodeAttr x = g.nodeAttr x := by
  rw [nodeAttr_congr_nodes (add_query_nodes_preConnect m g c)]
  exact (preConnect_facts m g c).2.1 x hx hxn

theorem add_query_hasNode_self (m : String → String) (g : Graph) (c : QueryCall) :
    (add_query m g c).hasNode (queryNodeKey m c.text) = true := by
  rw [hasNode_congr_nodes (add_query_nodes_preConnect m g c)]
  exact (preConnect_facts m g c).2.2.1

theorem add_query_hasNode_mono (m : String → String) {g : Graph} (c : QueryCall)
    {x : String} (hx : g.hasNode x = true) :
    (add_query m g c).hasNode x = true := by
  rw [hasNode_congr_nodes (add_query_nodes_preConnect m g c)]
  exact (preConnect_facts m g c).2.2.2.2.2.2.2.1 x hx

theorem add_query_nodup (m : String → String) {g : Graph} (c : QueryCall)
    (hnd : g.nodeKeys.Nodup) : (add_query m g c).nodeKeys.Nodup := by
  rw [nodeKeys_congr_nodes (add_query_nodes_preConnect m g c)]
  exact (preConnect_facts m g c).2.2.2.1 hnd

theorem add_query_queryKeys (m : String → String) (g : Graph) (c : QueryCall) :
    (add_query m g c).queryKeys
      = (if g.hasNode (queryNodeKey m c.text) then g.queryKeys
         else g.queryKeys ++ [queryNodeKey m c.text]) := by
  rw [queryKeys_congr_nodes (add_query_nodes_preConnect m g c)]
  exact (preConnect_facts m g c).2.2.2.2.1

theorem add_query_successors_ne (m : String → String) {g : Graph} (c : QueryCall)
    {x : String} (hx : isQueryKey x = true) (hxn : x ≠ queryNodeKey m c.text) :
    (add_query m g c).successors x = g.successors x := by
  rw [add_query_eq, connect_fold_successors_ne _ hxn]
  exact (preConnect_facts m g c).2.2.2.2.2.1 x hx hxn

theorem add_query_mem_query (m : String → String) {g : Graph} (c : QueryCall)
    {x : String} (hx : isQueryKey x = true) :
    x ∈ (add_query m g c).nodeKeys ↔
      x ∈ g.nodeKeys ∨ x = queryNodeKey m c.text := by
  rw [nodeKeys_congr_nodes (add_query_nodes_preConnect m g c)]
  constructor
  · exact preConnect_mem_query hx
  · rintro (h | h)
    · exact hasNode_iff.mp
        ((preConnect_facts m g c).2.2.2.2.2.2.2.1 x (hasNode_iff.mpr h))
    · rw [h]
      exact hasNode_iff.mp (preConnect_facts m g c).2.2.1

theorem connectStep_edgesClosed {g' : Graph} {k : String} {es : List String}
    (node : String)
    (hcl : ∀ e ∈ g'.edges, e.1 ∈ g'.nodeKeys ∧ e.2.1 ∈ g'.nodeKeys) :
    ∀ e ∈ (connectStep k es g' node).edges,
      e.1 ∈ (connectStep k es g' node).nodeKeys
      ∧ e.2.1 ∈ (connectStep k es g' node).nodeKeys := by
  rw [connectStep_eq]
  by_cases h1 : (strStartsWith node "query:" && node != k) = true
  · rw [if_pos h1]
    cases hE : (es.filter (fun e =>
        (_extract_entities ((((g'.nodeAttr node).map (·.text)).join).getD "")).contains
          e)).isEmpty
    · rw [if_pos (by rfl)]
      by_cases hS : ((es.filter (fun e =>
          (_extract_entities ((((g'.nodeAttr node).map (·.text)).join).getD "")).contains
            e)).length : ℚ) /
          (max (max es.length
            (_extract_entities ((((g'.nodeAttr node).map (·.text)).join).getD "")).length)
            1 : ℚ) > 3 / 10
      · rw [if_pos hS]
        exact edgesClosed_addEdge _ _ _ hcl
      · rw [if_neg hS]
        exact hcl
    · rw [if_neg (fun h => nomatch h)]
      exact hcl
  · rw [if_neg h1]
    exact hcl

theorem connect_fold_edgesClosed {k : String} {es : List String} :
    ∀ (l : List String) (g' : Graph),
      (∀ e ∈ g'.edges, e.1 ∈ g'.nodeKeys ∧ e.2.1 ∈ g'.nodeKeys) →
      ∀ e ∈ (l.foldl (connectStep k es) g').edges,
        e.1 ∈ (l.foldl (connectStep k es) g').nodeKeys
        ∧ e.2.1 ∈ (l.foldl (connectStep k es) g').nodeKeys := by
  intro l
  induction l with
  | nil => intro g' hcl; exact hcl
  | cons n ns ih =>
    intro g' hcl
    rw [List.foldl_cons]
    exact ih _ (connectStep_edgesClosed n hcl)

theorem add_query_inv (m : String → String) {g : Graph} (c : QueryCall)
    (hinv : QGraphInv m g) : QGraphInv m (add_query m g c) := by
  constructor
  · intro p hp hpq
    have hp' : p ∈ (preConnect m g c).nodes := by
      rw [← add_query_nodes_preConnect m g c]
      exact hp
    rcases (preConnect_facts m g c).2.2.2.2.2.2.2.2.2 p hp' hpq with h1 | h1
    · exact hinv.textKey p h1 hpq
    · rw [h1]
      exact ⟨c.text, rfl, rfl⟩
  · rw [add_query_eq]
    exact connect_fold_edgesClosed _ _
      ((preConnect_facts m g c).2.2.2.2.2.2.2.2.1 hinv.edgeNodes)
  · exact add_query_nodup m c hinv.keysNodup

theorem add_query_succ_query_sub (m : String → String) {g : Graph} (c : QueryCall)
    (hcl : ∀ e ∈ g.edges, e.1 ∈ g.nodeKeys ∧ e.2.1 ∈ g.nodeKeys) :
    ∀ v, isQueryKey v = true →
      v ∈ (add_query m g c).successors (queryNodeKey m c.text) →
      v ∈ g.nodeKeys := by
  intro v hvq hv
  rw [add_query_eq] at hv
  rcases connect_fold_mem_successors _ _ _ hv with h1 | h1
  · have h2 := (preConnect_facts m g c).2.2.2.2.2.2.1 v hvq h1
    obtain ⟨e, he, _, hv2⟩ := mem_successors.mp h2
    rw [← hv2]
    exact (hcl e he).2
  · rcases preConnect_mem_query hvq h1.2.1 with h2 | h2
    · exact h2
    · exact absurd h2 h1.2.2

theorem add_query_sim_edge (m : String → String) {g : Graph} (c : QueryCall)
    {x : String} {a : NodeAttrs} {t : String}
    (hq : isQueryKey x = true) (hne : x ≠ queryNodeKey m c.text)
    (hattr : g.nodeAttr x = some a) (htext : a.text = some t)
    (hnodup : g.nodeKeys.Nodup)
    (hcom : (((_extract_entities c.text).filter
        (fun e => (_extract_entities t).contains e)).isEmpty) = false)
    (hsim : (((_extract_entities c.text).filter
          (fun e => (_extract_entities t).contains e)).length : ℚ) /
        (max (max (_extract_entities c.text).length
          (_extract_entities t).length) 1 : ℚ) > 3 / 10) :
    (add_query m g c).edgeAttr (queryNodeKey m c.text) x
      = some { relationship := some "similar_to",
               similarity := some ((((_extract_entities c.text).filter
                   (fun e => (_extract_entities t).contains e)).length : ℚ) /
                 (max (max (_extract_entities c.text).length
                   (_extract_entities t).length) 1 : ℚ)) } := by
  rw [add_query_eq]
  have hattrP : (preConnect m g c).nodeAttr x = some a := by
    rw [(preConnect_facts m g c).2.1 x hq hne]
    exact hattr
  have hmemP : x ∈ (preConnect m g c).nodeKeys :=
    hasNode_iff.mp ((preConnect_facts m g c).2.2.2.2.2.2.2.1 x
      (hasNode_of_nodeAttr_some hattr))
  exact connect_hit (preConnect_facts m g c).2.2.1 hq hne hattrP htext hmemP
    ((preConnect_facts m g c).2.2.2.1 hnodup) hcom hsim

/-! ### Claim C3: query-node deduplication -/

theorem add_query_queryKeys_toFinset (m : String → String) (g : Graph) (c : QueryCall) :
    (add_query m g c).queryKeys.toFinset
      = insert (queryNodeKey m c.text) g.queryKeys.toFinset := by
  rw [add_query_queryKeys]
  by_cases hh : g.hasNode (queryNodeKey m c.text) = true
  · rw [if_pos hh]
    have hmem : queryNodeKey m c.text ∈ g.queryKeys :=
      (mem_queryKeys_iff (isQueryKey_queryNodeKey m c.text)).mpr (hasNode_iff.mp hh)
    rw [Finset.insert_eq_self.mpr (List.mem_toFinset.mpr hmem)]
  · rw [if_neg hh, List.toFinset_append]
    ext x
    simp [or_comm]

theorem applyCalls_queryKeys_toFinset (m : String → String) :
    ∀ (calls : List QueryCall) (g : Graph),
      (calls.foldl (add_query m) g).queryKeys.toFinset
        = g.queryKeys.toFinset ∪ (calls.map (fun c => queryNodeKey m c.text)).toFinset := by
  intro calls
  induction calls with
  | nil => intro g; simp
  | cons c cs ih =>
    intro g
    rw [List.foldl_cons, ih (add_query m g c), add_query_queryKeys_toFinset,
      List.map_cons, List.toFinset_cons, Finset.insert_union, Finset.union_insert]

theorem applyCalls_nodup (m : String → String) :
    ∀ (calls : List QueryCall) (g : Graph), g.nodeKeys.Nodup →
      (calls.foldl (add_query m) g).nodeKeys.Nodup := by
  intro calls
  induction calls with
  | nil => intro g h; exact h
  | cons c cs ih =>
    intro g h
    rw [List.foldl_cons]
    exact ih _ (add_query_nodup m c h)

/-- C3: two `add_query` calls whose texts agree after lower-casing and
trimming hash to the same query-node key; a repeat call overwrites the
query node's attributes and appends no new query node; and after any call
sequence the query graph holds exactly one query node per distinct
normalized text. -/
theorem claim_C3 (md5_8 : String → String) (hinj : Function.Injective md5_8) :
    (∀ t1 t2 : String, normQ t1 = normQ t2 →
        queryNodeKey md5_8 t1 = queryNodeKey md5_8 t2)
    ∧ (∀ (g : Graph) (c : QueryCall),
        (add_query md5_8 g c).nodeAttr (queryNodeKey md5_8 c.text)
          = some { type := some "query", text := some c.text, sql := some c.sqlq,
                   timestamp := some c.timestamp }
        ∧ (add_query md5_8 g c).queryKeys
          = (if g.hasNode (queryNodeKey md5_8 c.text) then g.queryKeys
             else g.queryKeys ++ [queryNodeKey md5_8 c.text]))
    ∧ (∀ calls : List QueryCall,
        (applyCalls md5_8 calls).queryKeys.toFinset
            = (calls.map (fun c => queryNodeKey md5_8 c.text)).toFinset
        ∧ (applyCalls md5_8 calls).queryKeys.length
            = (calls.map (fun c => normQ c.text)).toFinset.card) := by
  refine ⟨?_, ?_, ?_⟩
  · intro t1 t2 h
    unfold queryNodeKey
    rw [h]
  · intro g c
    exact ⟨add_query_nodeAttr_self md5_8 g c, add_query_queryKeys md5_8 g c⟩
  · intro calls
    have hfin : (applyCalls md5_8 calls).queryKeys.toFinset
        = (calls.map (fun c => queryNodeKey md5_8 c.text)).toFinset := by
      rw [show applyCalls md5_8 calls = calls.foldl (add_query md5_8) emptyGraph from rfl,
        applyCalls_queryKeys_toFinset]
      simp [emptyGraph, Graph.queryKeys, Graph.nodeKeys]
    refine ⟨hfin, ?_⟩
    have hnodup : (applyCalls md5_8 calls).nodeKeys.Nodup :=
      applyCalls_nodup md5_8 calls emptyGraph List.nodup_nil
    have hqnodup : (applyCalls md5_8 calls).queryKeys.Nodup :=
      hnodup.filter _
    rw [← List.toFinset_card_of_nodup hqnodup, hfin]
    have hmaps : calls.map (fun c => queryNodeKey md5_8 c.text)
        = (calls.map (fun c => normQ c.text)).map (fun s => "query:" ++ md5_8 s) := by
      rw [List.map_map]
      rfl
    rw [hmaps]
    have himg : ((calls.map (fun c => normQ c.text)).map
          (fun s => "query:" ++ md5_8 s)).toFinset
        = (calls.map (fun c => normQ c.text)).toFinset.image
            (fun s => "query:" ++ md5_8 s) := by
      ext x
      simp
    rw [himg]
    exact Finset.card_image_of_injective _
      (fun a b h => hinj (append_left_cancel_str h))

/-- Witness for C3 at `md5_8 := id`: the variant call re-uses A's key, and
three calls with two distinct normalized texts leave two query nodes. -/
theorem claim_C3_witness :
    queryNodeKey id callA.text = queryNodeKey id callAVar.text
    ∧ (applyCalls id [callA, callB, callAVar]).queryKeys.length
        = ([callA, callB, callAVar].map (fun c => normQ c.text)).toFinset.card
    ∧ ([callA, callB, callAVar].map (fun c => normQ c.text)).toFinset.card = 2 := by
  have h := claim_C3 id Function.injective_id
  exact ⟨h.1 callA.text callAVar.text (by decide),
    (h.2.2 [callA, callB, callAVar]).2, by decide⟩

/-! ### Claim C5: the revenue-by-state / revenue-by-city scenario -/

theorem applyCalls_two (m : String → String) (c1 c2 : QueryCall) :
    applyCalls m [c1, c2] = add_query m (add_query m emptyGraph c1) c2 := rfl

set_option maxHeartbeats 1600000 in
/-- C5: after adding query A ("show revenue by state") and then query B
("show revenue by city") to an empty query graph, a `similar_to` edge
from B's query node to A's query node carries similarity exactly 1/2; the
extracted entity lists are [revenue, state] and [revenue, city]. -/
theorem claim_C5 (md5_8 : String → String) (hinj : Function.Injective md5_8) :
    (applyCalls md5_8 [callA, callB]).edgeAttr
        (queryNodeKey md5_8 callB.text) (queryNodeKey md5_8 callA.text)
      = some { relationship := some "similar_to", similarity := some (1 / 2 : ℚ) }
    ∧ _extract_entities callA.text = ["revenue", "state"]
    ∧ _extract_entities callB.text = ["revenue", "city"]
    ∧ ((1 : ℚ) / 2 > 3 / 10) := by
  rw [applyCalls_two]
  have hA : _extract_entities callA.text = ["revenue", "state"] := by decide
  have hB : _extract_entities callB.text = ["revenue", "city"] := by decide
  have hfil : (_extract_entities callB.text).filter
      (fun e => (_extract_entities callA.text).contains e) = ["revenue"] := by decide
  refine ⟨?_, hA, hB, by norm_num⟩
  have hkne : queryNodeKey md5_8 callA.text ≠ queryNodeKey md5_8 callB.text := by
    intro h
    exact absurd (queryNodeKey_injective md5_8 hinj h) (by decide)
  have hattr : (add_query md5_8 emptyGraph callA).nodeAttr
      (queryNodeKey md5_8 callA.text)
      = some { type := some "query", text := some callA.text,
               sql := some callA.sqlq, timestamp := some callA.timestamp } :=
    add_query_nodeAttr_self md5_8 emptyGraph callA
  have hnodup : (add_query md5_8 emptyGraph callA).nodeKeys.Nodup :=
    add_query_nodup md5_8 callA List.nodup_nil
  have hedge := add_query_sim_edge md5_8 callB
    (isQueryKey_queryNodeKey md5_8 callA.text) hkne hattr rfl hnodup
    (by rw [hfil]; rfl)
    (by rw [hfil, hA, hB]; norm_num)
  have hval : (((_extract_entities callB.text).filter
        (fun e => (_extract_entities callA.text).contains e)).length : ℚ) /
      (max (max (_extract_entities callB.text).length
        (_extract_entities callA.text).length) 1 : ℚ) = (1 / 2 : ℚ) := by
    rw [hfil, hA, hB]
    norm_num
  rw [hval] at hedge
  exact hedge

/-- Witness for C5 at `md5_8 := id`. -/
theorem claim_C5_witness :
    (applyCalls id [callA, callB]).edgeAttr
        (queryNodeKey id callB.text) (queryNodeKey id callA.text)
      = some { relationship := some "similar_to", similarity := some (1 / 2 : ℚ) }
    ∧ _extract_entities callA.text = ["revenue", "state"]
    ∧ _extract_entities callB.text = ["revenue", "city"]
    ∧ ((1 : ℚ) / 2 > 3 / 10) :=
  claim_C5 id (fun a b h => h)

/-! ### Claim C4: direction of the similarity edges -/

theorem exists_take_mem {α : Type} {x : α} {l : List α} (h : x ∈ l) :
    ∃ K, x ∈ l.take K :=
  ⟨l.length, by rw [List.take_length]; exact h⟩

theorem find_similar_eq (m : String → String) (g : Graph) (t : String) (k : Nat) :
    find_similar_queries m g t k =
      (if g.hasNode (queryNodeKey m t) then
        (sortDesc ((g.successors (queryNodeKey m t)).foldr
          (fun neighbor acc =>
            if strStartsWith neighbor "query:" then
              ({ query := (((g.nodeAttr neighbor).map (·.text)).join).getD "",
                 sql := (((g.nodeAttr neighbor).map (·.sql)).join).getD "",
                 similarity :=
                   ((((g.edgeAttr (queryNodeKey m t) neighbor).map
                     (·.similarity)).join).getD 0) } : SimilarRec) :: acc
            else acc)
          [])).take k
      else []) := rfl

theorem mem_simFoldr {g : Graph} {qn : String} {r : SimilarRec} :
    ∀ succs : List String,
      (r ∈ succs.foldr (fun neighbor acc =>
          if strStartsWith neighbor "query:" then
            ({ query := (((g.nodeAttr neighbor).map (·.text)).join).getD "",
               sql := (((g.nodeAttr neighbor).map (·.sql)).join).getD "",
               similarity :=
                 ((((g.edgeAttr qn neighbor).map (·.similarity)).join).getD 0) }
              : SimilarRec) :: acc
          else acc) []
        ↔ ∃ n ∈ succs, strStartsWith n "query:" = true ∧
            r = { query := (((g.nodeAttr n).map (·.text)).join).getD "",
                  sql := (((g.nodeAttr n).map (·.sql)).join).getD "",
                  similarity :=
                    ((((g.edgeAttr qn n).map (·.similarity)).join).getD 0) }) := by
  intro succs
  induction succs with
  | nil => simp
  | cons n ns ih =>
    rw [List.foldr_cons]
    by_cases hq : strStartsWith n "query:" = true
    · rw [if_pos hq]
      constructor
      · intro h
        rcases List.mem_cons.mp h with h1 | h1
        · exact ⟨n, by simp, hq, h1⟩
        · obtain ⟨n', hn', hq', hr'⟩ := ih.mp h1
          exact ⟨n', by simp [hn'], hq', hr'⟩
      · rintro ⟨n', hn', hq', hr'⟩
        rcases List.mem_cons.mp hn' with h1 | h1
        · rw [h1] at hr'
          rw [hr']
          exact List.mem_cons_self _ _
        · exact List.mem_cons_of_mem _ (ih.mpr ⟨n', h1, hq', hr'⟩)
    · rw [if_neg hq]
      constructor
      · intro h
        obtain ⟨n', hn', hq', hr'⟩ := ih.mp h
        exact ⟨n', by simp [hn'], hq', hr'⟩
      · rintro ⟨n', hn', hq', hr'⟩
        rcases List.mem_cons.mp hn' with h1 | h1
        · rw [h1] at hq'
          exact absurd hq' hq
        · exact ih.mpr ⟨n', h1, hq', hr'⟩

theorem mem_insertDesc {r x : SimilarRec} :
    ∀ l : List SimilarRec, x ∈ insertDesc r l ↔ x = r ∨ x ∈ l := by
  intro l
  induction l with
  | nil => simp [insertDesc]
  | cons y ys ih =>
    unfold insertDesc
    by_cases h : y.similarity ≤ r.similarity
    · rw [if_pos h]
      simp
    · rw [if_neg h]
      constructor
      · intro hx
        rcases List.mem_cons.mp hx with h1 | h1
        · exact Or.inr (by simp [h1])
        · rcases ih.mp h1 with h2 | h2
          · exact Or.inl h2
          · exact Or.inr (by simp [h2])
      · rintro (h1 | h1)
        · exact List.mem_cons_of_mem _ (ih.mpr (Or.inl h1))
        · rcases List.mem_cons.mp h1 with h2 | h2
          · rw [h2]
            exact List.mem_cons_self _ _
          · exact List.mem_cons_of_mem _ (ih.mpr (Or.inr h2))

theorem mem_sortDesc {x : SimilarRec} :
    ∀ l : List SimilarRec, x ∈ sortDesc l ↔ x ∈ l := by
  intro l
  induction l with
  | nil => simp [sortDesc]
  | cons y ys ih =>
    unfold sortDesc
    rw [mem_insertDesc, ih]
    simp

/-- C4: `similar_to` edges run only from the newly inserted query node to
pre-existing query nodes.  Over any reachable graph, after adding Q1 and
then a distinct, previously absent Q2, `find_similar_queries` on Q1's
exact text never returns a record whose text normalizes to Q2's, while on
Q2's text it returns Q1 with the computed overlap similarity whenever the
entity overlap is nonempty and exceeds the 0.3 threshold. -/
theorem claim_C4 (md5_8 : String → String) (hinj : Function.Injective md5_8)
    (g0 : Graph) (hinv : QGraphInv md5_8 g0) (c1 c2 : QueryCall)
    (hne : normQ c1.text ≠ normQ c2.text)
    (hnew : queryNodeKey md5_8 c2.text ∉ g0.nodeKeys) :
    (∀ (k : Nat) (r : SimilarRec),
        r ∈ find_similar_queries md5_8
            (add_query md5_8 (add_query md5_8 g0 c1) c2) c1.text k →
        normQ r.query ≠ normQ c2.text)
    ∧ (((_extract_entities c2.text).filter
          (fun e => (_extract_entities c1.text).contains e)).isEmpty = false →
        (((_extract_entities c2.text).filter
            (fun e => (_extract_entities c1.text).contains e)).length : ℚ) /
          (max (max (_extract_entities c2.text).length
            (_extract_entities c1.text).length) 1 : ℚ) > 3 / 10 →
        ∃ K, ({ query := c1.text, sql := c1.sqlq,
                similarity := (((_extract_entities c2.text).filter
                    (fun e => (_extract_entities c1.text).contains e)).length : ℚ) /
                  (max (max (_extract_entities c2.text).length
                    (_extract_entities c1.text).length) 1 : ℚ) } : SimilarRec)
            ∈ find_similar_queries md5_8
                (add_query md5_8 (add_query md5_8 g0 c1) c2) c2.text K) := by
  have hk12 : queryNodeKey md5_8 c1.text ≠ queryNodeKey md5_8 c2.text :=
    fun h => hne (queryNodeKey_injective md5_8 hinj h)
  have hinv1 : QGraphInv md5_8 (add_query md5_8 g0 c1) := add_query_inv md5_8 c1 hinv
  have hinv2 : QGraphInv md5_8 (add_query md5_8 (add_query md5_8 g0 c1) c2) :=
    add_query_inv md5_8 c2 hinv1
  constructor
  · intro k r hr
    rw [find_similar_eq] at hr
    by_cases hq : (add_query md5_8 (add_query md5_8 g0 c1) c2).hasNode
        (queryNodeKey md5_8 c1.text) = true
    · rw [if_pos hq] at hr
      have hr1 := (List.take_sublist _ _).subset hr
      have hr2 := (mem_sortDesc _).mp hr1
      obtain ⟨n, hnsucc, hnq, hrec⟩ := (mem_simFoldr _).mp hr2
      rw [add_query_successors_ne md5_8 c2
        (isQueryKey_queryNodeKey md5_8 c1.text) hk12] at hnsucc
      have hn0 : n ∈ g0.nodeKeys :=
        add_query_succ_query_sub md5_8 c1 hinv.edgeNodes n hnq hnsucc
      have hnk2 : n ≠ queryNodeKey md5_8 c2.text := fun h => hnew (h ▸ hn0)
      have hhn2 : (add_query md5_8 (add_query md5_8 g0 c1) c2).hasNode n = true :=
        add_query_hasNode_mono md5_8 c2
          (add_query_hasNode_mono md5_8 c1 (hasNode_iff.mpr hn0))
      obtain ⟨a, ha⟩ := nodeAttr_isSome_of_hasNode hhn2
      obtain ⟨p, hp, hp1, hp2⟩ := nodeAttr_entry ha
      obtain ⟨t, htex, hkey⟩ := hinv2.textKey p hp (by rw [hp1]; exact hnq)
      have hat : a.text = some t := by rw [← hp2]; exact htex
      have hrq : r.query = t := by
        rw [hrec]
        show ((((add_query md5_8 (add_query md5_8 g0 c1) c2).nodeAttr n).map
          (·.text)).join).getD "" = t
        rw [ha]
        simp [hat]
      intro hcontra
      apply hnk2
      have hn : n = queryNodeKey md5_8 t := by rw [← hp1]; exact hkey
      have hteq : normQ t = normQ c2.text := by rw [← hrq]; exact hcontra
      rw [hn]
      unfold queryNodeKey
      rw [hteq]
    · rw [if_neg hq] at hr
      cases hr
  · intro hcom hsim
    have hattr1 : (add_query md5_8 g0 c1).nodeAttr (queryNodeKey md5_8 c1.text)
        = some { type := some "query", text := some c1.text, sql := some c1.sqlq,
                 timestamp := some c1.timestamp } := add_query_nodeAttr_self md5_8 g0 c1
    have hnodup1 : (add_query md5_8 g0 c1).nodeKeys.Nodup :=
      add_query_nodup md5_8 c1 hinv.keysNodup
    have hedge := add_query_sim_edge md5_8 c2
      (isQueryKey_queryNodeKey md5_8 c1.text) hk12 hattr1 rfl hnodup1 hcom hsim
    have hattr2 : (add_query md5_8 (add_query md5_8 g0 c1) c2).nodeAttr
        (queryNodeKey md5_8 c1.text)
        = some { type := some "query", text := some c1.text, sql := some c1.sqlq,
                 timestamp := some c1.timestamp } := by
      rw [add_query_nodeAttr_query_ne md5_8
        (isQueryKey_queryNodeKey md5_8 c1.text) hk12]
      exact hattr1
    obtain ⟨e, he, he1, he2, he3⟩ := edge_of_edgeAttr_some hedge
    have hsucc : queryNodeKey md5_8 c1.text
        ∈ (add_query md5_8 (add_query md5_8 g0 c1) c2).successors
            (queryNodeKey md5_8 c2.text) := mem_successors.mpr ⟨e, he, he1, he2⟩
    have hk2has : (add_query md5_8 (add_query md5_8 g0 c1) c2).hasNode
        (queryNodeKey md5_8 c2.text) = true :=
      add_query_hasNode_self md5_8 (add_query md5_8 g0 c1) c2
    have hrec : ({ query := c1.text, sql := c1.sqlq,
                   similarity := (((_extract_entities c2.text).filter
                       (fun e => (_extract_entities c1.text).contains e)).length : ℚ) /
                     (max (max (_extract_entities c2.text).length
                       (_extract_entities c1.text).length) 1 : ℚ) } : SimilarRec)
        = { query := ((((add_query md5_8 (add_query md5_8 g0 c1) c2).nodeAttr
              (queryNodeKey md5_8 c1.text)).map (·.text)).join).getD "",
            sql := ((((add_query md5_8 (add_query md5_8 g0 c1) c2).nodeAttr
              (queryNodeKey md5_8 c1.text)).map (·.sql)).join).getD "",
            similarity := ((((add_query md5_8 (add_query md5_8 g0 c1) c2).edgeAttr
              (queryNodeKey md5_8 c2.text) (queryNodeKey md5_8 c1.text)).map
              (·.similarity)).join).getD 0 } := by
      rw [hattr2, hedge]
      rfl
    have hmem := (mem_sortDesc _).mpr ((mem_simFoldr _).mpr
      ⟨queryNodeKey md5_8 c1.text, hsucc,
        isQueryKey_queryNodeKey md5_8 c1.text, hrec⟩)
    obtain ⟨K, hK⟩ := exists_take_mem hmem
    refine ⟨K, ?_⟩
    rw [find_similar_eq, if_pos hk2has]
    exact hK

/-- Witness for C4 at `md5_8 := id`, with Q1 = A, Q2 = B over the empty
graph. -/
theorem claim_C4_witness :
    (∀ (k : Nat) (r : SimilarRec),
        r ∈ find_similar_queries id
            (add_query id (add_query id emptyGraph callA) callB) callA.text k →
        normQ r.query ≠ normQ callB.text)
    ∧ (((_extract_entities callB.text).filter
          (fun e => (_extract_entities callA.text).contains e)).isEmpty = false →
        (((_extract_entities callB.text).filter
            (fun e => (_extract_entities callA.text).contains e)).length : ℚ) /
          (max (max (_extract_entities callB.text).length
            (_extract_entities callA.text).length) 1 : ℚ) > 3 / 10 →
        ∃ K, ({ query := callA.text, sql := callA.sqlq,
                similarity := (((_extract_entities callB.text).filter
                    (fun e => (_extract_entities callA.text).contains e)).length : ℚ) /
                  (max (max (_extract_entities callB.text).length
                    (_extract_entities callA.text).length) 1 : ℚ) } : SimilarRec)
            ∈ find_similar_queries id
                (add_query id (add_query id emptyGraph callA) callB) callB.text K) :=
  claim_C4 id (fun a b h => h) emptyGraph
    ⟨fun p hp => absurd hp (List.not_mem_nil p),
     fun e he => absurd he (List.not_mem_nil e), List.nodup_nil⟩
    callA callB (by decide) (by decide)

/-! ### Claim C10: similarity edges ignore the entities/tables arguments -/

theorem simEdges_addNode (g : Graph) (k : String) (a : NodeAttrs) :
    simEdges (g.addNode k a) = simEdges g := by
  unfold simEdges
  rw [edges_addNode]

theorem queryNodeTexts_congr_nodes {g1 g2 : Graph} (h : g1.nodes = g2.nodes) :
    queryNodeTexts g1 = queryNodeTexts g2 := by
  unfold queryNodeTexts
  rw [h]

theorem queryNodeTexts_addNode_nonquery {g : Graph} {k : String} (a : NodeAttrs)
    (hk : isQueryKey k = false) :
    queryNodeTexts (g.addNode k a) = queryNodeTexts g := by
  unfold queryNodeTexts Graph.addNode
  by_cases hh : g.hasNode k = true
  · rw [if_pos hh]
    show ((g.nodes.map (fun p => if p.1 == k then (k, a) else p)).filter
        (fun p => isQueryKey p.1)).map (fun p => (p.1, p.2.text))
      = (g.nodes.filter (fun p => isQueryKey p.1)).map (fun p => (p.1, p.2.text))
    rw [filter_map_comm _ _ _ (by
      intro e _
      by_cases hek : (e.1 == k) = true
      · simp only [hek, if_true]
        rw [beq_iff_eq.mp hek]
      · simp only [hek, Bool.false_eq_true, if_false])]
    rw [List.map_map]
    apply List.map_congr_left
    intro p hp
    have hpq : isQueryKey p.1 = true := (List.mem_filter.mp hp).2
    have hpk : (p.1 == k) = false := by
      rw [beq_eq_false_iff_ne]
      exact ne_of_queryKey_mismatch hpq hk
    simp [Function.comp, hpk]
  · rw [if_neg hh]
    show ((g.nodes ++ [(k, a)]).filter (fun p => isQueryKey p.1)).map
        (fun p => (p.1, p.2.text))
      = (g.nodes.filter (fun p => isQueryKey p.1)).map (fun p => (p.1, p.2.text))
    rw [List.filter_append]
    have : ([(k, a)] : List (String × NodeAttrs)).filter
        (fun p => isQueryKey p.1) = [] := by
      simp [List.filter, hk]
    rw [this, List.append_nil]

theorem queryNodeTexts_addEdge_present {g : Graph} {u v : String} (a : EdgeAttrs)
    (hu : g.hasNode u = true) (hv : g.hasNode v = true) :
    queryNodeTexts (g.addEdge u v a) = queryNodeTexts g :=
  queryNodeTexts_congr_nodes (nodes_addEdge_of_present a hu hv)

theorem simEdges_addEdge_nonsim {g : Graph} {u v : String} {a : EdgeAttrs}
    (ha : ¬a.relationship = some "similar_to")
    (hold : ∀ e ∈ g.edges, e.1 = u → e.2.1 = v →
      ¬e.2.2.relationship = some "similar_to") :
    simEdges (g.addEdge u v a) = simEdges g := by
  unfold simEdges
  rw [edges_addEdge]
  by_cases hh : g.hasEdge u v = true
  · rw [if_pos hh]
    rw [filter_map_comm _ _ _ (by
      intro e he
      by_cases hm : (e.1 == u && e.2.1 == v) = true
      · have h1 : e.1 = u := beq_iff_eq.mp ((Bool.and_eq_true _ _).mp hm).1
        have h2 : e.2.1 = v := beq_iff_eq.mp ((Bool.and_eq_true _ _).mp hm).2
        simp only [hm, if_true]
        show (a.relationship == some "similar_to")
          = (e.2.2.relationship == some "similar_to")
        rw [beq_eq_false_iff_ne.mpr ha, beq_eq_false_iff_ne.mpr (hold e he h1 h2)]
      · simp only [hm, Bool.false_eq_true, if_false])]
    have hid : ∀ e ∈ g.edges.filter
        (fun e => e.2.2.relationship == some "similar_to"),
        (if e.1 == u && e.2.1 == v then (u, v, a) else e) = e := by
      intro e he
      have hP : (e.2.2.relationship == some "similar_to") = true :=
        (List.mem_filter.mp he).2
      have hsim : e.2.2.relationship = some "similar_to" := beq_iff_eq.mp hP
      have hm : (e.1 == u && e.2.1 == v) = false := by
        by_contra hc
        have hc' : (e.1 == u && e.2.1 == v) = true := by
          revert hc; cases (e.1 == u && e.2.1 == v) <;> simp
        have h1 : e.1 = u := beq_iff_eq.mp ((Bool.and_eq_true _ _).mp hc').1
        have h2 : e.2.1 = v := beq_iff_eq.mp ((Bool.and_eq_true _ _).mp hc').2
        exact hold e (List.mem_filter.mp he).1 h1 h2 hsim
      rw [hm]
      simp
    rw [List.map_congr_left hid]
    simp
  · rw [if_neg hh, List.filter_append]
    have : ([(u, v, a)] : List (String × String × EdgeAttrs)).filter
        (fun e => e.2.2.relationship == some "similar_to") = [] := by
      simp [List.filter, beq_eq_false_iff_ne.mpr ha]
    rw [this, List.append_nil]

theorem simEdges_addEdge_sim {g : Graph} {u v : String} {a : EdgeAttrs}
    (ha : a.relationship = some "similar_to")
    (hold : ∀ e ∈ g.edges, e.1 = u → e.2.1 = v →
      e.2.2.relationship = some "similar_to") :
    simEdges (g.addEdge u v a)
      = (if g.hasEdge u v then
          (simEdges g).map (fun e => if e.1 == u && e.2.1 == v then (u, v, a) else e)
        else simEdges g ++ [(u, v, a)]) := by
  unfold simEdges
  rw [edges_addEdge]
  by_cases hh : g.hasEdge u v = true
  · rw [if_pos hh, if_pos hh]
    rw [filter_map_comm _ _ _ (by
      intro e he
      by_cases hm : (e.1 == u && e.2.1 == v) = true
      · have h1 : e.1 = u := beq_iff_eq.mp ((Bool.and_eq_true _ _).mp hm).1
        have h2 : e.2.1 = v := beq_iff_eq.mp ((Bool.and_eq_true _ _).mp hm).2
        simp only [hm, if_true]
        show (a.relationship == some "similar_to")
          = (e.2.2.relationship == some "similar_to")
        rw [beq_iff_eq.mpr ha, beq_iff_eq.mpr (hold e he h1 h2)]
      · simp only [hm, Bool.false_eq_true, if_false])]
  · rw [if_neg hh, if_neg hh, List.filter_append]
    have : ([(u, v, a)] : List (String × String × EdgeAttrs)).filter
        (fun e => e.2.2.relationship == some "similar_to") = [(u, v, a)] := by
      simp [List.filter, beq_iff_eq.mpr ha]
    rw [this]

theorem swf_addNode {g : Graph} (k : String) (a : NodeAttrs)
    (hswf : SimEdgesWellFormed g) : SimEdgesWellFormed (g.addNode k a) := by
  intro e he
  rw [edges_addNode] at he
  exact hswf e he

theorem swf_addEdge {g : Graph} {u v : String} {a : EdgeAttrs}
    (hiff : a.relationship = some "similar_to" ↔
      (isQueryKey u = true ∧ isQueryKey v = true))
    (hswf : SimEdgesWellFormed g) : SimEdgesWellFormed (g.addEdge u v a) := by
  intro e he
  rw [edges_addEdge] at he
  by_cases hh : g.hasEdge u v = true
  · rw [if_pos hh] at he
    obtain ⟨e0, he0, hfe⟩ := List.mem_map.mp he
    by_cases hm : (e0.1 == u && e0.2.1 == v) = true
    · rw [if_pos hm] at hfe
      rw [← hfe]
      exact hiff
    · rw [if_neg hm] at hfe
      rw [← hfe]
      exact hswf e0 he0
  · rw [if_neg hh] at he
    rcases List.mem_append.mp he with h1 | h1
    · exact hswf e h1
    · rw [List.mem_singleton.mp h1]
      exact hiff

theorem find?_filter_of_imp {α : Type} (P Q : α → Bool) :
    ∀ l : List α, (∀ a ∈ l, P a = true → Q a = true) →
      (l.filter Q).find? P = l.find? P := by
  intro l
  induction l with
  | nil => intro _; rfl
  | cons a as ih =>
    intro h
    rw [List.filter_cons]
    by_cases hQ : Q a = true
    · rw [if_pos hQ]
      by_cases hP : P a = true
      · rw [List.find?_cons_of_pos _ hP, List.find?_cons_of_pos _ hP]
      · rw [List.find?_cons_of_neg _ (by simpa using hP),
          List.find?_cons_of_neg _ (by simpa using hP)]
        exact ih (fun x hx => h x (by simp [hx]))
    · rw [if_neg hQ]
      have hP : ¬P a = true := fun hp => hQ (h a (by simp) hp)
      rw [List.find?_cons_of_neg _ (by simpa using hP)]
      exact ih (fun x hx => h x (by simp [hx]))

theorem find?_text_map (x : String) :
    ∀ l : List (String × NodeAttrs),
      ((l.map (fun p => (p.1, p.2.text))).find? (fun p => p.1 == x)).map (·.2)
        = (l.find? (fun p => p.1 == x)).map (fun p => p.2.text) := by
  intro l
  induction l with
  | nil => rfl
  | cons p ps ih =>
    rw [List.map_cons]
    by_cases hp : (p.1 == x) = true
    · rw [show ((p.1, p.2.text) :: ps.map (fun p => (p.1, p.2.text))).find?
          (fun p => p.1 == x) = some (p.1, p.2.text) from
          List.find?_cons_of_pos _ (by simpa using hp)]
      rw [show (p :: ps).find? (fun p => p.1 == x) = some p from
          List.find?_cons_of_pos _ hp]
      rfl
    · rw [show ((p.1, p.2.text) :: ps.map (fun p => (p.1, p.2.text))).find?
          (fun p => p.1 == x) = (ps.map (fun p => (p.1, p.2.text))).find?
          (fun p => p.1 == x) from List.find?_cons_of_neg _ (by simpa using hp)]
      rw [show (p :: ps).find? (fun p => p.1 == x) = ps.find? (fun p => p.1 == x)
          from List.find?_cons_of_neg _ (by simpa using hp)]
      exact ih

theorem nodeAttr_text_eq (g : Graph) {x : String} (hx : isQueryKey x = true) :
    (g.nodeAttr x).map (·.text)
      = ((queryNodeTexts g).find? (fun p => p.1 == x)).map (·.2) := by
  unfold Graph.nodeAttr queryNodeTexts
  rw [find?_text_map x]
  rw [find?_filter_of_imp _ _ _ (by
    intro p _ hP
    rw [beq_iff_eq.mp hP]
    exact hx)]
  rw [Option.map_map]
  rfl

theorem filter_map_fst {β : Type} (P : String → Bool) :
    ∀ l : List (String × β),
      (l.map (·.1)).filter P = (l.filter (fun p => P p.1)).map (·.1) := by
  intro l
  induction l with
  | nil => rfl
  | cons p ps ih =>
    rw [List.map_cons, List.filter_cons, List.filter_cons]
    by_cases hp : P p.1 = true
    · rw [if_pos hp, if_pos hp, List.map_cons, ih]
    · rw [if_neg hp, if_neg hp, ih]

theorem queryKeys_eq_map_fst (g : Graph) :
    g.queryKeys = (queryNodeTexts g).map (·.1) := by
  unfold Graph.queryKeys Graph.nodeKeys queryNodeTexts
  rw [filter_map_fst, List.map_map]
  rfl

theorem filter_and_eq {α : Type} (p q : α → Bool) :
    ∀ l : List α, l.filter (fun a => p a && q a) = (l.filter p).filter q := by
  intro l
  induction l with
  | nil => rfl
  | cons a as ih =>
    by_cases hp : p a = true
    · by_cases hq : q a = true
      · rw [List.filter_cons, if_pos (by simp [hp, hq]), List.filter_cons,
          if_pos hp, List.filter_cons, if_pos hq, ih]
      · rw [List.filter_cons, if_neg (by simp [hp, hq]), List.filter_cons,
          if_pos hp, List.filter_cons, if_neg hq, ih]
    · rw [List.filter_cons, if_neg (by simp [hp]), List.filter_cons,
        if_neg hp, ih]

theorem foldl_filter_of_ignored {α β : Type} (step : β → α → β) (cond : α → Bool)
    (hig : ∀ b a, cond a = false → step b a = b) :
    ∀ (l : List α) (b : β), l.foldl step b = (l.filter cond).foldl step b := by
  intro l
  induction l with
  | nil => intro b; rfl
  | cons a as ih =>
    intro b
    rw [List.foldl_cons, List.filter_cons]
    cases hc : cond a
    · rw [if_neg (by simp [hc]), hig b a hc, ih]
    · rw [if_pos (by simp [hc]), List.foldl_cons, ih]

theorem connectStep_ignored {k : String} {es : List String} (g' : Graph)
    (node : String)
    (h : (strStartsWith node "query:" && node != k) = false) :
    connectStep k es g' node = g' := by
  rw [connectStep_eq]
  rw [if_neg (by rw [h]; exact fun hc => nomatch hc)]

theorem connectStep_lockstep (k : String) (hkq : isQueryKey k = true)
    (es : List String) (node : String) {g1 g2 : Graph}
    (hR : ConnSimView k g1 g2) :
    ConnSimView k (connectStep k es g1 node) (connectStep k es g2 node) := by
  obtain ⟨hQNT, hSE, hHE, hW1, hW2, hN1, hN2⟩ := hR
  by_cases h1 : (strStartsWith node "query:" && node != k) = true
  · have hnq : isQueryKey node = true := ((Bool.and_eq_true _ _).mp h1).1
    have htext : ((((g1.nodeAttr node).map (·.text)).join).getD "")
        = ((((g2.nodeAttr node).map (·.text)).join).getD "") := by
      rw [nodeAttr_text_eq g1 hnq, nodeAttr_text_eq g2 hnq, hQNT]
    rw [connectStep_eq, connectStep_eq, if_pos h1, if_pos h1, htext]
    cases hE : (es.filter (fun e =>
        (_extract_entities ((((g2.nodeAttr node).map (·.text)).join).getD "")).contains
          e)).isEmpty
    · rw [if_pos (show (!false) = true from rfl),
        if_pos (show (!false) = true from rfl)]
      by_cases hS : ((es.filter (fun e =>
          (_extract_entities ((((g2.nodeAttr node).map (·.text)).join).getD "")).contains
            e)).length : ℚ) /
          (max (max es.length
            (_extract_entities ((((g2.nodeAttr node).map (·.text)).join).getD "")).length)
            1 : ℚ) > 3 / 10
      · rw [if_pos hS, if_pos hS]
        have hp2 : g2.hasNode node = true := connectStep_node_present hE
        have hp1 : g1.hasNode node = true :=
          connectStep_node_present (by rw [htext]; exact hE)
        have hnodes1 := nodes_addEdge_of_present
          { relationship := some "similar_to",
            similarity := some (((es.filter (fun e =>
                (_extract_entities
                  ((((g2.nodeAttr node).map (·.text)).join).getD "")).contains
                  e)).length : ℚ) /
              (max (max es.length
                (_extract_entities
                  ((((g2.nodeAttr node).map (·.text)).join).getD "")).length) 1 : ℚ)) }
          hN1 hp1
        have hnodes2 := nodes_addEdge_of_present
          { relationship := some "similar_to",
            similarity := some (((es.filter (fun e =>
                (_extract_entities
                  ((((g2.nodeAttr node).map (·.text)).join).getD "")).contains
                  e)).length : ℚ) /
              (max (max es.length
                (_extract_entities
                  ((((g2.nodeAttr node).map (·.text)).join).getD "")).length) 1 : ℚ)) }
          hN2 hp2
        have hold1 : ∀ e ∈ g1.edges, e.1 = k → e.2.1 = node →
            e.2.2.relationship = some "similar_to" := by
          intro e he ha hb
          exact (hW1 e he).mpr ⟨ha ▸ hkq, hb ▸ hnq⟩
        have hold2 : ∀ e ∈ g2.edges, e.1 = k → e.2.1 = node →
            e.2.2.relationship = some "similar_to" := by
          intro e he ha hb
          exact (hW2 e he).mpr ⟨ha ▸ hkq, hb ▸ hnq⟩
        refine ⟨?_, ?_, ?_, ?_, ?_, ?_, ?_⟩
        · rw [queryNodeTexts_congr_nodes hnodes1,
            queryNodeTexts_congr_nodes hnodes2]
          exact hQNT
        · rw [simEdges_addEdge_sim rfl hold1, simEdges_addEdge_sim rfl hold2,
            hSE, hHE node hnq]
        · intro n hn
          rw [hasEdge_addEdge, hasEdge_addEdge, hHE n hn]
        · exact swf_addEdge ⟨fun _ => ⟨hkq, hnq⟩, fun _ => rfl⟩ hW1
        · exact swf_addEdge ⟨fun _ => ⟨hkq, hnq⟩, fun _ => rfl⟩ hW2
        · exact hasNode_addEdge_mono _ _ _ hN1
        · exact hasNode_addEdge_mono _ _ _ hN2
      · rw [if_neg hS, if_neg hS]
        exact ⟨hQNT, hSE, hHE, hW1, hW2, hN1, hN2⟩
    · rw [if_neg (show ¬((!true) = true) from fun hc => nomatch hc),
        if_neg (show ¬((!true) = true) from fun hc => nomatch hc)]
      exact ⟨hQNT, hSE, hHE, hW1, hW2, hN1, hN2⟩
  · have h1' : (strStartsWith node "query:" && node != k) = false := by
      revert h1
      cases (strStartsWith node "query:" && node != k) <;> simp
    rw [connectStep_ignored g1 node h1', connectStep_ignored g2 node h1']
    exact ⟨hQNT, hSE, hHE, hW1, hW2, hN1, hN2⟩

theorem connect_fold_lockstep (k : String) (hkq : isQueryKey k = true)
    (es : List String) :
    ∀ (l : List String) (g1 g2 : Graph), ConnSimView k g1 g2 →
      ConnSimView k (l.foldl (connectStep k es) g1)
        (l.foldl (connectStep k es) g2) := by
  intro l
  induction l with
  | nil => intro g1 g2 h; exact h
  | cons n ns ih =>
    intro g1 g2 h
    rw [List.foldl_cons, List.foldl_cons]
    exact ih _ _ (connectStep_lockstep k hkq es n h)

theorem auxStep_simFacts {q K : String} {A : NodeAttrs} {ea : EdgeAttrs}
    (hkq : isQueryKey q = true) (hK : isQueryKey K = false)
    (hea : ¬ea.relationship = some "similar_to")
    {g' : Graph} (hq : g'.hasNode q = true) (hswf : SimEdgesWellFormed g') :
    simEdges ((g'.addNode K A).addEdge q K ea) = simEdges g'
    ∧ queryNodeTexts ((g'.addNode K A).addEdge q K ea) = queryNodeTexts g'
    ∧ SimEdgesWellFormed ((g'.addNode K A).addEdge q K ea)
    ∧ (∀ n, isQueryKey n = true →
        ((g'.addNode K A).addEdge q K ea).hasEdge q n = g'.hasEdge q n) := by
  have hq1 : (g'.addNode K A).hasNode q = true := hasNode_addNode_mono _ _ hq
  have hK1 : (g'.addNode K A).hasNode K = true := hasNode_addNode_self _ _ _
  have hswf1 : SimEdgesWellFormed (g'.addNode K A) := swf_addNode _ _ hswf
  refine ⟨?_, ?_, ?_, ?_⟩
  · have hold : ∀ e ∈ (g'.addNode K A).edges, e.1 = q → e.2.1 = K →
        ¬e.2.2.relationship = some "similar_to" := by
      intro e he _ h2 hcon
      have hx := ((hswf1 e he).mp hcon).2
      rw [h2, hK] at hx
      cases hx
    rw [simEdges_addEdge_nonsim hea hold, simEdges_addNode]
  · rw [queryNodeTexts_addEdge_present ea hq1 hK1,
      queryNodeTexts_addNode_nonquery A hK]
  · exact swf_addEdge
      ⟨fun h => absurd h hea,
       fun h => absurd h.2 (by rw [hK]; exact fun hc => nomatch hc)⟩ hswf1
  · intro n hn
    rw [hasEdge_addEdge, hasEdge_addNode]
    have hKn : (K == n) = false :=
      beq_eq_false_iff_ne.mpr (Ne.symm (ne_of_queryKey_mismatch hn hK))
    rw [hKn, Bool.and_false, Bool.or_false]

theorem auxFold_simFacts (q : String) (kf : String → String)
    (mkA : String → NodeAttrs) (ea : EdgeAttrs) (step : Graph → String → Graph)
    (hkq : isQueryKey q = true)
    (hkey : ∀ s, isQueryKey (kf s) = false)
    (hea : ¬ea.relationship = some "similar_to")
    (hstep : ∀ g'' x, step g'' x = (g''.addNode (kf x) (mkA x)).addEdge q (kf x) ea) :
    ∀ (es : List String) (g' : Graph), g'.hasNode q = true →
      SimEdgesWellFormed g' →
      simEdges (es.foldl step g') = simEdges g'
      ∧ queryNodeTexts (es.foldl step g') = queryNodeTexts g'
      ∧ SimEdgesWellFormed (es.foldl step g')
      ∧ (∀ n, isQueryKey n = true →
          (es.foldl step g').hasEdge q n = g'.hasEdge q n) := by
  intro es
  induction es with
  | nil => intro g' _ hswf; exact ⟨rfl, rfl, hswf, fun _ _ => rfl⟩
  | cons e es' ih =>
    intro g' hq hswf
    obtain ⟨s1, s2, s3, s4⟩ :=
      @auxStep_simFacts q (kf e) (mkA e) ea hkq (hkey e) hea g' hq hswf
    have hstepe := hstep g' e
    have hq1 : (step g' e).hasNode q = true := by
      rw [hstepe]
      exact hasNode_addEdge_mono _ _ _ (hasNode_addNode_mono _ _ hq)
    have hswf1 : SimEdgesWellFormed (step g' e) := by rw [hstepe]; exact s3
    obtain ⟨i1, i2, i3, i4⟩ := ih (step g' e) hq1 hswf1
    rw [List.foldl_cons]
    refine ⟨?_, ?_, i3, ?_⟩
    · rw [i1, hstepe, s1]
    · rw [i2, hstepe, s2]
    · intro n hn
      rw [i4 n hn, hstepe, s4 n hn]

theorem coreSWF {g : Graph} {qn sn rn : String} {QA SA RA : NodeAttrs}
    (hqs : isQueryKey sn = false) (hqr : isQueryKey rn = false)
    (hswf : SimEdgesWellFormed g) :
    SimEdgesWellFormed (((((g.addNode qn QA).addNode sn SA).addEdge qn sn
        { relationship := some "generates" }).addNode rn RA).addEdge sn rn
        { relationship := some "returns" }) := by
  apply swf_addEdge
  · refine ⟨fun h => absurd h (by decide), fun h => ?_⟩
    exact absurd h.1 (by rw [hqs]; exact fun hc => nomatch hc)
  · apply swf_addNode
    apply swf_addEdge
    · refine ⟨fun h => absurd h (by decide), fun h => ?_⟩
      exact absurd h.2 (by rw [hqs]; exact fun hc => nomatch hc)
    · exact swf_addNode _ _ (swf_addNode _ _ hswf)

theorem preConnect_mk (m : String → String) (g : Graph)
    (text sqlq res ts : String) (eo tso : Option (List String)) :
    preConnect m g { text := text, sqlq := sqlq, result := res,
                     entities := eo, tables := tso, timestamp := ts }
      = ((tso.getD []).foldl (tableStep (queryNodeKey m text))
          ((eo.getD []).foldl (entityStep (queryNodeKey m text))
            (((((g.addNode (queryNodeKey m text)
                  { type := some "query", text := some text, sql := some sqlq,
                    timestamp := some ts }).addNode
                ("sql:" ++ _hash_sql m sqlq)
                  { type := some "sql", query := some sqlq }).addEdge
                (queryNodeKey m text) ("sql:" ++ _hash_sql m sqlq)
                  { relationship := some "generates" }).addNode
                ("result:" ++ _hash_query m text)
                  { type := some "result", data := some res }).addEdge
                ("sql:" ++ _hash_sql m sqlq) ("result:" ++ _hash_query m text)
                  { relationship := some "returns" }))) := by
  unfold preConnect
  cases eo <;> cases tso <;> rfl

theorem add_query_mk (m : String → String) (g : Graph)
    (text sqlq res ts : String) (eo tso : Option (List String)) :
    add_query m g { text := text, sqlq := sqlq, result := res,
                    entities := eo, tables := tso, timestamp := ts }
      = (preConnect m g { text := text, sqlq := sqlq, result := res,
                          entities := eo, tables := tso,
                          timestamp := ts }).nodeKeys.foldl
          (connectStep (queryNodeKey m text) (_extract_entities text))
          (preConnect m g { text := text, sqlq := sqlq, result := res,
                            entities := eo, tables := tso,
                            timestamp := ts }) := rfl

theorem queryKeys_def (g : Graph) :
    g.nodeKeys.filter isQueryKey = g.queryKeys := rfl

theorem connect_sim_eq (m : String → String) (text : String)
    {G1 G2 : Graph}
    (hqnt : queryNodeTexts G1 = queryNodeTexts G2)
    (hse : simEdges G1 = simEdges G2)
    (hhe : ∀ n, isQueryKey n = true →
      G1.hasEdge (queryNodeKey m text) n = G2.hasEdge (queryNodeKey m text) n)
    (hw1 : SimEdgesWellFormed G1) (hw2 : SimEdgesWellFormed G2)
    (h1 : G1.hasNode (queryNodeKey m text) = true)
    (h2 : G2.hasNode (queryNodeKey m text) = true) :
    simEdges (G1.nodeKeys.foldl
        (connectStep (queryNodeKey m text) (_extract_entities text)) G1)
      = simEdges (G2.nodeKeys.foldl
        (connectStep (queryNodeKey m text) (_extract_entities text)) G2) := by
  rw [foldl_filter_of_ignored (connectStep (queryNodeKey m text)
        (_extract_entities text))
      (fun n => isQueryKey n && n != queryNodeKey m text)
      (fun b a h => connectStep_ignored b a h) G1.nodeKeys G1,
    foldl_filter_of_ignored (connectStep (queryNodeKey m text)
        (_extract_entities text))
      (fun n => isQueryKey n && n != queryNodeKey m text)
      (fun b a h => connectStep_ignored b a h) G2.nodeKeys G2]
  have hqk : G1.queryKeys = G2.queryKeys := by
    rw [queryKeys_eq_map_fst, queryKeys_eq_map_fst, hqnt]
  have hsplit := filter_and_eq isQueryKey (fun n => n != queryNodeKey m text)
  rw [hsplit, hsplit, queryKeys_def, queryKeys_def, hqk]
  exact (connect_fold_lockstep (queryNodeKey m text)
    (isQueryKey_queryNodeKey m text) (_extract_entities text) _ G1 G2
    ⟨hqnt, hse, hhe, hw1, hw2, h1, h2⟩).2.1

/-- C10: the `similar_to` edges `add_query` produces do not depend on the
caller-supplied `entities` and `tables` arguments: two runs on the same
prior graph with the same text, SQL, result and timestamp but different
entity/table lists (including `None`) produce identical `similar_to`
edge lists, because the similarity is recomputed from the fixed keyword
vocabulary over the stored texts. -/
theorem claim_C10 (md5_8 : String → String) (g : Graph)
    (hswf : SimEdgesWellFormed g) (text sqlq res ts : String)
    (e1 e2 t1 t2 : Option (List String)) :
    simEdges (add_query md5_8 g
        { text := text, sqlq := sqlq, result := res, entities := e1,
          tables := t1, timestamp := ts })
      = simEdges (add_query md5_8 g
        { text := text, sqlq := sqlq, result := res, entities := e2,
          tables := t2, timestamp := ts }) := by
  rw [add_query_mk, add_query_mk, preConnect_mk, preConnect_mk]
  have hqq : isQueryKey (queryNodeKey md5_8 text) = true :=
    isQueryKey_queryNodeKey md5_8 text
  obtain ⟨k1, k2, k3, k4, k5, k6, k7, k8, k9, k10⟩ :=
    @coreFacts g (queryNodeKey md5_8 text) ("sql:" ++ _hash_sql md5_8 sqlq)
      ("result:" ++ _hash_query md5_8 text)
      { type := some "query", text := some text, sql := some sqlq,
        timestamp := some ts }
      { type := some "sql", query := some sqlq }
      { type := some "result", data := some res }
      { relationship := some "generates" } { relationship := some "returns" }
      hqq (isQueryKey_sql _) (isQueryKey_result _)
  have hswfC :=
    @coreSWF g (queryNodeKey md5_8 text) ("sql:" ++ _hash_sql md5_8 sqlq)
      ("result:" ++ _hash_query md5_8 text)
      { type := some "query", text := some text, sql := some sqlq,
        timestamp := some ts }
      { type := some "sql", query := some sqlq }
      { type := some "result", data := some res }
      (isQueryKey_sql _) (isQueryKey_result _) hswf
  have hme : ¬({ relationship := some "mentions" } : EdgeAttrs).relationship
      = some "similar_to" := by decide
  have hqu : ¬({ relationship := some "queries" } : EdgeAttrs).relationship
      = some "similar_to" := by decide
  obtain ⟨es1sim, es1qnt, es1swf, es1he⟩ :=
    auxFold_simFacts (queryNodeKey md5_8 text) (fun x => "entity:" ++ x)
      (fun x => { type := some "entity", name := some x })
      { relationship := some "mentions" }
      (entityStep (queryNodeKey md5_8 text)) hqq (fun s => isQueryKey_entity s)
      hme (fun _ _ => rfl) (e1.getD []) _ k3 hswfC
  obtain ⟨_, ee1has, _, ee1qk, _, _, _, _, _⟩ :=
    auxFold_facts (queryNodeKey md5_8 text) (fun x => "entity:" ++ x)
      (fun x => { type := some "entity", name := some x })
      { relationship := some "mentions" }
      (entityStep (queryNodeKey md5_8 text)) (fun s => isQueryKey_entity s)
      (fun _ _ => rfl) (e1.getD []) _ k3
  obtain ⟨ts1sim, ts1qnt, ts1swf, ts1he⟩ :=
    auxFold_simFacts (queryNodeKey md5_8 text) (fun x => "table:" ++ x)
      (fun x => { type := some "table", name := some x })
      { relationship := some "queries" }
      (tableStep (queryNodeKey md5_8 text)) hqq (fun s => isQueryKey_table s)
      hqu (fun _ _ => rfl) (t1.getD []) _ ee1has es1swf
  obtain ⟨_, tt1has, _, tt1qk, _, _, _, _, _⟩ :=
    auxFold_facts (queryNodeKey md5_8 text) (fun x => "table:" ++ x)
      (fun x => { type := some "table", name := some x })
      { relationship := some "queries" }
      (tableStep (queryNodeKey md5_8 text)) (fun s => isQueryKey_table s)
      (fun _ _ => rfl) (t1.getD []) _ ee1has
  obtain ⟨es2sim, es2qnt, es2swf, es2he⟩ :=
    auxFold_simFacts (queryNodeKey md5_8 text) (fun x => "entity:" ++ x)
      (fun x => { type := some "entity", name := some x })
      { relationship := some "mentions" }
      (entityStep (queryNodeKey md5_8 text)) hqq (fun s => isQueryKey_entity s)
      hme (fun _ _ => rfl) (e2.getD []) _ k3 hswfC
  obtain ⟨_, ee2has, _, ee2qk, _, _, _, _, _⟩ :=
    auxFold_facts (queryNodeKey md5_8 text) (fun x => "entity:" ++ x)
      (fun x => { type := some "entity", name := some x })
      { relationship := some "mentions" }
      (entityStep (queryNodeKey md5_8 text)) (fun s => isQueryKey_entity s)
      (fun _ _ => rfl) (e2.getD []) _ k3
  obtain ⟨ts2sim, ts2qnt, ts2swf, ts2he⟩ :=
    auxFold_simFacts (queryNodeKey md5_8 text) (fun x => "table:" ++ x)
      (fun x => { type := some "table", name := some x })
      { relationship := some "queries" }
      (tableStep (queryNodeKey md5_8 text)) hqq (fun s => isQueryKey_table s)
      hqu (fun _ _ => rfl) (t2.getD []) _ ee2has es2swf
  obtain ⟨_, tt2has, _, tt2qk, _, _, _, _, _⟩ :=
    auxFold_facts (queryNodeKey md5_8 text) (fun x => "table:" ++ x)
      (fun x => { type := some "table", name := some x })
      { relationship := some "queries" }
      (tableStep (queryNodeKey md5_8 text)) (fun s => isQueryKey_table s)
      (fun _ _ => rfl) (t2.getD []) _ ee2has
  exact connect_sim_eq md5_8 text
    ((ts1qnt.trans es1qnt).trans ((ts2qnt.trans es2qnt).symm))
    ((ts1sim.trans es1sim).trans ((ts2sim.trans es2sim).symm))
    (fun n hn => ((ts1he n hn).trans (es1he n hn)).trans
      (((ts2he n hn).trans (es2he n hn)).symm))
    ts1swf ts2swf tt1has tt2has

/-- Witness for C10: supplying entities/tables versus supplying none over
the empty graph leaves the same `similar_to` edges. -/
theorem claim_C10_witness :
    simEdges (add_query id emptyGraph
        { text := "show revenue by state", sqlq := "SELECT 1", result := "r",
          entities := some ["user"], tables := some ["orders"],
          timestamp := "t" })
      = simEdges (add_query id emptyGraph
        { text := "show revenue by state", sqlq := "SELECT 1", result := "r",
          entities := none, tables := none, timestamp := "t" }) :=
  claim_C10 id emptyGraph (fun e he => absurd he (List.not_mem_nil e))
    "show revenue by state" "SELECT 1" "r" "t"
    (some ["user"]) none (some ["orders"]) none

end GraphRag
